import Mathlib

/-!
# CCCaster: input history buffer and controller mapping engine

A shallow embedding of `InputsContainer.h` and `lib/Controller.cpp`.

Conventions of the embedding:

* `std::vector` is a `List`; a fixed C array of mapping slots is a total function on
  slot numbers, and an event whose index lies outside the array is undefined
  behaviour;
* undefined behaviour (an out-of-bounds element access, a failed `ASSERT`) is the
  result `none`;
* `uint32_t` arithmetic is arithmetic on `Nat` reduced modulo `2 ^ 32`; `size_t`
  arithmetic is reduced modulo a parameter `W` (`2 ^ 32` or `2 ^ 64`, by platform).
-/

namespace CCCaster

/-! ## Machine integers and vectors -/

/-- Modulus of `uint32_t` arithmetic. -/
def UINT32_MOD : Nat := 2 ^ 32

/-- The call `v.resize ( n, fill )` of `std::vector`: truncate to `n` elements or
append copies of `fill` up to `n` elements. -/
def vresize {α : Type} (xs : List α) (n : Nat) (fill : α) : List α :=
  xs.take n ++ List.replicate (n - xs.length) fill

/-- The call `std::fill ( v.begin() + frame, v.begin() + frame + n, x )`, for a
range that lies inside `v`. -/
def vfill {α : Type} (xs : List α) (frame n : Nat) (x : α) : List α :=
  xs.take frame ++ List.replicate n x ++ xs.drop (frame + n)

/-- The call `std::copy ( t, t + n, &v[frame] )`, for a destination range that
lies inside `v`. -/
def vcopy {α : Type} (xs : List α) (frame : Nat) (src : List α) : List α :=
  xs.take frame ++ src ++ xs.drop (frame + src.length)

/-- The list `xs` extended with copies of `fill` to at least `n` elements: what
`resize` leaves when it does not truncate. -/
def pad {α : Type} (xs : List α) (n : Nat) (fill : α) : List α :=
  xs ++ List.replicate (n - xs.length) fill

/-! ## InputsContainer.h -/

/-- The data members of `InputsContainer<T>`. -/
structure InputsContainer (T : Type) where
  /-- Mapping: index -> frame -> input -/
  inputs : List (List T)
  /-- Mapping: index -> frame -> boolean -/
  real : List (List Bool)
  fillFakeInputs : Bool
  deriving DecidableEq, Repr

namespace InputsContainer

variable {T : Type} [Zero T]

/-- A freshly constructed container. -/
def empty_container : InputsContainer T :=
  { inputs := [], real := [], fillFakeInputs := false }

/-- `T get ( uint32_t index, uint32_t frame ) const`. Every element access is
checked: an access outside the vector would give `none`. -/
def get (c : InputsContainer T) (index frame : Nat) : Option T :=
  if index ≥ c.inputs.length then some 0
  else
    match c.inputs[index]? with
    | none => none
    | some row =>
      if row.isEmpty then some 0
      else if frame ≥ row.length then row.getLast?
      else row[frame]?

/-- `void get ( uint32_t index, uint32_t frame, T *t, size_t n ) const`: the
result is the content written to `t`. A failed `ASSERT` gives `none`, and so does
a copy that would leave the vector (the sum in the second `ASSERT` is a `size_t`
sum and may wrap). -/
def getRange (W : Nat) (c : InputsContainer T) (index frame n : Nat) : Option (List T) :=
  if index < c.inputs.length then
    match c.inputs[index]? with
    | none => none
    | some row =>
      if (frame + n) % W ≤ row.length then
        if frame + n ≤ row.length then some ((row.drop frame).take n) else none
      else none
  else none

/-- `void resize ( uint32_t index, uint32_t frame, size_t n = 1, bool isReal = true )`.
`index + 1` is a `uint32_t` sum, `frame + n` a `size_t` sum. -/
def resize (W : Nat) (c : InputsContainer T) (index frame n : Nat) (isReal : Bool) :
    Option (InputsContainer T) :=
  let inputs1 :=
    if index ≥ c.inputs.length then vresize c.inputs ((index + 1) % UINT32_MOD) []
    else c.inputs
  match inputs1[index]? with
  | none => none
  | some row =>
    let row1 := if (frame + n) % W > row.length then vresize row ((frame + n) % W) 0 else row
    let inputs2 := inputs1.set index row1
    if c.fillFakeInputs then
      let real1 :=
        if index ≥ c.real.length then vresize c.real ((index + 1) % UINT32_MOD) []
        else c.real
      match real1[index]? with
      | none => none
      | some flags =>
        let flags1 :=
          if (frame + n) % W > flags.length then vresize flags ((frame + n) % W) false
          else flags
        if isReal then
          if frame + n ≤ flags1.length then
            some { inputs := inputs2, real := real1.set index (vfill flags1 frame n true),
                   fillFakeInputs := true }
          else none
        else some { inputs := inputs2, real := real1.set index flags1, fillFakeInputs := true }
    else some { inputs := inputs2, real := c.real, fillFakeInputs := false }

/-- `void set ( uint32_t index, uint32_t frame, T t )`. -/
def set (W : Nat) (c : InputsContainer T) (index frame : Nat) (t : T) :
    Option (InputsContainer T) :=
  match resize W c index frame 1 true with
  | none => none
  | some c1 =>
    match c1.inputs[index]? with
    | none => none
    | some row =>
      if frame < row.length then
        some { c1 with inputs := c1.inputs.set index (row.set frame t) }
      else none

/-- `void set ( uint32_t index, uint32_t frame, T t, size_t n )`. -/
def setFill (W : Nat) (c : InputsContainer T) (index frame : Nat) (t : T) (n : Nat) :
    Option (InputsContainer T) :=
  match resize W c index frame n true with
  | none => none
  | some c1 =>
    match c1.inputs[index]? with
    | none => none
    | some row =>
      if frame + n ≤ row.length then
        some { c1 with inputs := c1.inputs.set index (vfill row frame n t) }
      else none

/-- `void set ( uint32_t index, uint32_t frame, const T *t, size_t n )`. The
caller's array is the list `t`, of which the first `n` elements are copied; reading
more elements than the array has is undefined. -/
def setCopy (W : Nat) (c : InputsContainer T) (index frame : Nat) (t : List T) (n : Nat) :
    Option (InputsContainer T) :=
  match resize W c index frame n true with
  | none => none
  | some c1 =>
    match c1.inputs[index]? with
    | none => none
    | some row =>
      if n ≤ t.length ∧ frame + n ≤ row.length then
        some { c1 with inputs := c1.inputs.set index (vcopy row frame (t.take n)) }
      else none

/-- `void clear()`. -/
def clear (c : InputsContainer T) : InputsContainer T :=
  { c with inputs := [], real := [] }

/-- `uint32_t getEndIndex() const`. -/
def getEndIndex (c : InputsContainer T) : Nat := c.inputs.length % UINT32_MOD

/-- `uint32_t getEndFrame() const`. -/
def getEndFrame (c : InputsContainer T) : Nat :=
  if c.inputs.isEmpty then 0
  else
    match c.inputs.getLast? with
    | none => 0
    | some row => row.length % UINT32_MOD

/-! ### Vocabulary of the statements about the buffer -/

/-- Length of the sequence stored for `index` (`0` when the index is not allocated). -/
def rowLength (c : InputsContainer T) (index : Nat) : Nat :=
  (c.inputs.getD index []).length

/-- The element stored for `index` at `frame`, if that frame is stored. -/
def frameAt (c : InputsContainer T) (index frame : Nat) : Option T :=
  (c.inputs.getD index [])[frame]?

/-- The sequences after the sizing step of a write to `index` that ends before frame
`m`, when no sum wraps. -/
def grow (inputs : List (List T)) (index m : Nat) : List (List T) :=
  (pad inputs (index + 1) []).set index (pad (inputs.getD index []) m 0)

/-- One call of a writer: the value, fill or array overload of `set`. -/
inductive Write (T : Type) where
  | value (t : T)
  | fill (t : T) (n : Nat)
  | array (t : List T) (n : Nat)

/-- Number of frames a write covers. -/
def Write.count : Write T → Nat
  | .value _ => 1
  | .fill _ n => n
  | .array _ n => n

/-- An array write copies at most the elements its array has. -/
def Write.inBounds : Write T → Prop
  | .value _ => True
  | .fill _ _ => True
  | .array t n => n ≤ t.length

/-- The writer call `w` at `(index, frame)`. -/
def write (W : Nat) (c : InputsContainer T) (index frame : Nat) :
    Write T → Option (InputsContainer T)
  | .value t => set W c index frame t
  | .fill t n => setFill W c index frame t n
  | .array t n => setCopy W c index frame t n

end InputsContainer

/-! ## lib/Controller.cpp -/

/-- 32-bit complement: the operator `~` on a `uint32_t`. -/
def not32 (m : Nat) : Nat := (UINT32_MOD - 1) ^^^ (m % UINT32_MOD)

/-- The struct `KeyboardMappings` of `Controller.h`: one slot per bit of the
action mask. The field `invalidations` counts the calls of `invalidate()`. -/
structure KeyboardMappings where
  name : String
  /-- `uint32_t codes[32]` -/
  codes : Nat → Nat
  /-- `std::string names[32]` -/
  names : Nat → String
  invalidations : Nat

/-- The struct `JoystickMappings` of `Controller.h`. The tables are the arrays
`axes[MAX_NUM_AXES][..]`, `hats[MAX_NUM_HATS][..]` and `buttons[MAX_NUM_BUTTONS]`;
only arguments inside the arrays are slots. The field `invalidations` counts the
calls of `invalidate()`. -/
structure JoystickMappings where
  name : String
  axes : Nat → Nat → Nat
  hats : Nat → Nat → Nat
  buttons : Nat → Nat
  deadzone : Nat
  invalidations : Nat

/-- The capture scratch `joystickMapState`: last observed value of every axis and
hat, and the mask of the buttons held since capture started. -/
structure JoystickMapState where
  axes : Nat → Nat
  hats : Nat → Nat
  buttons : Nat

/-- What the headers that are not part of the sources declare and `Controller.cpp`
uses: the constants of `Controller.h`, `Constants.h` and `windows.h`, the array
dimensions of `JoystickMappings`, the value `JoystickMapState::clear()` leaves, and
the key naming of `getVKeyName` (a table in `KeyboardVKeyNames.h` and the system
call `GetKeyNameText`). -/
structure Constants where
  VK_ESCAPE : Nat
  AXIS_CENTERED : Nat
  AXIS_POSITIVE : Nat
  AXIS_NEGATIVE : Nat
  MAP_PRESERVE_DIRS : Nat
  MAP_CONTINUOUSLY : Nat
  MASK_DIRS : Nat
  MASK_BUTTONS : Nat
  MAX_NUM_AXES : Nat
  MAX_NUM_HATS : Nat
  MAX_NUM_BUTTONS : Nat
  /-- second dimension of `JoystickMappings::axes` -/
  NUM_AXIS_VALUES : Nat
  /-- second dimension of `JoystickMappings::hats` -/
  NUM_HAT_VALUES : Nat
  DEFAULT_DEADZONE : Nat
  /-- the state `JoystickMapState::clear()` leaves -/
  clearedMapState : JoystickMapState
  getVKeyName : Nat → Nat → Bool → String

/-- The three axis values are distinct slots of an axis row, a hat row has the
slots `0 .. 9`, and a button number is a bit of the `uint32_t` mask of held
buttons. -/
def Constants.WF (cfg : Constants) : Prop :=
  cfg.AXIS_CENTERED < cfg.NUM_AXIS_VALUES ∧ cfg.AXIS_POSITIVE < cfg.NUM_AXIS_VALUES ∧
  cfg.AXIS_NEGATIVE < cfg.NUM_AXIS_VALUES ∧ cfg.AXIS_CENTERED ≠ cfg.AXIS_POSITIVE ∧
  cfg.AXIS_CENTERED ≠ cfg.AXIS_NEGATIVE ∧ cfg.AXIS_POSITIVE ≠ cfg.AXIS_NEGATIVE ∧
  10 ≤ cfg.NUM_HAT_VALUES ∧ cfg.MAX_NUM_BUTTONS ≤ 32

instance (cfg : Constants) : Decidable cfg.WF := by
  unfold Constants.WF; infer_instance

/-- The calls a member function makes on its collaborators, in order:
`KeyboardManager::get()` (hook, unhook, matchedKeys, ignoredKeys),
`ControllerManager::get().mappingsChanged ( this )` and
`owner->doneMapping ( this, key )`. -/
inductive Call where
  | hook
  | unhook
  | matchedKeys (keys : List Nat)
  | ignoredKeys (keys : List Nat)
  | mappingsChanged
  | doneMapping (owner : Nat) (key : Nat)
  deriving DecidableEq, Repr

/-- The data members of `Controller` that `Controller.cpp` reads or writes. The
pointer `joystick` is `0` for the keyboard; `owner` is `none` for a null pointer. -/
structure Controller where
  name : String
  joystick : Nat
  numAxes : Nat
  numHats : Nat
  numButtons : Nat
  keyboardMappings : KeyboardMappings
  joystickMappings : JoystickMappings
  joystickMapState : JoystickMapState
  state : Nat
  anyButton : Nat
  owner : Option Nat
  keyToMap : Nat
  waitForNeutral : Bool
  options : Nat

namespace Controller

/-- Modelled from the spec: `isJoystick()` is declared in `Controller.h`, which is
not part of the sources; a device is a joystick when it was constructed with a
joystick handle. -/
def isJoystick (s : Controller) : Bool := s.joystick != 0

/-- Modelled from the spec: `isKeyboard()` is declared in `Controller.h`, which is
not part of the sources; the keyboard is the device without a joystick handle. -/
def isKeyboard (s : Controller) : Bool := s.joystick == 0

/-- Modelled from the spec: `KeyboardMappings::invalidate()` is declared in
`Controller.h`, which is not part of the sources; it bumps the invalidation
counter. -/
def KeyboardMappings.invalidate (km : KeyboardMappings) : KeyboardMappings :=
  { km with invalidations := km.invalidations + 1 }

/-- Modelled from the spec: `JoystickMappings::invalidate()` is declared in
`Controller.h`, which is not part of the sources; it bumps the invalidation
counter. -/
def JoystickMappings.invalidate (jm : JoystickMappings) : JoystickMappings :=
  { jm with invalidations := jm.invalidations + 1 }

/-- The calls `owner->doneMapping ( this, key )` guarded by `if ( owner )`. -/
def notifyOwner (owner : Option Nat) (key : Nat) : List Call :=
  match owner with
  | none => []
  | some o => [Call.doneMapping o key]

/-- `void Controller::cancelMapping()`. -/
def cancelMapping (cfg : Constants) (s : Controller) : Controller × List Call :=
  ({ s with owner := none, keyToMap := 0, waitForNeutral := false,
            joystickMapState := cfg.clearedMapState }, [Call.unhook])

/-- The statement `if ( options & MAP_CONTINUOUSLY ) joystickMapState.clear(); else
cancelMapping();` that ends every capture. -/
def finishMapping (cfg : Constants) (s : Controller) : Controller × List Call :=
  if s.options &&& cfg.MAP_CONTINUOUSLY ≠ 0 then
    ({ s with joystickMapState := cfg.clearedMapState }, [])
  else cancelMapping cfg s

/-- Body of the first loop of `doClearMapping` for slot `i`. -/
def clearKeySlot (keys : Nat) (km : KeyboardMappings) (i : Nat) : KeyboardMappings :=
  if keys &&& (1 <<< i) ≠ 0 then
    KeyboardMappings.invalidate
      { km with codes := Function.update km.codes i 0, names := Function.update km.names i "" }
  else km

/-- Body of the joystick loops of `doClearMapping` for one slot `b`. -/
def clearSlot (keys b : Nat) : Nat := if b &&& keys ≠ 0 then 0 else b

/-- Number of slots among the first `n` of `row` that share a bit with `keys`. -/
def countHits (keys n : Nat) (row : Nat → Nat) : Nat :=
  (List.range n).countP (fun v => row v &&& keys != 0)

/-- Number of slots of an `n` by `m` table that share a bit with `keys`. -/
def countHits2 (keys n m : Nat) (table : Nat → Nat → Nat) : Nat :=
  ((List.range n).map (fun a => countHits keys m (table a))).sum

/-- `void Controller::doClearMapping ( uint32_t keys )`. Each loop visits every slot
of its array once; a joystick slot that is cleared bumps the invalidation counter
once. -/
def doClearMapping (cfg : Constants) (keys : Nat) (s : Controller) : Controller :=
  let km := (List.range 32).foldl (clearKeySlot keys) s.keyboardMappings
  let jm := s.joystickMappings
  { s with
    keyboardMappings := km
    joystickMappings :=
      { jm with
        axes := fun a v =>
          if a < cfg.MAX_NUM_AXES ∧ v < cfg.NUM_AXIS_VALUES then clearSlot keys (jm.axes a v)
          else jm.axes a v
        hats := fun h v =>
          if h < cfg.MAX_NUM_HATS ∧ v < cfg.NUM_HAT_VALUES then clearSlot keys (jm.hats h v)
          else jm.hats h v
        buttons := fun b =>
          if b < cfg.MAX_NUM_BUTTONS then clearSlot keys (jm.buttons b) else jm.buttons b
        invalidations :=
          jm.invalidations + countHits2 keys cfg.MAX_NUM_AXES cfg.NUM_AXIS_VALUES jm.axes
            + countHits2 keys cfg.MAX_NUM_HATS cfg.NUM_HAT_VALUES jm.hats
            + countHits keys cfg.MAX_NUM_BUTTONS jm.buttons } }

/-- Body of the loop of `keyboardEvent` for slot `i`. -/
def bindKeySlot (keyToMap vkCode : Nat) (name : String) (km : KeyboardMappings) (i : Nat) :
    KeyboardMappings :=
  if keyToMap &&& (1 <<< i) ≠ 0 then
    { km with codes := Function.update km.codes i vkCode,
              names := Function.update km.names i name }
  else if km.codes i = vkCode then
    { km with codes := Function.update km.codes i 0, names := Function.update km.names i "" }
  else km

/-- `void Controller::keyboardEvent ( uint32_t vkCode, uint32_t scanCode,
bool isExtended, bool isDown )`. -/
def keyboardEvent (cfg : Constants) (s : Controller) (vkCode scanCode : Nat)
    (isExtended isDown : Bool) : Controller × List Call :=
  if s.isJoystick = true ∧ vkCode ≠ cfg.VK_ESCAPE then (s, [])
  else if isDown = false ∧ s.keyToMap ≠ 0 then (s, [])
  else
    let owner := s.owner
    let s1 : Controller :=
      if vkCode ≠ cfg.VK_ESCAPE then
        let s0 := doClearMapping cfg s.keyToMap s
        let name := cfg.getVKeyName vkCode scanCode isExtended
        let km := (List.range 32).foldl (bindKeySlot s.keyToMap vkCode name) s0.keyboardMappings
        { s0 with keyboardMappings := KeyboardMappings.invalidate km }
      else s
    let key := if vkCode ≠ cfg.VK_ESCAPE then s.keyToMap else 0
    let r := finishMapping cfg s1
    (r.1, r.2 ++ [Call.mappingsChanged] ++ notifyOwner owner key)

/-- The assignment `table[i][j] = x` on a two-dimensional table. -/
def setSlot (table : Nat → Nat → Nat) (i j x : Nat) : Nat → Nat → Nat :=
  Function.update table i (Function.update (table i) j x)

/-- The guard `( options & MAP_PRESERVE_DIRS ) && ( mask & MASK_DIRS )` of the
capture branches. -/
def preserveDirs (cfg : Constants) (s : Controller) (mask : Nat) : Prop :=
  s.options &&& cfg.MAP_PRESERVE_DIRS ≠ 0 ∧ mask &&& cfg.MASK_DIRS ≠ 0

instance (cfg : Constants) (s : Controller) (mask : Nat) : Decidable (preserveDirs cfg s mask) := by
  unfold preserveDirs; infer_instance

/-- The block of `joystickAxisEvent` under the comment "Done mapping if the axis
returned to 0", for the remembered value `activeValue`. -/
def mapAxis (cfg : Constants) (s : Controller) (axis activeValue : Nat) :
    Controller × List Call :=
  let s0 := doClearMapping cfg s.keyToMap s
  let axes1 := setSlot s0.joystickMappings.axes axis activeValue s.keyToMap
  let axes2 := setSlot axes1 axis cfg.AXIS_CENTERED
    (axes1 axis cfg.AXIS_POSITIVE ||| axes1 axis cfg.AXIS_NEGATIVE)
  let s1 : Controller :=
    { s0 with joystickMappings :=
        JoystickMappings.invalidate { s0.joystickMappings with axes := axes2 } }
  let owner := s.owner
  let key := s.keyToMap
  let r := finishMapping cfg s1
  (r.1, r.2 ++ [Call.mappingsChanged] ++ notifyOwner owner key)

/-- `void Controller::joystickAxisEvent ( uint8_t axis, uint8_t value )`. Reading or
writing a slot outside `axes[MAX_NUM_AXES][NUM_AXIS_VALUES]` is undefined. -/
def joystickAxisEvent (cfg : Constants) (s : Controller) (axis value : Nat) :
    Option (Controller × List Call) :=
  if ¬ (axis < cfg.MAX_NUM_AXES ∧ value < cfg.NUM_AXIS_VALUES) then none
  else
    let keyMapped := s.joystickMappings.axes axis value
    if s.keyToMap ≠ 0 ∧ s.waitForNeutral = false
        ∧ ¬ preserveDirs cfg s (s.joystickMappings.axes axis cfg.AXIS_CENTERED) then
      let activeValue := s.joystickMapState.axes axis
      if value = cfg.AXIS_CENTERED ∧ activeValue ≠ cfg.AXIS_CENTERED then
        if ¬ activeValue < cfg.NUM_AXIS_VALUES then none
        else some (mapAxis cfg s axis activeValue)
      else if activeValue ≠ cfg.AXIS_CENTERED then some (s, [])
      else
        some ({ s with joystickMapState :=
                  { s.joystickMapState with
                    axes := Function.update s.joystickMapState.axes axis value } }, [])
    else
      let mask := s.joystickMappings.axes axis cfg.AXIS_CENTERED
      if mask = 0 then some (s, [])
      else
        let state1 := s.state &&& not32 mask
        let state2 := if value ≠ cfg.AXIS_CENTERED then state1 ||| keyMapped else state1
        let wait := if state2 = 0 ∧ s.waitForNeutral = true then false else s.waitForNeutral
        some ({ s with state := state2, waitForNeutral := wait }, [])

/-- The block of `joystickHatEvent` under the comment "Done mapping if the axis
returned to 0"; the slot it binds is `hats[hat][value]`. -/
def mapHat (cfg : Constants) (s : Controller) (hat value : Nat) : Controller × List Call :=
  let s0 := doClearMapping cfg s.keyToMap s
  let hats1 := setSlot s0.joystickMappings.hats hat value s.keyToMap
  let hats2 := setSlot hats1 hat 5
    (hats1 hat 2 ||| hats1 hat 4 ||| hats1 hat 6 ||| hats1 hat 8)
  let hats3 := setSlot hats2 hat 1 (hats2 hat 2 ||| hats2 hat 4)
  let hats4 := setSlot hats3 hat 3 (hats3 hat 2 ||| hats3 hat 6)
  let hats5 := setSlot hats4 hat 7 (hats4 hat 8 ||| hats4 hat 4)
  let hats6 := setSlot hats5 hat 9 (hats5 hat 8 ||| hats5 hat 6)
  let s1 : Controller :=
    { s0 with joystickMappings :=
        JoystickMappings.invalidate { s0.joystickMappings with hats := hats6 } }
  let owner := s.owner
  let key := s.keyToMap
  let r := finishMapping cfg s1
  (r.1, r.2 ++ [Call.mappingsChanged] ++ notifyOwner owner key)

/-- `void Controller::joystickHatEvent ( uint8_t hat, uint8_t value )`. Reading or
writing a slot outside `hats[MAX_NUM_HATS][NUM_HAT_VALUES]` is undefined. -/
def joystickHatEvent (cfg : Constants) (s : Controller) (hat value : Nat) :
    Option (Controller × List Call) :=
  if ¬ (hat < cfg.MAX_NUM_HATS ∧ value < cfg.NUM_HAT_VALUES) then none
  else
    let keyMapped := s.joystickMappings.hats hat value
    if s.keyToMap ≠ 0 ∧ s.waitForNeutral = false ∧ value % 2 = 0
        ∧ ¬ preserveDirs cfg s (s.joystickMappings.hats hat 5) then
      let activeValue := s.joystickMapState.hats hat
      if value = 5 ∧ activeValue ≠ 5 then some (mapHat cfg s hat value)
      else if activeValue ≠ 5 then some (s, [])
      else
        some ({ s with joystickMapState :=
                  { s.joystickMapState with
                    hats := Function.update s.joystickMapState.hats hat value } }, [])
    else
      let mask := s.joystickMappings.hats hat 5
      if mask = 0 then some (s, [])
      else
        let state1 := s.state &&& not32 mask
        let state2 := if value ≠ 5 then state1 ||| keyMapped else state1
        let wait := if state2 = 0 ∧ s.waitForNeutral = true then false else s.waitForNeutral
        some ({ s with state := state2, waitForNeutral := wait }, [])

/-- The block of `joystickButtonEvent` under the comment "Done mapping if the button
was released". -/
def mapButton (cfg : Constants) (s : Controller) (button : Nat) : Controller × List Call :=
  let s0 := doClearMapping cfg s.keyToMap s
  let buttons1 := Function.update s0.joystickMappings.buttons button s.keyToMap
  let s1 : Controller :=
    { s0 with joystickMappings :=
        JoystickMappings.invalidate { s0.joystickMappings with buttons := buttons1 } }
  let owner := s.owner
  let key := s.keyToMap
  let r := finishMapping cfg s1
  (r.1, r.2 ++ [Call.mappingsChanged] ++ notifyOwner owner key)

/-- `void Controller::joystickButtonEvent ( uint8_t button, bool isDown )`. Reading a
slot outside `buttons[MAX_NUM_BUTTONS]` and shifting `1u` by 32 or more are
undefined. -/
def joystickButtonEvent (cfg : Constants) (s : Controller) (button : Nat) (isDown : Bool) :
    Option (Controller × List Call) :=
  if ¬ (button < cfg.MAX_NUM_BUTTONS ∧ button < 32) then none
  else
    let keyMapped := s.joystickMappings.buttons button
    if s.keyToMap ≠ 0 ∧ s.waitForNeutral = false ∧ ¬ preserveDirs cfg s keyMapped then
      let isActive : Prop := s.joystickMapState.buttons &&& (1 <<< button) ≠ 0
      if isDown = false ∧ isActive then some (mapButton cfg s button)
      else if isActive then some (s, [])
      else
        some ({ s with joystickMapState :=
                  { s.joystickMapState with
                    buttons := s.joystickMapState.buttons ||| (1 <<< button) } }, [])
    else
      let anyButton1 :=
        if isDown = true then s.anyButton ||| (1 <<< button)
        else s.anyButton &&& not32 (1 <<< button)
      if keyMapped = 0 then some ({ s with anyButton := anyButton1 }, [])
      else
        let state1 := if isDown = true then s.state ||| keyMapped else s.state &&& not32 keyMapped
        let wait := if state1 = 0 ∧ s.waitForNeutral = true then false else s.waitForNeutral
        some ({ s with anyButton := anyButton1, state := state1, waitForNeutral := wait }, [])

/-- `void Controller::startMapping ( Owner *owner, uint32_t key, const void *window,
const unordered_set<uint32_t>& ignore, uint8_t options )`. The window handle is not
used by the body. -/
def startMapping (cfg : Constants) (s : Controller) (owner : Option Nat) (key : Nat)
    (ignore : List Nat) (options : Nat) : Controller × List Call :=
  let r := finishMapping cfg s
  let s1 := r.1
  let wait := if s1.state ≠ 0 then true else s1.waitForNeutral
  let matched := if s1.isKeyboard = true then [] else [cfg.VK_ESCAPE]
  ({ s1 with waitForNeutral := wait, owner := owner, keyToMap := key, options := options },
    r.2 ++ [Call.matchedKeys matched, Call.ignoredKeys ignore, Call.hook])

/-- `void Controller::clearMapping ( uint32_t keys )`. -/
def clearMapping (cfg : Constants) (keys : Nat) (s : Controller) : Controller × List Call :=
  (doClearMapping cfg keys s, [Call.mappingsChanged])

/-- `void Controller::doResetToDefaults()`. -/
def doResetToDefaults (cfg : Constants) (s : Controller) : Controller :=
  if s.isJoystick = false then s
  else
    let s0 := doClearMapping cfg cfg.MASK_BUTTONS s
    { s0 with joystickMappings :=
        JoystickMappings.invalidate { s0.joystickMappings with deadzone := cfg.DEFAULT_DEADZONE } }

/-- `void Controller::resetToDefaults()`. -/
def resetToDefaults (cfg : Constants) (s : Controller) : Controller × List Call :=
  if s.isJoystick = false then (s, [])
  else (doResetToDefaults cfg s, [Call.mappingsChanged])

/-- Modelled from the spec: the text of `format ( "Button %u", button + 1 )`;
`format` is declared in a header that is not part of the sources. -/
def buttonLabel (button : Nat) : String := "Button " ++ toString (button + 1)

/-- Body of the button loop of `getMapping` for `button`. -/
def appendButton (s : Controller) (key : Nat) (mapping : String) (button : Nat) : String :=
  if s.joystickMappings.buttons button ≠ key then mapping
  else if mapping = "" then buttonLabel button
  else mapping ++ (", " ++ buttonLabel button)

/-- `string Controller::getMapping ( uint32_t key, const string& placeholder ) const`.
The axis loops of the joystick branch have an empty body and the hat loop is absent, so
only the button loop contributes. -/
def getMapping (cfg : Constants) (s : Controller) (key : Nat) (placeholder : String) : String :=
  if key = s.keyToMap ∧ placeholder ≠ "" then placeholder
  else if s.isKeyboard = true then
    match (List.range 32).find?
        (fun i => decide (key &&& (1 <<< i) ≠ 0 ∧ s.keyboardMappings.codes i ≠ 0)) with
    | some i => s.keyboardMappings.names i
    | none => ""
  else if s.isJoystick = true then
    (List.range cfg.MAX_NUM_BUTTONS).foldl (appendButton s key) ""
  else ""

/-! ### Vocabulary of the statements about the engine -/

/-- The derived-slot invariant of a joystick mapping: on every axis the CENTERED slot
is the OR of the POSITIVE and NEGATIVE slots; on every hat slot 5 is the OR of the
slots 2, 4, 6, 8 and the slots 1, 3, 7, 9 are the OR of their adjacent cardinals. -/
def derivedSlots (cfg : Constants) (jm : JoystickMappings) : Prop :=
  (∀ a, a < cfg.MAX_NUM_AXES →
    jm.axes a cfg.AXIS_CENTERED = jm.axes a cfg.AXIS_POSITIVE ||| jm.axes a cfg.AXIS_NEGATIVE) ∧
  (∀ h, h < cfg.MAX_NUM_HATS →
    jm.hats h 5 = jm.hats h 2 ||| jm.hats h 4 ||| jm.hats h 6 ||| jm.hats h 8 ∧
    jm.hats h 1 = jm.hats h 2 ||| jm.hats h 4 ∧
    jm.hats h 3 = jm.hats h 2 ||| jm.hats h 6 ∧
    jm.hats h 7 = jm.hats h 8 ||| jm.hats h 4 ∧
    jm.hats h 9 = jm.hats h 8 ||| jm.hats h 6)

instance (cfg : Constants) (jm : JoystickMappings) : Decidable (derivedSlots cfg jm) := by
  unfold derivedSlots; infer_instance

/-- The derived-slot invariant on the axis `a`: the CENTERED slot is the OR of the
POSITIVE and the NEGATIVE slot. -/
def axisDerived (cfg : Constants) (jm : JoystickMappings) (a : Nat) : Prop :=
  jm.axes a cfg.AXIS_CENTERED = jm.axes a cfg.AXIS_POSITIVE ||| jm.axes a cfg.AXIS_NEGATIVE

instance (cfg : Constants) (jm : JoystickMappings) (a : Nat) :
    Decidable (axisDerived cfg jm a) := by
  unfold axisDerived; infer_instance

/-- The derived-slot invariant on the hat `h`: slot 5 is the OR of the slots 2, 4, 6,
8 and the slots 1, 3, 7, 9 are the OR of their adjacent cardinals. -/
def hatDerived (jm : JoystickMappings) (h : Nat) : Prop :=
  jm.hats h 5 = jm.hats h 2 ||| jm.hats h 4 ||| jm.hats h 6 ||| jm.hats h 8 ∧
  jm.hats h 1 = jm.hats h 2 ||| jm.hats h 4 ∧
  jm.hats h 3 = jm.hats h 2 ||| jm.hats h 6 ∧
  jm.hats h 7 = jm.hats h 8 ||| jm.hats h 4 ∧
  jm.hats h 9 = jm.hats h 8 ||| jm.hats h 6

instance (jm : JoystickMappings) (h : Nat) : Decidable (hatDerived jm h) := by
  unfold hatDerived; infer_instance

/-- The condition on the source slots of a derived slot under which zeroing every slot
that shares a bit with `keys` leaves the derived slot equal to the OR of its sources:
`keys` shares a bit with none of the sources, or with every source that is not 0. -/
def clearKeeps (keys : Nat) (sources : List Nat) : Prop :=
  (∀ x ∈ sources, x &&& keys = 0) ∨ (∀ x ∈ sources, x ≠ 0 → x &&& keys ≠ 0)

instance (keys : Nat) (sources : List Nat) : Decidable (clearKeeps keys sources) := by
  unfold clearKeeps; infer_instance

/-- The condition `clearKeeps` for the derived slot of the axis `a`. -/
def axisKept (cfg : Constants) (keys : Nat) (jm : JoystickMappings) (a : Nat) : Prop :=
  clearKeeps keys [jm.axes a cfg.AXIS_POSITIVE, jm.axes a cfg.AXIS_NEGATIVE]

instance (cfg : Constants) (keys : Nat) (jm : JoystickMappings) (a : Nat) :
    Decidable (axisKept cfg keys jm a) := by
  unfold axisKept; infer_instance

/-- The condition `clearKeeps` for each of the five derived slots of the hat `h`. -/
def hatKept (keys : Nat) (jm : JoystickMappings) (h : Nat) : Prop :=
  clearKeeps keys [jm.hats h 2, jm.hats h 4, jm.hats h 6, jm.hats h 8] ∧
  clearKeeps keys [jm.hats h 2, jm.hats h 4] ∧
  clearKeeps keys [jm.hats h 2, jm.hats h 6] ∧
  clearKeeps keys [jm.hats h 8, jm.hats h 4] ∧
  clearKeeps keys [jm.hats h 8, jm.hats h 6]

instance (keys : Nat) (jm : JoystickMappings) (h : Nat) : Decidable (hatKept keys jm h) := by
  unfold hatKept; infer_instance

/-- The derived slots of the table `jm1` left by an operation that ran
`doClearMapping ( keys )` on the table `jm` and then bound the axis `boundAxis` or the
hat `boundHat` (if any): the invariant holds on the bound axis or hat, and on every
other axis and hat of the table it holds exactly when the clearing keeps it. -/
def derivedWhereKept (cfg : Constants) (keys : Nat) (jm jm1 : JoystickMappings)
    (boundAxis boundHat : Option Nat) : Prop :=
  (∀ a, boundAxis = some a → axisDerived cfg jm1 a) ∧
  (∀ h, boundHat = some h → hatDerived jm1 h) ∧
  (∀ a, a < cfg.MAX_NUM_AXES → boundAxis ≠ some a →
    (axisDerived cfg jm1 a ↔ axisKept cfg keys jm a)) ∧
  (∀ h, h < cfg.MAX_NUM_HATS → boundHat ≠ some h →
    (hatDerived jm1 h ↔ hatKept keys jm h))

/-- The completion protocol, for the state `s` in which a capture completes and the
result `r` (state and calls) of the completing handler: without `MAP_CONTINUOUSLY` the
engine is fully reset; with `MAP_CONTINUOUSLY` the key, the owner, the options and
`waitForNeutral` are as in `s` and the capture scratch is cleared; the calls are the
`unhook` of the reset (if any), `mappingsChanged`, and the notification of the owner
recorded in `s` (if any) with the key of `s`. -/
def completionProtocol (cfg : Constants) (s : Controller) (r : Controller × List Call) : Prop :=
  (s.options &&& cfg.MAP_CONTINUOUSLY = 0 →
    r.1.keyToMap = 0 ∧ r.1.owner = none ∧ r.1.waitForNeutral = false ∧
    r.1.joystickMapState = cfg.clearedMapState) ∧
  (s.options &&& cfg.MAP_CONTINUOUSLY ≠ 0 →
    r.1.keyToMap = s.keyToMap ∧ r.1.owner = s.owner ∧ r.1.options = s.options ∧
    r.1.waitForNeutral = s.waitForNeutral ∧
    r.1.joystickMapState = cfg.clearedMapState) ∧
  r.2 = (if s.options &&& cfg.MAP_CONTINUOUSLY ≠ 0 then [] else [Call.unhook])
          ++ [Call.mappingsChanged] ++ notifyOwner s.owner s.keyToMap

/-- One call into the engine: `startMapping`, `cancelMapping`, `clearMapping` or one of
the four event handlers, with its arguments. -/
inductive Event where
  | startMapping (owner : Option Nat) (key : Nat) (ignore : List Nat) (options : Nat)
  | cancelMapping
  | clearMapping (keys : Nat)
  | keyboard (vkCode scanCode : Nat) (isExtended isDown : Bool)
  | axis (axis value : Nat)
  | hat (hat value : Nat)
  | button (button : Nat) (isDown : Bool)
  deriving DecidableEq, Repr

/-- The engine state after one call; `none` when the call is undefined. -/
def applyEvent (cfg : Constants) (s : Controller) : Event → Option Controller
  | Event.startMapping owner key ignore options =>
    some (startMapping cfg s owner key ignore options).1
  | Event.cancelMapping => some (cancelMapping cfg s).1
  | Event.clearMapping keys => some (clearMapping cfg keys s).1
  | Event.keyboard vkCode scanCode isExtended isDown =>
    some (keyboardEvent cfg s vkCode scanCode isExtended isDown).1
  | Event.axis axis value => (joystickAxisEvent cfg s axis value).map Prod.fst
  | Event.hat hat value => (joystickHatEvent cfg s hat value).map Prod.fst
  | Event.button button isDown => (joystickButtonEvent cfg s button isDown).map Prod.fst

/-- The engine state after a sequence of calls, each applied to the state the
previous one left. -/
def runEvents (cfg : Constants) (s : Controller) : List Event → Option Controller
  | [] => some s
  | e :: es =>
    match applyEvent cfg s e with
    | none => none
    | some s1 => runEvents cfg s1 es

/-! ### Concrete constants and devices for evaluating the model -/

/-- One admissible choice of the constants: `VK_ESCAPE` of `windows.h`, the axis
values numbered `0, 1, 2`, direction bits in the low and button bits in the high
half of the action mask. -/
def sampleConstants : Constants where
  VK_ESCAPE := 0x1B
  AXIS_CENTERED := 0
  AXIS_POSITIVE := 1
  AXIS_NEGATIVE := 2
  MAP_PRESERVE_DIRS := 0x01
  MAP_CONTINUOUSLY := 0x02
  MASK_DIRS := 0x0000FFFF
  MASK_BUTTONS := 0xFFFF0000
  MAX_NUM_AXES := 32
  MAX_NUM_HATS := 32
  MAX_NUM_BUTTONS := 32
  NUM_AXIS_VALUES := 3
  NUM_HAT_VALUES := 10
  DEFAULT_DEADZONE := 25000
  clearedMapState := { axes := fun _ => 0, hats := fun _ => 5, buttons := 0 }
  getVKeyName := fun vkCode _ _ => "Key Code " ++ toString vkCode

/-- A device with the handle `joystick` (`0` for the keyboard) whose tables are
empty, that captures `key` on behalf of owner `7`. -/
def sampleCapturing (joystick key : Nat) : Controller where
  name := "device"
  joystick := joystick
  numAxes := 2
  numHats := 1
  numButtons := 8
  keyboardMappings := { name := "device", codes := fun _ => 0, names := fun _ => "",
                        invalidations := 0 }
  joystickMappings := { name := "device", axes := fun _ _ => 0, hats := fun _ _ => 0,
                        buttons := fun _ => 0, deadzone := 25000, invalidations := 0 }
  joystickMapState := { axes := fun _ => 0, hats := fun _ => 5, buttons := 0 }
  state := 0
  anyButton := 0
  owner := some 7
  keyToMap := key
  waitForNeutral := false
  options := 0

/-- The keyboard capturing `key`, with slot 3 and slot 16 bound to the key `0x5A`
and slot 4 bound to the key `0x41`. -/
def sampleBoundKeyboard (key : Nat) : Controller :=
  { sampleCapturing 0 key with
    keyboardMappings :=
      { name := "Keyboard"
        codes := fun i => if i = 3 ∨ i = 16 then 0x5A else if i = 4 then 0x41 else 0
        names := fun i => if i = 3 ∨ i = 16 then "Z" else if i = 4 then "A" else ""
        invalidations := 0 } }

/-- A joystick capturing `key` whose button 0 is mapped to the mask `0x30000` and
whose button 1 is mapped to the mask `0x40000`. -/
def sampleBoundJoystick (key : Nat) : Controller :=
  { sampleCapturing 1 key with
    joystickMappings :=
      { name := "device", axes := fun _ _ => 0, hats := fun _ _ => 0,
        buttons := fun b => if b = 0 then 0x30000 else if b = 1 then 0x40000 else 0,
        deadzone := 25000, invalidations := 0 } }

/-- A joystick capturing `key` whose axis 0 is mapped to the button mask `0x10000`
in the positive and to the direction mask `0x4` in the negative direction, with the
derived CENTERED slot `0x10004`. -/
def sampleAxisJoystick (key : Nat) : Controller :=
  { sampleCapturing 1 key with
    joystickMappings :=
      { name := "device"
        axes := fun a v =>
          if a = 0 then (if v = 0 then 0x10004 else if v = 1 then 0x10000
            else if v = 2 then 0x4 else 0)
          else 0
        hats := fun _ _ => 0, buttons := fun _ => 0, deadzone := 25000, invalidations := 0 } }

/-- The joystick of `sampleAxisJoystick` with the option `MAP_PRESERVE_DIRS`. -/
def samplePreserving (key : Nat) : Controller :=
  { sampleAxisJoystick key with options := 0x01 }

/-- The joystick of `sampleBoundJoystick` while its button 0 is held: the state holds
the mask `0x30000` and the capture waits for neutral. -/
def sampleWaiting (key : Nat) : Controller :=
  { sampleBoundJoystick key with state := 0x30000, anyButton := 1, waitForNeutral := true }

/-- The device of `sampleCapturing` in the middle of a capture run with the given
options: axis 0 was pushed to the positive side and button 0 is held. -/
def sampleMidCapture (joystick key options : Nat) : Controller :=
  { sampleCapturing joystick key with
    options := options
    joystickMapState :=
      { axes := fun a => if a = 0 then 1 else 0, hats := fun _ => 5, buttons := 1 } }

/-- The joystick of `sampleBoundJoystick` in its initial state: not capturing, no
owner, nothing held. -/
def sampleIdle : Controller :=
  { sampleBoundJoystick 0 with owner := none }

end Controller

/-! ## The name registry of lib/Controller.cpp -/

/-- What `nextName` gives back: a name, or the exception
`ERROR_TOO_MANY_CONTROLLERS`. -/
inductive NameResult where
  | name (n : String)
  | tooManyControllers
  deriving DecidableEq, Repr

/-- The two static containers `namesWithIndex` (an `unordered_set<string>`, here a
list kept without duplicates) and `origNameCount` (an `unordered_map`, here the count
per key with `0` for a key that is absent). -/
structure Registry where
  namesWithIndex : List String
  origNameCount : String → Nat

/-- The names of one constructed device: the member `name` and the display name
`getName()` that the constructor registered. -/
structure DeviceNames where
  name : String
  displayName : String
  deriving DecidableEq, Repr

namespace Registry

/-- The registry at program start. -/
def initial : Registry := { namesWithIndex := [], origNameCount := fun _ => 0 }

/-- The call `namesWithIndex.insert ( x )`. -/
def insertName (x : String) (names : List String) : List String :=
  if x ∈ names then names else x :: names

/-- The loop of `nextName` from the counter value `index`. The text of
`format ( "%s (%d)", name, index )` is the parameter `indexed`, since `format` is
declared in a header that is not part of the sources. -/
def nextNameFrom (indexed : String → Nat → String) (names : List String) (name : String)
    (index : Nat) (h : index < 2 ^ 32) : NameResult :=
  if indexed name index ∈ names then
    if hmax : index = 2 ^ 32 - 1 then NameResult.tooManyControllers
    else nextNameFrom indexed names name (index + 1) (by omega)
  else NameResult.name (indexed name index)
termination_by 2 ^ 32 - index
decreasing_by omega

/-- `static string nextName ( const string& name )`. -/
def nextName (indexed : String → Nat → String) (names : List String) (name : String) :
    NameResult :=
  if name ∉ names then NameResult.name name
  else nextNameFrom indexed names name 2 (by decide)

/-- The registry part of `Controller::Controller ( KeyboardEnum )`: the new registry
and the names of the device. -/
def constructKeyboard (r : Registry) : Registry × DeviceNames :=
  ({ namesWithIndex := insertName "Keyboard" r.namesWithIndex,
     origNameCount := Function.update r.origNameCount "Keyboard" 1 },
   { name := "Keyboard", displayName := "Keyboard" })

/-- The registry part of `Controller::Controller ( const string& name, ... )`; when
`nextName` throws, no device is constructed and the registry is as before. -/
def constructJoystick (indexed : String → Nat → String) (r : Registry) (name : String) :
    Option (Registry × DeviceNames) :=
  match nextName indexed r.namesWithIndex name with
  | NameResult.tooManyControllers => none
  | NameResult.name display =>
    some ({ namesWithIndex := insertName display r.namesWithIndex,
            origNameCount :=
              Function.update r.origNameCount name ((r.origNameCount name + 1) % UINT32_MOD) },
          { name := name, displayName := display })

/-- `Controller::~Controller()`, for the device with the names `d`. -/
def destroy (r : Registry) (d : DeviceNames) : Registry :=
  { namesWithIndex := r.namesWithIndex.erase d.displayName,
    origNameCount :=
      Function.update r.origNameCount d.name
        (if r.origNameCount d.name > 1 then r.origNameCount d.name - 1 else 0) }

/-- `bool Controller::isUniqueName() const`. -/
def isUniqueName (r : Registry) (d : DeviceNames) : Bool := r.origNameCount d.name == 1

/-! ### Sequences of constructions and destructions -/

/-- The registry together with the devices that are alive. -/
structure World where
  registry : Registry
  live : List DeviceNames

/-- One construction or destruction. -/
inductive Op where
  | newKeyboard
  | newJoystick (name : String)
  | delete (d : DeviceNames)
  deriving DecidableEq, Repr

/-- The effect of one operation; deleting a device that is not alive does nothing. -/
def step (indexed : String → Nat → String) (w : World) : Op → World
  | Op.newKeyboard =>
    { registry := (constructKeyboard w.registry).1,
      live := (constructKeyboard w.registry).2 :: w.live }
  | Op.newJoystick name =>
    match constructJoystick indexed w.registry name with
    | none => w
    | some r => { registry := r.1, live := r.2 :: w.live }
  | Op.delete d =>
    if d ∈ w.live then { registry := destroy w.registry d, live := w.live.erase d } else w

/-- The world after a sequence of operations. -/
def run (indexed : String → Nat → String) (w : World) (ops : List Op) : World :=
  ops.foldl (step indexed) w

/-- The display names of the live devices. -/
def World.displayNames (w : World) : List String := w.live.map DeviceNames.displayName

/-- Every keyboard of the sequence is constructed while no live device is displayed
as "Keyboard". -/
def keyboardFresh (indexed : String → Nat → String) : World → List Op → Prop
  | _, [] => True
  | w, op :: ops =>
    (op = Op.newKeyboard → "Keyboard" ∉ w.displayNames) ∧
      keyboardFresh indexed (step indexed w op) ops

instance keyboardFreshDecidable (indexed : String → Nat → String) :
    (w : World) → (ops : List Op) → Decidable (keyboardFresh indexed w ops)
  | _, [] => isTrue True.intro
  | w, op :: ops =>
    @instDecidableAnd _ _ inferInstance (keyboardFreshDecidable indexed (step indexed w op) ops)

/-- The registry agrees with the live devices: the display names are pairwise
distinct and are exactly the names in use. -/
def Consistent (w : World) : Prop :=
  w.displayNames.Nodup ∧ w.registry.namesWithIndex.Nodup ∧
    ∀ n, n ∈ w.displayNames ↔ n ∈ w.registry.namesWithIndex

/-- One rendering of `format ( "%s (%d)", name, index )`, for evaluating the model. -/
def sampleIndexed (name : String) (index : Nat) : String :=
  name ++ " (" ++ toString index ++ ")"

end Registry


/-! ## Theorems about vectors -/

section Vectors

variable {α : Type}

theorem pad_length (xs : List α) (n : Nat) (fill : α) : (pad xs n fill).length = max xs.length n := by
  simp [pad]; omega

theorem vresize_grow (xs : List α) (n : Nat) (fill : α) (h : xs.length ≤ n) :
    vresize xs n fill = pad xs n fill := by
  simp [vresize, pad, List.take_of_length_le h]

theorem resize_if_eq_pad (xs : List α) (n : Nat) (fill : α) :
    (if n > xs.length then vresize xs n fill else xs) = pad xs n fill := by
  split
  · exact vresize_grow xs n fill (by omega)
  · have : n - xs.length = 0 := by omega
    simp [pad, this]

theorem resize_index_eq_pad (xs : List α) (index : Nat) (fill : α) :
    (if index ≥ xs.length then vresize xs (index + 1) fill else xs) = pad xs (index + 1) fill := by
  split
  · exact vresize_grow xs _ fill (by omega)
  · have : index + 1 - xs.length = 0 := by omega
    simp [pad, this]

theorem pad_getElem? (xs : List α) (n : Nat) (fill : α) (j : Nat) :
    (pad xs n fill)[j]? = if j < xs.length then xs[j]? else if j < n then some fill else none := by
  unfold pad
  by_cases h : j < xs.length
  · simp [h, List.getElem?_append_left h]
  · have h' : xs.length ≤ j := by omega
    rw [List.getElem?_append_right h']
    simp [h, List.getElem?_replicate]
    by_cases h2 : j < n
    · simp [h2]; omega
    · simp [h2]; omega

theorem pad_getElem?_index (xs : List α) (index : Nat) (fill : α) :
    (pad xs (index + 1) fill)[index]? = some (xs.getD index fill) := by
  rw [pad_getElem?]
  by_cases h : index < xs.length
  · simp [h, List.getD_eq_getElem?_getD]
  · have h2 : xs[index]? = none := List.getElem?_eq_none (by omega)
    simp [h, List.getD_eq_getElem?_getD, h2]

theorem vfill_length (xs : List α) (frame n : Nat) (x : α) (h : frame + n ≤ xs.length) :
    (vfill xs frame n x).length = xs.length := by
  simp [vfill]; omega

theorem vcopy_length (xs : List α) (frame : Nat) (src : List α)
    (h : frame + src.length ≤ xs.length) : (vcopy xs frame src).length = xs.length := by
  simp [vcopy]; omega

theorem vcopy_drop_take (xs : List α) (frame : Nat) (src : List α) (h : frame ≤ xs.length) :
    ((vcopy xs frame src).drop frame).take src.length = src := by
  have h1 : (xs.take frame).length = frame := by simp; omega
  unfold vcopy
  rw [List.append_assoc, List.drop_append_of_le_length (by omega)]
  rw [List.drop_of_length_le (by omega), List.nil_append]
  simp

theorem vcopy_getElem? (xs : List α) (frame : Nat) (src : List α) (k : Nat)
    (h : frame ≤ xs.length) (hk : k < src.length) :
    (vcopy xs frame src)[frame + k]? = src[k]? := by
  have h1 : (xs.take frame).length = frame := by simp; omega
  unfold vcopy
  rw [List.append_assoc, List.getElem?_append_right (by omega), h1, Nat.add_sub_cancel_left,
    List.getElem?_append_left hk]

end Vectors

/-! ## Theorems about InputsContainer.h -/

namespace InputsContainer

variable {T : Type} [Zero T]

/-! ### The sizing step and the three writers, when no sum wraps -/

/-- The sizing step succeeds when neither `index + 1` nor `frame + n` wraps, and leaves the sequences `grow`. -/
theorem resize_some (W : Nat) (c : InputsContainer T) (index frame n : Nat) (isReal : Bool)
    (hi : index + 1 < UINT32_MOD) (hf : frame + n < W) :
    ∃ c1, resize W c index frame n isReal = some c1 ∧
      c1.inputs = grow c.inputs index (frame + n) := by
  unfold resize
  simp only [Nat.mod_eq_of_lt hi, Nat.mod_eq_of_lt hf, resize_index_eq_pad, pad_getElem?_index,
    resize_if_eq_pad]
  by_cases hfake : c.fillFakeInputs = true
  · simp only [hfake, if_true]
    cases isReal
    · simp [grow]
    · have : frame + n ≤ (pad (c.real.getD index []) (frame + n) false).length := by
        rw [pad_length]; omega
      simp only [if_true, this]
      exact ⟨_, rfl, rfl⟩
  · simp [hfake, grow]

theorem grow_length (inputs : List (List T)) (index m : Nat) :
    (grow inputs index m).length = max inputs.length (index + 1) := by
  simp [grow, pad_length]

theorem grow_getElem?_self (inputs : List (List T)) (index m : Nat) :
    (grow inputs index m)[index]? = some (pad (inputs.getD index []) m 0) := by
  unfold grow
  rw [List.getElem?_set_self]
  rw [pad_length]; omega

theorem grow_getElem?_ne (inputs : List (List T)) (index m j : Nat) (h : j ≠ index) :
    (grow inputs index m)[j]? =
      if j < inputs.length then inputs[j]? else if j < index + 1 then some [] else none := by
  unfold grow
  rw [List.getElem?_set_ne (Ne.symm h), pad_getElem?]

theorem written_getElem?_self (inputs : List (List T)) (index m : Nat) (R : List T) :
    ((grow inputs index m).set index R)[index]? = some R := by
  rw [List.getElem?_set_self]
  rw [grow_length]; omega

theorem written_getElem?_ne (inputs : List (List T)) (index m j : Nat) (R : List T)
    (h : j ≠ index) :
    ((grow inputs index m).set index R)[j]? =
      if j < inputs.length then inputs[j]? else if j < index + 1 then some [] else none := by
  rw [List.getElem?_set_ne (Ne.symm h), grow_getElem?_ne _ _ _ _ h]

theorem written_length (inputs : List (List T)) (index m : Nat) (R : List T) :
    ((grow inputs index m).set index R).length = max inputs.length (index + 1) := by
  rw [List.length_set, grow_length]

/-- Result of the value writer when no sum wraps. -/
theorem set_some (W : Nat) (c : InputsContainer T) (index frame : Nat) (t : T)
    (hi : index + 1 < UINT32_MOD) (hf : frame + 1 < W) :
    ∃ c1, set W c index frame t = some c1 ∧
      c1.inputs = (grow c.inputs index (frame + 1)).set index
        ((pad (c.inputs.getD index []) (frame + 1) 0).set frame t) := by
  obtain ⟨c1, h1, h2⟩ := resize_some W c index frame 1 true hi hf
  have hlen : frame < (pad (c.inputs.getD index []) (frame + 1) (0 : T)).length := by
    rw [pad_length]; omega
  refine ⟨⟨c1.inputs.set index ((pad (c.inputs.getD index []) (frame + 1) 0).set frame t),
    c1.real, c1.fillFakeInputs⟩, ?_, ?_⟩
  · simp only [set, h1, h2, grow_getElem?_self, hlen, if_true]
  · simp only [h2]

/-- Result of the fill writer when no sum wraps. -/
theorem setFill_some (W : Nat) (c : InputsContainer T) (index frame : Nat) (t : T) (n : Nat)
    (hi : index + 1 < UINT32_MOD) (hf : frame + n < W) :
    ∃ c1, setFill W c index frame t n = some c1 ∧
      c1.inputs = (grow c.inputs index (frame + n)).set index
        (vfill (pad (c.inputs.getD index []) (frame + n) 0) frame n t) := by
  obtain ⟨c1, h1, h2⟩ := resize_some W c index frame n true hi hf
  have hlen : frame + n ≤ (pad (c.inputs.getD index []) (frame + n) (0 : T)).length := by
    rw [pad_length]; omega
  refine ⟨⟨c1.inputs.set index (vfill (pad (c.inputs.getD index []) (frame + n) 0) frame n t),
    c1.real, c1.fillFakeInputs⟩, ?_, ?_⟩
  · simp only [setFill, h1, h2, grow_getElem?_self, hlen, if_true]
  · simp only [h2]

/-- Result of the array writer when no sum wraps. -/
theorem setCopy_some (W : Nat) (c : InputsContainer T) (index frame : Nat) (t : List T) (n : Nat)
    (hi : index + 1 < UINT32_MOD) (hf : frame + n < W) (hn : n ≤ t.length) :
    ∃ c1, setCopy W c index frame t n = some c1 ∧
      c1.inputs = (grow c.inputs index (frame + n)).set index
        (vcopy (pad (c.inputs.getD index []) (frame + n) 0) frame (t.take n)) := by
  obtain ⟨c1, h1, h2⟩ := resize_some W c index frame n true hi hf
  have hlen : frame + n ≤ (pad (c.inputs.getD index []) (frame + n) (0 : T)).length := by
    rw [pad_length]; omega
  refine ⟨⟨c1.inputs.set index
    (vcopy (pad (c.inputs.getD index []) (frame + n) 0) frame (t.take n)),
    c1.real, c1.fillFakeInputs⟩, ?_, ?_⟩
  · simp only [setCopy, h1, h2, grow_getElem?_self, hlen, hn, and_self, if_true]
  · simp only [h2]

/-- Every writer leaves the written sequence with the length `max (old length) (frame + count)`. -/
theorem write_some (W : Nat) (c : InputsContainer T) (i f : Nat) (w : Write T)
    (hi : i + 1 < UINT32_MOD) (hf : f + w.count < W) (hw : w.inBounds) :
    ∃ c1 R, write W c i f w = some c1 ∧
      c1.inputs = (grow c.inputs i (f + w.count)).set i R ∧
      R.length = max (rowLength c i) (f + w.count) := by
  cases w with
  | value t =>
    obtain ⟨c1, h1, h2⟩ := set_some W c i f t hi hf
    exact ⟨c1, _, h1, h2, by rw [List.length_set, pad_length]; rfl⟩
  | fill t n =>
    obtain ⟨c1, h1, h2⟩ := setFill_some W c i f t n hi hf
    refine ⟨c1, _, h1, h2, ?_⟩
    rw [vfill_length _ _ _ _ (by rw [pad_length]; exact Nat.le_max_right _ _), pad_length]; rfl
  | array t n =>
    obtain ⟨c1, h1, h2⟩ := setCopy_some W c i f t n hi hf hw
    refine ⟨c1, _, h1, h2, ?_⟩
    have hn : (t.take n).length = n := List.length_take_of_le hw
    rw [vcopy_length _ _ _ (by rw [pad_length, hn]; exact Nat.le_max_right _ _), pad_length]; rfl

omit [Zero T] in
theorem rowLength_of_row (c : InputsContainer T) (i : Nat) (R : List T)
    (h : c.inputs[i]? = some R) : rowLength c i = R.length := by
  simp [rowLength, List.getD_eq_getElem?_getD, h]

omit [Zero T] in
theorem frameAt_of_row (c : InputsContainer T) (i g : Nat) (R : List T)
    (h : c.inputs[i]? = some R) : frameAt c i g = R[g]? := by
  simp [frameAt, List.getD_eq_getElem?_getD, h]

/-- The lookup on an allocated, non-empty sequence. -/
theorem get_of_row (c : InputsContainer T) (index frame : Nat) (row : List T)
    (h : c.inputs[index]? = some row) (hne : row ≠ []) :
    get c index frame = if frame < row.length then row[frame]? else row.getLast? := by
  have hlt : index < c.inputs.length := by
    by_contra hc
    rw [List.getElem?_eq_none (by omega)] at h
    exact Option.noConfusion h
  have hemp : row.isEmpty = false := by
    cases row with
    | nil => exact absurd rfl hne
    | cons a l => rfl
  unfold get
  simp only [ge_iff_le, Nat.not_le.mpr hlt, if_false, h, hemp]
  by_cases hf : frame < row.length
  · simp [hf]
  · simp [hf, Nat.le_of_not_lt hf]

omit [Zero T] in
/-- The end index is the number of sequences whenever that number fits `uint32_t`
(it always does in a buffer built by the writers, which never size `inputs` beyond
`2 ^ 32 - 1` sequences). -/
theorem getEndIndex_eq (c : InputsContainer T) (h : c.inputs.length < UINT32_MOD) :
    getEndIndex c = c.inputs.length := by
  unfold getEndIndex
  exact Nat.mod_eq_of_lt h

omit [Zero T] in
/-- The end frame is the length of the sequence of the highest index, as a `uint32_t`. -/
theorem getEndFrame_eq (c : InputsContainer T) :
    getEndFrame c = rowLength c (c.inputs.length - 1) % UINT32_MOD := by
  unfold getEndFrame rowLength
  cases h : c.inputs with
  | nil => simp
  | cons a l =>
    simp only [List.isEmpty_cons, Bool.false_eq_true, if_false, List.getLast?_eq_getElem?,
      List.getD_eq_getElem?_getD]
    have h2 : (a :: l).length - 1 < (a :: l).length := by simp
    rw [List.getElem?_eq_getElem h2]
    rfl

/-! ### C1: a write followed by a read of the same frame -/

/-- C1 (amended): for every buffer state, every index `i < 2 ^ 32 - 1`, every frame
`f` with `f + 1` below the modulus of `size_t`, and every value `v`, the writer
`set ( i, f, v )` returns and `get ( i, f )` evaluated immediately afterwards
returns `v`. -/
theorem set_then_get (W : Nat) (c : InputsContainer T) (i f : Nat) (v : T)
    (hi : i + 1 < UINT32_MOD) (hf : f + 1 < W) :
    ∃ c1, set W c i f v = some c1 ∧ get c1 i f = some v := by
  obtain ⟨c1, h1, h2⟩ := set_some W c i f v hi hf
  refine ⟨c1, h1, ?_⟩
  have hlen : f < ((pad (c.inputs.getD i []) (f + 1) (0 : T)).set f v).length := by
    rw [List.length_set, pad_length]; omega
  have hrow := written_getElem?_self c.inputs i (f + 1)
    ((pad (c.inputs.getD i []) (f + 1) (0 : T)).set f v)
  rw [← h2] at hrow
  rw [get_of_row c1 i f _ hrow (List.ne_nil_of_length_pos (by omega))]
  simp only [hlen, if_true]
  rw [List.getElem?_set_self]
  rw [pad_length]; omega

/-- C1, witness: from the empty buffer, `set ( 0, 10, 0xAB )` then `get ( 0, 10 )`
gives `0xAB`. -/
theorem set_then_get_witness :
    (0 + 1 < UINT32_MOD ∧ 10 + 1 < 2 ^ 32) ∧
    ∃ c1, set (2 ^ 32) (empty_container : InputsContainer Nat) 0 10 0xAB = some c1 ∧
      get c1 0 10 = some 0xAB :=
  ⟨⟨by decide, by decide⟩,
    set_then_get (2 ^ 32) (empty_container : InputsContainer Nat) 0 10 0xAB (by decide)
      (by decide)⟩

/-- C1, counterexample: for the index `2 ^ 32 - 1` the sum `index + 1` wraps to `0`,
`inputs.resize ( 0 )` empties the buffer and the next access `inputs[index]` is
outside it; no state follows in which `get` could return the value. This holds for
a 32-bit and for a 64-bit `size_t`. With a 32-bit `size_t` the frame `2 ^ 32 - 1`
fails in the same way: `frame + 1` wraps to `0`, the sequence is not grown and the
write `inputs[index][frame]` is outside it. -/
theorem set_then_get_index_overflow :
    (¬ ∃ c1, set (2 ^ 32) (empty_container : InputsContainer Nat) (2 ^ 32 - 1) 10 0xAB = some c1
        ∧ get c1 (2 ^ 32 - 1) 10 = some 0xAB) ∧
    (¬ ∃ c1, set (2 ^ 64) (empty_container : InputsContainer Nat) (2 ^ 32 - 1) 10 0xAB = some c1
        ∧ get c1 (2 ^ 32 - 1) 10 = some 0xAB) ∧
    (¬ ∃ c1, set (2 ^ 32) (empty_container : InputsContainer Nat) 0 (2 ^ 32 - 1) 0xAB = some c1
        ∧ get c1 0 (2 ^ 32 - 1) = some 0xAB) := by
  have h32 : set (2 ^ 32) (empty_container : InputsContainer Nat) (2 ^ 32 - 1) 10 0xAB = none := by
    decide
  have h64 : set (2 ^ 64) (empty_container : InputsContainer Nat) (2 ^ 32 - 1) 10 0xAB = none := by
    decide
  have hfr : set (2 ^ 32) (empty_container : InputsContainer Nat) 0 (2 ^ 32 - 1) 0xAB = none := by
    decide
  refine ⟨?_, ?_, ?_⟩
  · rintro ⟨c1, h, _⟩
    rw [h32] at h
    exact Option.noConfusion h
  · rintro ⟨c1, h, _⟩
    rw [h64] at h
    exact Option.noConfusion h
  · rintro ⟨c1, h, _⟩
    rw [hfr] at h
    exact Option.noConfusion h

/-! ### C2: the lookup -/

/-- C2: for every buffer state, index and frame, `get ( index, frame )` returns; it
returns `0` when `index` is not below the number of sequences or the sequence of
`index` is empty, the last stored element of the sequence when `frame` is not below
its length, and the element stored at `frame` otherwise. Every element it reads is
at a position inside the stored sequence (the positions carry their bound proofs). -/
theorem get_reads_stored (c : InputsContainer T) (index frame : Nat) :
    get c index frame = some (
      if h : index < c.inputs.length then
        if hr : 0 < c.inputs[index].length then
          if hf : frame < c.inputs[index].length then c.inputs[index][frame]
          else c.inputs[index].get ⟨c.inputs[index].length - 1, by omega⟩
        else 0
      else 0) := by
  by_cases h : index < c.inputs.length
  · simp only [h, dite_true]
    by_cases hr : 0 < c.inputs[index].length
    · simp only [hr, dite_true]
      have hne : c.inputs[index] ≠ [] := List.ne_nil_of_length_pos hr
      rw [get_of_row c index frame _ (List.getElem?_eq_getElem h) hne]
      by_cases hf : frame < c.inputs[index].length
      · simp only [hf, if_true, dite_true, List.getElem?_eq_getElem hf]
      · simp only [hf, if_false, dite_false, List.getLast?_eq_getElem?]
        rw [List.getElem?_eq_getElem (by omega)]
        rfl
    · simp only [hr, dite_false]
      have hnil : c.inputs[index] = [] := List.length_eq_zero.mp (by omega)
      unfold get
      simp [Nat.not_le.mpr h, List.getElem?_eq_getElem h, hnil]
  · unfold get
    simp [h, Nat.le_of_not_lt h]

/-! ### C3: saturation after a write -/

/-- C3 (amended): for every buffer state, index `i < 2 ^ 32 - 1`, frame `f` with
`f + 1` below the modulus of `size_t`, value `v` and `k > 0`: when the sequence of
`i` holds no frame after `f` (its length before the write is at most `f + 1`),
`get ( i, f + k )` evaluated immediately after `set ( i, f, v )` returns `v`. -/
theorem set_then_get_later (W : Nat) (c : InputsContainer T) (i f k : Nat) (v : T)
    (hi : i + 1 < UINT32_MOD) (hf : f + 1 < W) (hlast : rowLength c i ≤ f + 1) (hk : 0 < k) :
    ∃ c1, set W c i f v = some c1 ∧ get c1 i (f + k) = some v := by
  obtain ⟨c1, h1, h2⟩ := set_some W c i f v hi hf
  refine ⟨c1, h1, ?_⟩
  have hlen : ((pad (c.inputs.getD i []) (f + 1) (0 : T)).set f v).length = f + 1 := by
    rw [List.length_set, pad_length]; unfold rowLength at hlast; omega
  have hrow := written_getElem?_self c.inputs i (f + 1)
    ((pad (c.inputs.getD i []) (f + 1) (0 : T)).set f v)
  rw [← h2] at hrow
  rw [get_of_row c1 i (f + k) _ hrow (List.ne_nil_of_length_pos (by omega))]
  have hnot : ¬ f + k < f + 1 := by omega
  simp only [hlen, hnot, if_false]
  rw [List.getLast?_eq_getElem?, hlen, Nat.add_sub_cancel, List.getElem?_set_self]
  rw [pad_length]; omega

/-- C3, witness: from the empty buffer, `set ( 0, 10, 0xAB )` then
`get ( 0, 1000 )` gives `0xAB`. -/
theorem set_then_get_later_witness :
    (0 + 1 < UINT32_MOD ∧ 10 + 1 < 2 ^ 32 ∧
      rowLength (empty_container : InputsContainer Nat) 0 ≤ 10 + 1 ∧ 0 < 990) ∧
    ∃ c1, set (2 ^ 32) (empty_container : InputsContainer Nat) 0 10 0xAB = some c1 ∧
      get c1 0 (10 + 990) = some 0xAB :=
  ⟨⟨by decide, by decide, by decide, by decide⟩,
    set_then_get_later (2 ^ 32) (empty_container : InputsContainer Nat) 0 10 990 0xAB
      (by decide) (by decide) (by decide) (by decide)⟩

/-- C3, counterexample: the sequence of index 0 holds `1, 2, 3`; after
`set ( 0, 0, 9 )` the lookup `get ( 0, 1 )` returns the stored `2`, not `9`. -/
theorem get_later_reads_stored_frame :
    ∃ c1, set (2 ^ 32) (⟨[[1, 2, 3]], [], false⟩ : InputsContainer Nat) 0 0 9 = some c1 ∧
      get c1 0 (0 + 1) = some 2 ∧ get c1 0 (0 + 1) ≠ some 9 :=
  ⟨⟨[[9, 2, 3]], [], false⟩, by decide, by decide, by decide⟩

/-! ### C4: the end frame across writes -/

/-- C4 (amended): for every buffer state and every write (any of the three `set`
overloads) with `index < 2 ^ 32 - 1` and `frame + count` below `2 ^ 32` and below the
modulus of `size_t`: when the write targets an already allocated index, or ends at or
after the old end frame (`getEndFrame() <= frame + count`), the write returns and
`getEndFrame()` after it is at least `getEndFrame()` before it. -/
theorem endFrame_monotone (W : Nat) (c : InputsContainer T) (i f : Nat) (w : Write T)
    (hi : i + 1 < UINT32_MOD) (hf : f + w.count < W) (hw : w.inBounds)
    (hf32 : f + w.count < UINT32_MOD)
    (hcase : i < c.inputs.length ∨ getEndFrame c ≤ f + w.count) :
    ∃ c1, write W c i f w = some c1 ∧ getEndFrame c ≤ getEndFrame c1 := by
  obtain ⟨c1, R, h1, h2, h3⟩ := write_some W c i f w hi hf hw
  refine ⟨c1, h1, ?_⟩
  have hlen : c1.inputs.length = max c.inputs.length (i + 1) := by rw [h2, written_length]
  by_cases hlt : i + 1 < c.inputs.length
  · -- the last sequence is not the written one
    have hmax : max c.inputs.length (i + 1) - 1 = c.inputs.length - 1 := by omega
    have hne : c.inputs.length - 1 ≠ i := by omega
    have hrow : c1.inputs[c.inputs.length - 1]? = c.inputs[c.inputs.length - 1]? := by
      rw [h2, written_getElem?_ne _ _ _ _ _ hne]
      simp only [show c.inputs.length - 1 < c.inputs.length by omega, if_true]
    have : rowLength c1 (c.inputs.length - 1) = rowLength c (c.inputs.length - 1) := by
      simp only [rowLength, List.getD_eq_getElem?_getD, hrow]
    rw [getEndFrame_eq c, getEndFrame_eq c1, hlen, hmax, this]
  · -- the written sequence is the last one
    have hmax : max c.inputs.length (i + 1) - 1 = i := by omega
    have hrow : c1.inputs[i]? = some R := by rw [h2, written_getElem?_self]
    rw [getEndFrame_eq c1, hlen, hmax, rowLength_of_row c1 i R hrow, h3]
    by_cases hex : i < c.inputs.length
    · have hi' : c.inputs.length - 1 = i := by omega
      rw [getEndFrame_eq c, hi']
      by_cases hle : rowLength c i ≤ f + w.count
      · rw [Nat.max_eq_right hle, Nat.mod_eq_of_lt hf32]
        exact Nat.le_trans (Nat.mod_le _ _) hle
      · rw [Nat.max_eq_left (Nat.le_of_not_le hle)]
    · have hrow0 : rowLength c i = 0 := by
        simp [rowLength, List.getD_eq_getElem?_getD, List.getElem?_eq_none (Nat.le_of_not_lt hex)]
      have hend : getEndFrame c ≤ f + w.count := by
        cases hcase with
        | inl h => exact absurd h hex
        | inr h => exact h
      rw [hrow0, Nat.zero_max, Nat.mod_eq_of_lt hf32]
      exact hend

/-- C4, witness: the buffer holds the sequences `1, 2` and `3`; `set ( 1, 4, 9 )`
moves the end frame from 1 to 5. -/
theorem endFrame_monotone_witness :
    (1 + 1 < UINT32_MOD ∧ 4 + 1 < UINT32_MOD ∧
      1 < (⟨[[1, 2], [3]], [], false⟩ : InputsContainer Nat).inputs.length) ∧
    ∃ c1, write (2 ^ 32) (⟨[[1, 2], [3]], [], false⟩ : InputsContainer Nat) 1 4 (Write.value 9)
        = some c1 ∧
      getEndFrame (⟨[[1, 2], [3]], [], false⟩ : InputsContainer Nat) ≤ getEndFrame c1 :=
  ⟨⟨by decide, by decide, by decide⟩,
    endFrame_monotone (2 ^ 32) (⟨[[1, 2], [3]], [], false⟩ : InputsContainer Nat) 1 4
      (Write.value 9) (by decide) (by decide) True.intro (by decide) (Or.inl (by decide))⟩

/-- C4, counterexample: the buffer holds one sequence of five frames, so the end
frame is 5; `set ( 1, 0, 7 )` allocates index 1 with one frame, and the end frame,
which is the length of the sequence of the highest index, drops to 1. -/
theorem endFrame_decreases :
    ∃ c1, set (2 ^ 32) (⟨[[0, 0, 0, 0, 0]], [], false⟩ : InputsContainer Nat) 1 0 7 = some c1 ∧
      getEndFrame (⟨[[0, 0, 0, 0, 0]], [], false⟩ : InputsContainer Nat) = 5 ∧
      getEndFrame c1 = 1 :=
  ⟨⟨[[0, 0, 0, 0, 0], [7]], [], false⟩, by decide, by decide, by decide⟩

/-- C4, the bound `frame + count < 2 ^ 32` where `size_t` is wider than 32 bits: the
buffer holds one sequence of five frames, so the end frame is 5;
`set ( 0, 0xFFFFFFFF, 7 )` returns and gives the sequence `2 ^ 32` frames, and the end
frame, a `uint32_t`, is 0. -/
theorem endFrame_truncates :
    getEndFrame (⟨[[0, 0, 0, 0, 0]], [], false⟩ : InputsContainer Nat) = 5 ∧
    ∃ c1, write (2 ^ 64) (⟨[[0, 0, 0, 0, 0]], [], false⟩ : InputsContainer Nat) 0 0xFFFFFFFF
        (Write.value 7) = some c1 ∧
      getEndFrame c1 = 0 := by
  refine ⟨by decide, ?_⟩
  obtain ⟨c1, R, h1, h2, h3⟩ :=
    write_some (2 ^ 64) (⟨[[0, 0, 0, 0, 0]], [], false⟩ : InputsContainer Nat) 0 0xFFFFFFFF
      (Write.value 7) (by decide) (by decide) True.intro
  refine ⟨c1, h1, ?_⟩
  have hlen : c1.inputs.length = 1 := by rw [h2, written_length]; rfl
  have hrow : c1.inputs[0]? = some R := by rw [h2, written_getElem?_self]
  have hR : R.length = 2 ^ 32 := by
    rw [h3]
    have h5 : rowLength (⟨[[0, 0, 0, 0, 0]], [], false⟩ : InputsContainer Nat) 0 = 5 := rfl
    rw [h5]
    rfl
  rw [getEndFrame_eq c1, hlen, rowLength_of_row c1 0 R hrow, hR]
  rfl

/-! ### C5: what a write changes -/

/-- C5 (amended): for every buffer state, index `i < 2 ^ 32 - 1`, frame `f` with
`f + 1` below the modulus of `size_t`, and value `v`, the writer `set ( i, f, v )`
returns and makes the length of sequence `i` equal to `max (old length) (f + 1)`,
fills every newly created frame `g < f` with `0`, leaves every previously stored
frame `g ≠ f` of sequence `i` unchanged, and leaves every other previously existing
index sequence unchanged. -/
theorem set_frame_effect (W : Nat) (c : InputsContainer T) (i f : Nat) (v : T)
    (hi : i + 1 < UINT32_MOD) (hf : f + 1 < W) :
    ∃ c1, set W c i f v = some c1 ∧
      rowLength c1 i = max (rowLength c i) (f + 1) ∧
      (∀ g, rowLength c i ≤ g → g < f → frameAt c1 i g = some 0) ∧
      (∀ g, g < rowLength c i → g ≠ f → frameAt c1 i g = frameAt c i g) ∧
      (∀ j, j < c.inputs.length → j ≠ i → c1.inputs[j]? = c.inputs[j]?) := by
  obtain ⟨c1, h1, h2⟩ := set_some W c i f v hi hf
  refine ⟨c1, h1, ?_⟩
  have hrow := written_getElem?_self c.inputs i (f + 1)
    ((pad (c.inputs.getD i []) (f + 1) (0 : T)).set f v)
  rw [← h2] at hrow
  refine ⟨?_, ?_, ?_, ?_⟩
  · rw [rowLength_of_row c1 i _ hrow, List.length_set, pad_length]; rfl
  · intro g hg hgf
    rw [frameAt_of_row c1 i g _ hrow, List.getElem?_set_ne (by omega), pad_getElem?]
    have h3 : ¬ g < (c.inputs.getD i []).length := by unfold rowLength at hg; omega
    have h4 : g < f + 1 := by omega
    simp only [h3, h4, if_false, if_true]
  · intro g hg hgf
    rw [frameAt_of_row c1 i g _ hrow, List.getElem?_set_ne (Ne.symm hgf), pad_getElem?]
    have h3 : g < (c.inputs.getD i []).length := hg
    simp only [h3, if_true]
    rfl
  · intro j hj hji
    rw [h2, written_getElem?_ne _ _ _ _ _ hji]
    simp only [hj, if_true]

/-- C5, witness: after `set ( 0, 10, 0xAB )` on the empty buffer the sequence of
index 0 has 11 frames and frame 0 is `0`. -/
theorem set_frame_effect_witness :
    (0 + 1 < UINT32_MOD ∧ 10 + 1 < 2 ^ 32) ∧
    ∃ c1, set (2 ^ 32) (empty_container : InputsContainer Nat) 0 10 0xAB = some c1 ∧
      rowLength c1 0 = 11 ∧ frameAt c1 0 0 = some 0 := by
  refine ⟨⟨by decide, by decide⟩, ?_⟩
  obtain ⟨c1, h1, h2, h3, _, _⟩ :=
    set_frame_effect (2 ^ 32) (empty_container : InputsContainer Nat) 0 10 0xAB (by decide)
      (by decide)
  exact ⟨c1, h1, h2, h3 0 (by decide) (by decide)⟩

/-- C5, counterexample: the buffer holds the sequence `1, 2, 3` at index 0; for the
index `2 ^ 32 - 1` the sum `index + 1` wraps to `0`, `inputs.resize ( 0 )` drops the
sequence of index 0 and the next access `inputs[index]` is outside the buffer: the
writer has no defined result. With a 32-bit `size_t` the frame `2 ^ 32 - 1` has none
either: `frame + 1` wraps to `0` and the sequence is not grown to hold the frame. -/
theorem set_frame_effect_index_overflow :
    set (2 ^ 32) (⟨[[1, 2, 3]], [], false⟩ : InputsContainer Nat) (2 ^ 32 - 1) 0 5 = none ∧
    set (2 ^ 64) (⟨[[1, 2, 3]], [], false⟩ : InputsContainer Nat) (2 ^ 32 - 1) 0 5 = none ∧
    set (2 ^ 32) (⟨[[1, 2, 3]], [], false⟩ : InputsContainer Nat) 0 (2 ^ 32 - 1) 5 = none :=
  ⟨by decide, by decide, by decide⟩

/-! ### C6: the array writer and the range reader -/

/-- C6 (amended): for every buffer state, index `i < 2 ^ 32 - 1`, frame `f` and array
`values` of length `n` with `f + n` below the modulus of `size_t`: the array writer
`set ( i, f, values, n )` returns; afterwards both assertions of the range reader
hold (`i` is below the number of sequences and `f + n` is at most the length of
sequence `i`), the range reader `get ( i, f, out, n )` yields `out == values`, and
each `out[k]` equals the single-element `get ( i, f + k )`. -/
theorem setCopy_then_getRange (W : Nat) (c : InputsContainer T) (i f : Nat)
    (values : List T) (hi : i + 1 < UINT32_MOD) (hf : f + values.length < W) :
    ∃ c1, setCopy W c i f values values.length = some c1 ∧
      i < c1.inputs.length ∧ f + values.length ≤ rowLength c1 i ∧
      getRange W c1 i f values.length = some values ∧
      ∀ k, k < values.length → get c1 i (f + k) = values[k]? := by
  obtain ⟨c1, h1, h2⟩ := setCopy_some W c i f values values.length hi hf (Nat.le_refl _)
  rw [List.take_length] at h2
  refine ⟨c1, h1, ?_⟩
  have hrow := written_getElem?_self c.inputs i (f + values.length)
    (vcopy (pad (c.inputs.getD i []) (f + values.length) (0 : T)) f values)
  rw [← h2] at hrow
  have hpad : f + values.length ≤ (pad (c.inputs.getD i []) (f + values.length) (0 : T)).length := by
    rw [pad_length]; omega
  have hlen : (vcopy (pad (c.inputs.getD i []) (f + values.length) (0 : T)) f values).length
      = (pad (c.inputs.getD i []) (f + values.length) (0 : T)).length := vcopy_length _ _ _ hpad
  have hlt : i < c1.inputs.length := by
    rw [h2, written_length]; omega
  refine ⟨hlt, ?_, ?_, ?_⟩
  · rw [rowLength_of_row c1 i _ hrow, hlen]; exact hpad
  · unfold getRange
    simp only [hlt, if_true, hrow, hlen]
    have hmod : (f + values.length) % W ≤
        (pad (c.inputs.getD i []) (f + values.length) (0 : T)).length := by
      rw [Nat.mod_eq_of_lt hf]; exact hpad
    simp only [hmod, hpad, if_true]
    rw [vcopy_drop_take _ _ _ (by omega)]
  · intro k hk
    have hne : vcopy (pad (c.inputs.getD i []) (f + values.length) (0 : T)) f values ≠ [] :=
      List.ne_nil_of_length_pos (by omega)
    rw [get_of_row c1 i (f + k) _ hrow hne]
    have h3 : f + k < (vcopy (pad (c.inputs.getD i []) (f + values.length) (0 : T)) f
        values).length := by omega
    simp only [h3, if_true]
    exact vcopy_getElem? _ _ _ _ (by omega) hk

/-- C6, witness: the array `7, 8, 9` written at index 1, frame 2 of a buffer that
holds one sequence. -/
theorem setCopy_then_getRange_witness :
    (1 + 1 < UINT32_MOD ∧ 2 + [7, 8, 9].length < 2 ^ 32) ∧
    ∃ c1, setCopy (2 ^ 32) (⟨[[1, 2, 3]], [], true⟩ : InputsContainer Nat) 1 2 [7, 8, 9] 3
        = some c1 ∧
      getRange (2 ^ 32) c1 1 2 3 = some [7, 8, 9] ∧ get c1 1 (2 + 1) = some 8 := by
  refine ⟨⟨by decide, by decide⟩, ?_⟩
  obtain ⟨c1, h1, _, _, h4, h5⟩ :=
    setCopy_then_getRange (2 ^ 32) (⟨[[1, 2, 3]], [], true⟩ : InputsContainer Nat) 1 2 [7, 8, 9]
      (by decide) (by decide)
  exact ⟨c1, h1, h4, h5 1 (by decide)⟩

/-- C6, counterexample: for the index `2 ^ 32 - 1` the sum `index + 1` of the sizing
step wraps to `0` and the access `inputs[index]` that follows is outside the buffer:
the array writer has no defined result, so no range can be read back. With a 32-bit
`size_t` the frame `2 ^ 32 - 1` has none either: `frame + n` wraps to `2`, the
sequence is grown to two frames only and the copy leaves it. -/
theorem setCopy_index_overflow :
    setCopy (2 ^ 32) (empty_container : InputsContainer Nat) (2 ^ 32 - 1) 0 [7, 8, 9] 3 = none ∧
    setCopy (2 ^ 64) (empty_container : InputsContainer Nat) (2 ^ 32 - 1) 0 [7, 8, 9] 3 = none ∧
    setCopy (2 ^ 32) (empty_container : InputsContainer Nat) 0 (2 ^ 32 - 1) [7, 8, 9] 3 = none :=
  ⟨by decide, by decide, by decide⟩

/-- Scenario "History saturation" of the specification, evaluated. -/
theorem history_saturation_scenario :
    ∃ c1, set (2 ^ 32) (empty_container : InputsContainer Nat) 0 10 0xAB = some c1 ∧
      get c1 0 0 = some 0 ∧ get c1 0 10 = some 0xAB ∧ get c1 0 1000 = some 0xAB ∧
      getEndFrame c1 = 11 :=
  ⟨⟨[[0, 0, 0, 0, 0, 0, 0, 0, 0, 0, 0xAB]], [], false⟩, by decide, by decide, by decide,
    by decide, by decide⟩

end InputsContainer

/-! ## Theorems about lib/Controller.cpp -/

/-- The test `keys & ( 1u << i )` reads bit `i` of `keys`. -/
theorem and_bit_ne_zero_iff (K i : Nat) : K &&& (1 <<< i) ≠ 0 ↔ K.testBit i = true := by
  rw [Nat.one_shiftLeft]
  constructor
  · intro h
    by_contra hb
    apply h
    apply Nat.eq_of_testBit_eq
    intro j
    rw [Nat.testBit_and, Nat.testBit_two_pow, Nat.zero_testBit]
    by_cases hij : i = j
    · subst hij; simp [hb]
    · simp [hij]
  · intro h h0
    have : (K &&& 2 ^ i).testBit i = true := by
      rw [Nat.testBit_and, Nat.testBit_two_pow_self, h]; rfl
    rw [h0, Nat.zero_testBit] at this
    exact Bool.noConfusion this

/-- Bit `i` of the 32-bit complement, for a bit of the word. -/
theorem not32_testBit (m i : Nat) (hi : i < 32) : (not32 m).testBit i = !m.testBit i := by
  unfold not32 UINT32_MOD
  rw [Nat.testBit_xor, Nat.testBit_two_pow_sub_one, Nat.testBit_mod_two_pow]
  simp [hi]

theorem string_eq_empty_of_length (s : String) (h : s.length = 0) : s = "" := by
  apply String.ext
  exact List.length_eq_zero.mp h

theorem string_append_ne_empty (a b : String) (h : b ≠ "") : a ++ b ≠ "" := by
  intro h2
  apply h
  apply string_eq_empty_of_length
  have h3 := congrArg String.length h2
  rw [String.length_append] at h3
  have h4 : ("" : String).length = 0 := rfl
  omega

namespace Controller

/-! ### The loops over the keyboard slots -/

theorem clearKeySlot_codes (keys : Nat) (km : KeyboardMappings) (i j : Nat) :
    (clearKeySlot keys km i).codes j =
      if j = i ∧ keys &&& (1 <<< i) ≠ 0 then 0 else km.codes j := by
  unfold clearKeySlot
  by_cases hb : keys &&& (1 <<< i) ≠ 0
  · by_cases hj : j = i
    · subst hj; simp [hb, KeyboardMappings.invalidate]
    · simp [hb, hj, KeyboardMappings.invalidate, Function.update_noteq hj]
  · simp [hb]

theorem clearKeySlot_names (keys : Nat) (km : KeyboardMappings) (i j : Nat) :
    (clearKeySlot keys km i).names j =
      if j = i ∧ keys &&& (1 <<< i) ≠ 0 then "" else km.names j := by
  unfold clearKeySlot
  by_cases hb : keys &&& (1 <<< i) ≠ 0
  · by_cases hj : j = i
    · subst hj; simp [hb, KeyboardMappings.invalidate]
    · simp [hb, hj, KeyboardMappings.invalidate, Function.update_noteq hj]
  · simp [hb]

/-- What the first `n` rounds of the keyboard loop of `doClearMapping` leave in slot `j`. -/
theorem clearKeys_fold (keys : Nat) (km : KeyboardMappings) (n j : Nat) :
    ((List.range n).foldl (clearKeySlot keys) km).codes j =
        (if j < n ∧ keys &&& (1 <<< j) ≠ 0 then 0 else km.codes j) ∧
    ((List.range n).foldl (clearKeySlot keys) km).names j =
        (if j < n ∧ keys &&& (1 <<< j) ≠ 0 then "" else km.names j) := by
  induction n with
  | zero => simp
  | succ n ih =>
    rw [List.range_succ, List.foldl_append]
    simp only [List.foldl_cons, List.foldl_nil]
    rw [clearKeySlot_codes, clearKeySlot_names, ih.1, ih.2]
    by_cases hj : j = n
    · subst hj
      by_cases hb : keys &&& (1 <<< j) ≠ 0
      · simp [hb]
      · simp [hb]
    · by_cases hlt : j < n
      · have : j < n + 1 := by omega
        simp [hj, hlt, this]
      · have : ¬ j < n + 1 := by omega
        simp [hj, hlt, this]

/-- What the loop of `keyboardEvent` leaves in slot `j`, given the slot before. -/
theorem bindKeySlot_codes (K vk : Nat) (name : String) (km : KeyboardMappings) (i j : Nat) :
    (bindKeySlot K vk name km i).codes j =
      if j = i then
        (if K &&& (1 <<< i) ≠ 0 then vk else if km.codes i = vk then 0 else km.codes i)
      else km.codes j := by
  unfold bindKeySlot
  by_cases hj : j = i
  · subst hj
    by_cases hb : K &&& (1 <<< j) ≠ 0
    · simp [hb]
    · by_cases hc : km.codes j = vk
      · simp [hb, hc]
      · simp [hb, hc]
  · by_cases hb : K &&& (1 <<< i) ≠ 0
    · simp [hb, hj, Function.update_noteq hj]
    · by_cases hc : km.codes i = vk
      · simp [hb, hc, hj, Function.update_noteq hj]
      · simp [hb, hc, hj]

theorem bindKeySlot_names (K vk : Nat) (name : String) (km : KeyboardMappings) (i j : Nat) :
    (bindKeySlot K vk name km i).names j =
      if j = i then
        (if K &&& (1 <<< i) ≠ 0 then name else if km.codes i = vk then "" else km.names i)
      else km.names j := by
  unfold bindKeySlot
  by_cases hj : j = i
  · subst hj
    by_cases hb : K &&& (1 <<< j) ≠ 0
    · simp [hb]
    · by_cases hc : km.codes j = vk
      · simp [hb, hc]
      · simp [hb, hc]
  · by_cases hb : K &&& (1 <<< i) ≠ 0
    · simp [hb, hj, Function.update_noteq hj]
    · by_cases hc : km.codes i = vk
      · simp [hb, hc, hj, Function.update_noteq hj]
      · simp [hb, hc, hj]

/-- What the first `n` rounds of the loop of `keyboardEvent` leave in slot `j`. -/
theorem bindKeys_fold (K vk : Nat) (name : String) (km : KeyboardMappings) (n j : Nat) :
    ((List.range n).foldl (bindKeySlot K vk name) km).codes j =
        (if j < n then
          (if K &&& (1 <<< j) ≠ 0 then vk else if km.codes j = vk then 0 else km.codes j)
         else km.codes j) ∧
    ((List.range n).foldl (bindKeySlot K vk name) km).names j =
        (if j < n then
          (if K &&& (1 <<< j) ≠ 0 then name else if km.codes j = vk then "" else km.names j)
         else km.names j) := by
  induction n generalizing j with
  | zero => simp
  | succ n ih =>
    rw [List.range_succ, List.foldl_append]
    simp only [List.foldl_cons, List.foldl_nil]
    rw [bindKeySlot_codes, bindKeySlot_names]
    by_cases hj : j = n
    · subst hj
      have h1 := (ih j).1
      have h2 := (ih j).2
      simp only [Nat.lt_irrefl, if_false] at h1 h2
      simp only [if_true, h1, h2, Nat.lt_succ_self, and_self]
    · simp only [hj, if_false]
      rw [(ih j).1, (ih j).2]
      by_cases hlt : j < n
      · have : j < n + 1 := by omega
        simp only [hlt, this, if_true, and_self]
      · have : ¬ j < n + 1 := by omega
        simp only [hlt, this, if_false, and_self]

/-! ### The end of a capture -/

@[simp] theorem finishMapping_keyboardMappings (cfg : Constants) (s : Controller) :
    (finishMapping cfg s).1.keyboardMappings = s.keyboardMappings := by
  unfold finishMapping cancelMapping
  split <;> rfl

@[simp] theorem finishMapping_joystickMappings (cfg : Constants) (s : Controller) :
    (finishMapping cfg s).1.joystickMappings = s.joystickMappings := by
  unfold finishMapping cancelMapping
  split <;> rfl

theorem finishMapping_calls (cfg : Constants) (s : Controller) (o k : Nat) :
    Call.doneMapping o k ∉ (finishMapping cfg s).2 := by
  unfold finishMapping cancelMapping
  split <;> simp

/-- The owner calls of a completed capture: the owner recorded before the reset, with the recorded key, and nobody else. -/
theorem mem_completion_calls (cfg : Constants) (s : Controller) (owner : Option Nat)
    (key o k : Nat) :
    Call.doneMapping o k ∈ (finishMapping cfg s).2 ++ [Call.mappingsChanged] ++ notifyOwner owner key
      ↔ owner = some o ∧ k = key := by
  have h := finishMapping_calls cfg s o k
  cases owner with
  | none => simp [notifyOwner, h]
  | some p =>
    simp only [notifyOwner, List.mem_append, h, List.mem_singleton, false_or, Option.some.injEq,
      Call.doneMapping.injEq]
    constructor
    · rintro (h1 | ⟨h1, h2⟩)
      · exact Call.noConfusion h1
      · exact ⟨h1.symm, h2⟩
    · rintro ⟨h1, h2⟩
      exact Or.inr ⟨h1.symm, h2⟩

theorem clearSlot_and (K b : Nat) : clearSlot K b &&& K = 0 := by
  unfold clearSlot
  by_cases h : b &&& K ≠ 0
  · simp [h]
  · simp only [h, if_false]
    exact not_not.mp h

theorem setSlot_apply (t : Nat → Nat → Nat) (i j x i' j' : Nat) :
    setSlot t i j x i' j' = if i' = i ∧ j' = j then x else t i' j' := by
  unfold setSlot
  by_cases hi : i' = i
  · subst hi
    by_cases hj : j' = j
    · subst hj; simp
    · simp [hj]
  · simp [hi]

/-- The axis handler in its capture branch. -/
theorem joystickAxisEvent_capturing (cfg : Constants) (s : Controller) (axis value : Nat)
    (hin : axis < cfg.MAX_NUM_AXES ∧ value < cfg.NUM_AXIS_VALUES)
    (hcap : s.keyToMap ≠ 0 ∧ s.waitForNeutral = false
      ∧ ¬ preserveDirs cfg s (s.joystickMappings.axes axis cfg.AXIS_CENTERED)) :
    joystickAxisEvent cfg s axis value =
      if value = cfg.AXIS_CENTERED ∧ s.joystickMapState.axes axis ≠ cfg.AXIS_CENTERED then
        if ¬ s.joystickMapState.axes axis < cfg.NUM_AXIS_VALUES then none
        else some (mapAxis cfg s axis (s.joystickMapState.axes axis))
      else if s.joystickMapState.axes axis ≠ cfg.AXIS_CENTERED then some (s, [])
      else
        some ({ s with joystickMapState :=
                  { s.joystickMapState with
                    axes := Function.update s.joystickMapState.axes axis value } }, []) := by
  unfold joystickAxisEvent
  dsimp only
  rw [if_neg (not_not.mpr hin), if_pos hcap]

/-- The hat handler in its capture branch. -/
theorem joystickHatEvent_capturing (cfg : Constants) (s : Controller) (hat value : Nat)
    (hin : hat < cfg.MAX_NUM_HATS ∧ value < cfg.NUM_HAT_VALUES)
    (hcap : s.keyToMap ≠ 0 ∧ s.waitForNeutral = false ∧ value % 2 = 0
      ∧ ¬ preserveDirs cfg s (s.joystickMappings.hats hat 5)) :
    joystickHatEvent cfg s hat value =
      if value = 5 ∧ s.joystickMapState.hats hat ≠ 5 then some (mapHat cfg s hat value)
      else if s.joystickMapState.hats hat ≠ 5 then some (s, [])
      else
        some ({ s with joystickMapState :=
                  { s.joystickMapState with
                    hats := Function.update s.joystickMapState.hats hat value } }, []) := by
  unfold joystickHatEvent
  dsimp only
  rw [if_neg (not_not.mpr hin), if_pos hcap]

/-- The hat handler for the neutral value 5: the value is odd, so the capture branch is never taken and the handler runs its play-mode part. -/
theorem joystickHatEvent_neutral (cfg : Constants) (s : Controller) (hat : Nat)
    (hin : hat < cfg.MAX_NUM_HATS ∧ 5 < cfg.NUM_HAT_VALUES) :
    joystickHatEvent cfg s hat 5 =
      if s.joystickMappings.hats hat 5 = 0 then some (s, [])
      else
        some ({ s with
                state := s.state &&& not32 (s.joystickMappings.hats hat 5)
                waitForNeutral :=
                  if s.state &&& not32 (s.joystickMappings.hats hat 5) = 0
                      ∧ s.waitForNeutral = true then false
                  else s.waitForNeutral }, []) := by
  unfold joystickHatEvent
  dsimp only
  rw [if_neg (not_not.mpr hin), if_neg (fun h => absurd h.2.2.1 (by decide))]
  simp only [ne_eq, not_true_eq_false, if_false]

/-! ### The loops of `doClearMapping` -/

theorem clearSlot_of_shared (K b : Nat) (h : b &&& K ≠ 0) : clearSlot K b = 0 := by
  simp [clearSlot, h]

theorem clearSlot_of_disjoint (K b : Nat) (h : b &&& K = 0) : clearSlot K b = b := by
  simp [clearSlot, h]

/-- The keyboard loop of `doClearMapping`, for one slot. -/
theorem doClearMapping_key_slot (cfg : Constants) (K : Nat) (s : Controller) (i : Nat)
    (hi : i < 32) :
    (K.testBit i = true →
      (doClearMapping cfg K s).keyboardMappings.codes i = 0 ∧
      (doClearMapping cfg K s).keyboardMappings.names i = "") ∧
    (K.testBit i = false →
      (doClearMapping cfg K s).keyboardMappings.codes i = s.keyboardMappings.codes i ∧
      (doClearMapping cfg K s).keyboardMappings.names i = s.keyboardMappings.names i) := by
  have hfold := clearKeys_fold K s.keyboardMappings 32 i
  simp only [hi, true_and, and_bit_ne_zero_iff] at hfold
  constructor
  · intro hb
    simp only [doClearMapping, hfold.1, hfold.2, hb, if_true, and_self]
  · intro hb
    simp only [doClearMapping, hfold.1, hfold.2, hb, Bool.false_eq_true, if_false, and_self]

theorem doClearMapping_axes (cfg : Constants) (K : Nat) (s : Controller) (a v : Nat)
    (ha : a < cfg.MAX_NUM_AXES) (hv : v < cfg.NUM_AXIS_VALUES) :
    (doClearMapping cfg K s).joystickMappings.axes a v
      = clearSlot K (s.joystickMappings.axes a v) := by
  have hin : a < cfg.MAX_NUM_AXES ∧ v < cfg.NUM_AXIS_VALUES := ⟨ha, hv⟩
  simp only [doClearMapping, hin, and_self, if_true]

theorem doClearMapping_hats (cfg : Constants) (K : Nat) (s : Controller) (h v : Nat)
    (hh : h < cfg.MAX_NUM_HATS) (hv : v < cfg.NUM_HAT_VALUES) :
    (doClearMapping cfg K s).joystickMappings.hats h v
      = clearSlot K (s.joystickMappings.hats h v) := by
  have hin : h < cfg.MAX_NUM_HATS ∧ v < cfg.NUM_HAT_VALUES := ⟨hh, hv⟩
  simp only [doClearMapping, hin, and_self, if_true]

theorem doClearMapping_buttons (cfg : Constants) (K : Nat) (s : Controller) (b : Nat)
    (hb : b < cfg.MAX_NUM_BUTTONS) :
    (doClearMapping cfg K s).joystickMappings.buttons b
      = clearSlot K (s.joystickMappings.buttons b) := by
  simp only [doClearMapping, hb, if_true]

/-- After `doClearMapping ( K )` no slot of the joystick tables has a bit of `K`. -/
theorem doClearMapping_free (cfg : Constants) (K : Nat) (s : Controller) :
    (∀ a v, a < cfg.MAX_NUM_AXES → v < cfg.NUM_AXIS_VALUES →
      (doClearMapping cfg K s).joystickMappings.axes a v &&& K = 0) ∧
    (∀ h v, h < cfg.MAX_NUM_HATS → v < cfg.NUM_HAT_VALUES →
      (doClearMapping cfg K s).joystickMappings.hats h v &&& K = 0) ∧
    (∀ b, b < cfg.MAX_NUM_BUTTONS →
      (doClearMapping cfg K s).joystickMappings.buttons b &&& K = 0) := by
  refine ⟨?_, ?_, ?_⟩
  · intro a v ha hv
    rw [doClearMapping_axes cfg K s a v ha hv]
    exact clearSlot_and K _
  · intro h v hh hv
    rw [doClearMapping_hats cfg K s h v hh hv]
    exact clearSlot_and K _
  · intro b hb
    rw [doClearMapping_buttons cfg K s b hb]
    exact clearSlot_and K _

/-! ### C7: clearing the bindings of a mask -/

/-- C7: for every mapping state and every mask `K`, after `doClearMapping ( K )`:
keyboard slot `i` is unbound (code 0, empty name) if bit `i` of `K` is set and
unchanged otherwise; every joystick axis, hat and button slot whose stored mask
shares a bit with `K` is 0 and every other joystick slot is unchanged; consequently
no joystick slot has any bit of `K` set afterwards. -/
theorem doClearMapping_slots (cfg : Constants) (K : Nat) (s : Controller) :
    (∀ i, i < 32 →
      (K.testBit i = true →
        (doClearMapping cfg K s).keyboardMappings.codes i = 0 ∧
        (doClearMapping cfg K s).keyboardMappings.names i = "") ∧
      (K.testBit i = false →
        (doClearMapping cfg K s).keyboardMappings.codes i = s.keyboardMappings.codes i ∧
        (doClearMapping cfg K s).keyboardMappings.names i = s.keyboardMappings.names i)) ∧
    (∀ a v, a < cfg.MAX_NUM_AXES → v < cfg.NUM_AXIS_VALUES →
      (s.joystickMappings.axes a v &&& K ≠ 0 →
        (doClearMapping cfg K s).joystickMappings.axes a v = 0) ∧
      (s.joystickMappings.axes a v &&& K = 0 →
        (doClearMapping cfg K s).joystickMappings.axes a v = s.joystickMappings.axes a v) ∧
      (doClearMapping cfg K s).joystickMappings.axes a v &&& K = 0) ∧
    (∀ h v, h < cfg.MAX_NUM_HATS → v < cfg.NUM_HAT_VALUES →
      (s.joystickMappings.hats h v &&& K ≠ 0 →
        (doClearMapping cfg K s).joystickMappings.hats h v = 0) ∧
      (s.joystickMappings.hats h v &&& K = 0 →
        (doClearMapping cfg K s).joystickMappings.hats h v = s.joystickMappings.hats h v) ∧
      (doClearMapping cfg K s).joystickMappings.hats h v &&& K = 0) ∧
    (∀ b, b < cfg.MAX_NUM_BUTTONS →
      (s.joystickMappings.buttons b &&& K ≠ 0 →
        (doClearMapping cfg K s).joystickMappings.buttons b = 0) ∧
      (s.joystickMappings.buttons b &&& K = 0 →
        (doClearMapping cfg K s).joystickMappings.buttons b = s.joystickMappings.buttons b) ∧
      (doClearMapping cfg K s).joystickMappings.buttons b &&& K = 0) := by
  refine ⟨fun i hi => doClearMapping_key_slot cfg K s i hi, ?_, ?_, ?_⟩
  · intro a v ha hv
    rw [doClearMapping_axes cfg K s a v ha hv]
    exact ⟨clearSlot_of_shared K _, clearSlot_of_disjoint K _, clearSlot_and K _⟩
  · intro h v hh hv
    rw [doClearMapping_hats cfg K s h v hh hv]
    exact ⟨clearSlot_of_shared K _, clearSlot_of_disjoint K _, clearSlot_and K _⟩
  · intro b hb
    rw [doClearMapping_buttons cfg K s b hb]
    exact ⟨clearSlot_of_shared K _, clearSlot_of_disjoint K _, clearSlot_and K _⟩

/-- C7, witness: button 0 of the joystick is mapped to `0x30000`; clearing the mask
`0x10000` zeroes its slot, and leaves slot 1 (mask `0x40000`) as it was. -/
theorem doClearMapping_slots_witness :
    (0 < sampleConstants.MAX_NUM_BUTTONS ∧ 1 < sampleConstants.MAX_NUM_BUTTONS ∧
      (sampleBoundJoystick 0).joystickMappings.buttons 0 &&& 0x10000 ≠ 0 ∧
      (sampleBoundJoystick 0).joystickMappings.buttons 1 &&& 0x10000 = 0) ∧
    (doClearMapping sampleConstants 0x10000 (sampleBoundJoystick 0)).joystickMappings.buttons 0
      = 0 ∧
    (doClearMapping sampleConstants 0x10000 (sampleBoundJoystick 0)).joystickMappings.buttons 1
      = (sampleBoundJoystick 0).joystickMappings.buttons 1 :=
  ⟨⟨by decide, by decide, by decide, by decide⟩,
    ((doClearMapping_slots sampleConstants 0x10000 (sampleBoundJoystick 0)).2.2.2 0
      (by decide)).1 (by decide),
    ((doClearMapping_slots sampleConstants 0x10000 (sampleBoundJoystick 0)).2.2.2 1
      (by decide)).2.1 (by decide)⟩

/-! ### C8: keyboard capture -/

/-- C8: for a keyboard device capturing `keyToMap = K`, after a key-down event with a
non-zero, non-ESC virtual-key code `vk`: for every slot `i` in `0 .. 31`,
`codes[i] == vk` if and only if bit `i` of `K` is set; and every slot `i` outside
`K` whose previous code was not `vk` keeps its previous code and name. (The
statement holds for every `K`, in particular for `K != 0`.) -/
theorem keyboard_capture_binds (cfg : Constants) (s : Controller) (vk scan : Nat) (ext : Bool)
    (K : Nat) (hkb : s.isKeyboard = true) (hK : s.keyToMap = K) (hvk : vk ≠ 0)
    (hesc : vk ≠ cfg.VK_ESCAPE) :
    ∀ i, i < 32 →
      ((keyboardEvent cfg s vk scan ext true).1.keyboardMappings.codes i = vk ↔
        K.testBit i = true) ∧
      (K.testBit i = false → s.keyboardMappings.codes i ≠ vk →
        (keyboardEvent cfg s vk scan ext true).1.keyboardMappings.codes i
          = s.keyboardMappings.codes i ∧
        (keyboardEvent cfg s vk scan ext true).1.keyboardMappings.names i
          = s.keyboardMappings.names i) := by
  intro i hi
  have hj : s.isJoystick = false := by
    simp only [isKeyboard, beq_iff_eq] at hkb
    simp [isJoystick, hkb]
  have hclear := doClearMapping_key_slot cfg K s i hi
  have hfold := bindKeys_fold K vk (cfg.getVKeyName vk scan ext)
    (doClearMapping cfg K s).keyboardMappings 32 i
  simp only [hi, if_true, and_bit_ne_zero_iff] at hfold
  have hcodes : (keyboardEvent cfg s vk scan ext true).1.keyboardMappings.codes i =
      ((List.range 32).foldl (bindKeySlot K vk (cfg.getVKeyName vk scan ext))
        (doClearMapping cfg K s).keyboardMappings).codes i := by
    simp [keyboardEvent, hj, hesc, hK, KeyboardMappings.invalidate]
  have hnames : (keyboardEvent cfg s vk scan ext true).1.keyboardMappings.names i =
      ((List.range 32).foldl (bindKeySlot K vk (cfg.getVKeyName vk scan ext))
        (doClearMapping cfg K s).keyboardMappings).names i := by
    simp [keyboardEvent, hj, hesc, hK, KeyboardMappings.invalidate]
  rw [hcodes, hnames, hfold.1, hfold.2]
  by_cases hb : K.testBit i = true
  · simp [hb]
  · have hb' : K.testBit i = false := by simpa using hb
    obtain ⟨h1, h2⟩ := hclear.2 hb'
    simp only [hb', Bool.false_eq_true, if_false, h1, h2, iff_false]
    constructor
    · by_cases hc : s.keyboardMappings.codes i = vk
      · simp only [hc, if_true]; exact fun h => hvk h.symm
      · simp [hc]
    · intro _ hc
      simp only [hc, if_false, and_self]

/-- C8, witness: `K = 0x30000` (bits 16 and 17) and `vk = 0x5A` on a keyboard whose
slots 3 and 16 held `0x5A` and whose slot 4 held `0x41`: slot 17 is bound to `0x5A`,
slot 3 no longer holds `0x5A`, slot 4 keeps `0x41`. -/
theorem keyboard_capture_binds_witness :
    ((sampleBoundKeyboard 0x30000).isKeyboard = true ∧ (0x5A : Nat) ≠ 0 ∧
      0x5A ≠ sampleConstants.VK_ESCAPE) ∧
    (keyboardEvent sampleConstants (sampleBoundKeyboard 0x30000) 0x5A 0 false
      true).1.keyboardMappings.codes 17 = 0x5A ∧
    (keyboardEvent sampleConstants (sampleBoundKeyboard 0x30000) 0x5A 0 false
      true).1.keyboardMappings.codes 3 ≠ 0x5A ∧
    (keyboardEvent sampleConstants (sampleBoundKeyboard 0x30000) 0x5A 0 false
      true).1.keyboardMappings.codes 4 = (sampleBoundKeyboard 0x30000).keyboardMappings.codes 4 :=
  ⟨⟨by decide, by decide, by decide⟩,
    ((keyboard_capture_binds sampleConstants (sampleBoundKeyboard 0x30000) 0x5A 0 false 0x30000
      (by decide) rfl (by decide) (by decide)) 17 (by decide)).1.mpr (by decide),
    fun h => absurd
      (((keyboard_capture_binds sampleConstants (sampleBoundKeyboard 0x30000) 0x5A 0 false 0x30000
        (by decide) rfl (by decide) (by decide)) 3 (by decide)).1.mp h) (by decide),
    (((keyboard_capture_binds sampleConstants (sampleBoundKeyboard 0x30000) 0x5A 0 false 0x30000
      (by decide) rfl (by decide) (by decide)) 4 (by decide)).2 (by decide) (by decide)).1⟩

/-! ### C9: axis capture -/

/-- C9: for a joystick capturing `keyToMap = K != 0` with `waitForNeutral` false,
`mapState.axes[a]` centered and the PRESERVE_DIRS gate not applying to axis `a`: the
event `(a, v)` with `v` in `{POSITIVE, NEGATIVE}` returns without a notification and
changes no mapping slot and no live state, and the following event `(a, CENTERED)`
leaves `axes[a][v] == K`, `axes[a][CENTERED] == axes[a][POSITIVE] | axes[a][NEGATIVE]`,
every other joystick slot free of bits of `K`, and notifies exactly the owner
registered with the device, with `key == K`. -/
theorem axis_capture_completes (cfg : Constants) (hcfg : cfg.WF) (s : Controller) (a v K : Nat)
    (ha : a < cfg.MAX_NUM_AXES) (hK : s.keyToMap = K) (hK0 : K ≠ 0)
    (hwait : s.waitForNeutral = false)
    (hcen : s.joystickMapState.axes a = cfg.AXIS_CENTERED)
    (hgate : ¬ preserveDirs cfg s (s.joystickMappings.axes a cfg.AXIS_CENTERED))
    (hv : v = cfg.AXIS_POSITIVE ∨ v = cfg.AXIS_NEGATIVE) :
    ∃ s1 s2 calls,
      joystickAxisEvent cfg s a v = some (s1, []) ∧
      s1.keyboardMappings = s.keyboardMappings ∧
      s1.joystickMappings = s.joystickMappings ∧
      s1.state = s.state ∧ s1.anyButton = s.anyButton ∧
      joystickAxisEvent cfg s1 a cfg.AXIS_CENTERED = some (s2, calls) ∧
      s2.joystickMappings.axes a v = K ∧
      s2.joystickMappings.axes a cfg.AXIS_CENTERED =
        (s2.joystickMappings.axes a cfg.AXIS_POSITIVE |||
          s2.joystickMappings.axes a cfg.AXIS_NEGATIVE) ∧
      (∀ a1 v1, a1 < cfg.MAX_NUM_AXES → v1 < cfg.NUM_AXIS_VALUES →
        ¬ (a1 = a ∧ v1 = v) → ¬ (a1 = a ∧ v1 = cfg.AXIS_CENTERED) →
        s2.joystickMappings.axes a1 v1 &&& K = 0) ∧
      (∀ h v1, h < cfg.MAX_NUM_HATS → v1 < cfg.NUM_HAT_VALUES →
        s2.joystickMappings.hats h v1 &&& K = 0) ∧
      (∀ b, b < cfg.MAX_NUM_BUTTONS → s2.joystickMappings.buttons b &&& K = 0) ∧
      (∀ o k, Call.doneMapping o k ∈ calls ↔ s.owner = some o ∧ k = K) := by
  obtain ⟨hc, hp, hn, hcp, hcn, hpn, _, _⟩ := hcfg
  subst hK
  have hvlt : v < cfg.NUM_AXIS_VALUES := by
    cases hv with
    | inl h => rw [h]; exact hp
    | inr h => rw [h]; exact hn
  have hvc : v ≠ cfg.AXIS_CENTERED := by
    cases hv with
    | inl h => rw [h]; exact Ne.symm hcp
    | inr h => rw [h]; exact Ne.symm hcn
  have hk0 : s.keyToMap ≠ 0 := hK0
  let s1 : Controller :=
    { s with joystickMapState :=
        { s.joystickMapState with axes := Function.update s.joystickMapState.axes a v } }
  have hact : s1.joystickMapState.axes a = v := by simp [s1]
  have hclear := doClearMapping_free cfg s.keyToMap s1
  refine ⟨s1, (mapAxis cfg s1 a v).1, (mapAxis cfg s1 a v).2, ?_, rfl, rfl, rfl, rfl, ?_, ?_, ?_,
    ?_, ?_, ?_, ?_⟩
  · rw [joystickAxisEvent_capturing cfg s a v ⟨ha, hvlt⟩ ⟨hk0, hwait, hgate⟩,
      if_neg (fun h => hvc h.1), if_neg (not_not.mpr hcen)]
  · rw [joystickAxisEvent_capturing cfg s1 a cfg.AXIS_CENTERED ⟨ha, hc⟩ ⟨hk0, hwait, hgate⟩,
      hact, if_pos ⟨rfl, hvc⟩, if_neg (not_not.mpr hvlt)]
  · simp only [mapAxis, finishMapping_joystickMappings, JoystickMappings.invalidate,
      setSlot_apply, hvc, and_false, if_false, and_self, if_true]
  · simp only [mapAxis, finishMapping_joystickMappings, JoystickMappings.invalidate,
      setSlot_apply, and_self, if_true, Ne.symm hcp, Ne.symm hcn, and_false, if_false]
  · intro a1 v1 ha1 hv1 h1 h2
    simp only [mapAxis, finishMapping_joystickMappings, JoystickMappings.invalidate,
      setSlot_apply, h1, h2, if_false]
    exact hclear.1 a1 v1 ha1 hv1
  · intro h v1 hh hv1
    simp only [mapAxis, finishMapping_joystickMappings, JoystickMappings.invalidate]
    exact hclear.2.1 h v1 hh hv1
  · intro b hb
    simp only [mapAxis, finishMapping_joystickMappings, JoystickMappings.invalidate]
    exact hclear.2.2 b hb
  · intro o k
    simp only [mapAxis]
    rw [mem_completion_calls]

/-- C9, witness: empty table, `a = 0`, `v = POSITIVE`, `K = 0x20000`. -/
theorem axis_capture_completes_witness :
    (sampleConstants.WF ∧ 0 < sampleConstants.MAX_NUM_AXES ∧
      (sampleCapturing 1 0x20000).keyToMap ≠ 0 ∧
      ¬ preserveDirs sampleConstants (sampleCapturing 1 0x20000)
        ((sampleCapturing 1 0x20000).joystickMappings.axes 0 sampleConstants.AXIS_CENTERED)) ∧
    ∃ s1 s2 calls,
      joystickAxisEvent sampleConstants (sampleCapturing 1 0x20000) 0
        sampleConstants.AXIS_POSITIVE = some (s1, []) ∧
      joystickAxisEvent sampleConstants s1 0 sampleConstants.AXIS_CENTERED = some (s2, calls) ∧
      s2.joystickMappings.axes 0 sampleConstants.AXIS_POSITIVE = 0x20000 ∧
      Call.doneMapping 7 0x20000 ∈ calls := by
  refine ⟨⟨by decide, by decide, by decide, by decide⟩, ?_⟩
  obtain ⟨s1, s2, calls, h1, _, _, _, _, h2, h3, _, _, _, _, h4⟩ :=
    axis_capture_completes sampleConstants (by decide) (sampleCapturing 1 0x20000) 0
      sampleConstants.AXIS_POSITIVE 0x20000 (by decide) rfl (by decide) rfl rfl (by decide)
      (Or.inl rfl)
  exact ⟨s1, s2, calls, h1, h2, h3, (h4 7 0x20000).mpr ⟨rfl, rfl⟩⟩

/-- Scenario "Axis bind with return-to-neutral" of the specification, evaluated:
after the events `(0, POSITIVE)` and `(0, CENTERED)` both `axes[0][POSITIVE]` and
`axes[0][CENTERED]` hold the key, and the owner is told so. -/
theorem axis_bind_scenario :
    ((joystickAxisEvent sampleConstants (sampleCapturing 1 0x20000) 0 1).bind
        (fun r => joystickAxisEvent sampleConstants r.1 0 0)).map
      (fun r => (r.1.joystickMappings.axes 0 1, r.1.joystickMappings.axes 0 0, r.2))
      = some (0x20000, 0x20000,
          [Call.unhook, Call.mappingsChanged, Call.doneMapping 7 0x20000]) := by
  decide

/-! ### C10: hat capture -/

/-- C10 (the code departs from the claim): for a joystick capturing `keyToMap != 0`
with `waitForNeutral` false, `mapState.hats[h] == 5` and the PRESERVE_DIRS gate not
applying, the event `(h, c)` with `c` in `{2, 4, 6, 8}` followed by the event
`(h, 5)` binds nothing: both events return without any notification, every joystick
and keyboard slot is as before, and the device is still capturing for the same
owner. The neutral value 5 is odd, so the guard `value % 2 == 0` keeps the second
event out of the capture branch and the block that would bind the hat is never
reached. -/
theorem hat_capture_never_completes (cfg : Constants) (hcfg : cfg.WF) (s : Controller)
    (h c : Nat) (hh : h < cfg.MAX_NUM_HATS) (hK0 : s.keyToMap ≠ 0)
    (hwait : s.waitForNeutral = false) (hneu : s.joystickMapState.hats h = 5)
    (hgate : ¬ preserveDirs cfg s (s.joystickMappings.hats h 5))
    (hc : c = 2 ∨ c = 4 ∨ c = 6 ∨ c = 8) :
    ∃ s1 s2,
      joystickHatEvent cfg s h c = some (s1, []) ∧
      joystickHatEvent cfg s1 h 5 = some (s2, []) ∧
      s2.joystickMappings = s.joystickMappings ∧
      s2.keyboardMappings = s.keyboardMappings ∧
      s2.keyToMap = s.keyToMap ∧ s2.owner = s.owner := by
  obtain ⟨_, _, _, _, _, _, h10, _⟩ := hcfg
  have hclt : c < cfg.NUM_HAT_VALUES := by omega
  have hmod : c % 2 = 0 := by omega
  have hc5 : c ≠ 5 := by omega
  let s1 : Controller :=
    { s with joystickMapState :=
        { s.joystickMapState with hats := Function.update s.joystickMapState.hats h c } }
  have h1 : joystickHatEvent cfg s h c = some (s1, []) := by
    rw [joystickHatEvent_capturing cfg s h c ⟨hh, hclt⟩ ⟨hK0, hwait, hmod, hgate⟩,
      if_neg (fun hx => hc5 hx.1), if_neg (not_not.mpr hneu)]
  have h2 := joystickHatEvent_neutral cfg s1 h ⟨hh, by omega⟩
  by_cases hmask : s1.joystickMappings.hats h 5 = 0
  · rw [if_pos hmask] at h2
    exact ⟨s1, s1, h1, h2, rfl, rfl, rfl, rfl⟩
  · rw [if_neg hmask] at h2
    exact ⟨s1, _, h1, h2, rfl, rfl, rfl, rfl⟩

/-- C10, evaluated at the failing input: empty table, hat 0, key `0x20000`, events
`(0, 2)` and `(0, 5)`; afterwards `hats[0][2]` is still 0 and nobody was
notified. -/
theorem hat_capture_never_completes_witness :
    (sampleConstants.WF ∧ 0 < sampleConstants.MAX_NUM_HATS ∧
      (sampleCapturing 1 0x20000).keyToMap ≠ 0) ∧
    ∃ s1 s2,
      joystickHatEvent sampleConstants (sampleCapturing 1 0x20000) 0 2 = some (s1, []) ∧
      joystickHatEvent sampleConstants s1 0 5 = some (s2, []) ∧
      s2.joystickMappings.hats 0 2 = 0 ∧ s2.keyToMap = 0x20000 ∧ s2.owner = some 7 := by
  refine ⟨⟨by decide, by decide, by decide⟩, ?_⟩
  obtain ⟨s1, s2, h1, h2, h3, _, h5, h6⟩ :=
    hat_capture_never_completes sampleConstants (by decide) (sampleCapturing 1 0x20000) 0 2
      (by decide) (by decide) rfl rfl (by decide) (Or.inl rfl)
  exact ⟨s1, s2, h1, h2, by rw [h3]; rfl, by rw [h5]; rfl, by rw [h6]; rfl⟩

/-! ### The handlers branch by branch -/

/-- The button handler in its capture branch. -/
theorem joystickButtonEvent_capturing (cfg : Constants) (s : Controller) (button : Nat)
    (isDown : Bool) (hin : button < cfg.MAX_NUM_BUTTONS ∧ button < 32)
    (hcap : s.keyToMap ≠ 0 ∧ s.waitForNeutral = false
      ∧ ¬ preserveDirs cfg s (s.joystickMappings.buttons button)) :
    joystickButtonEvent cfg s button isDown =
      if isDown = false ∧ s.joystickMapState.buttons &&& (1 <<< button) ≠ 0 then
        some (mapButton cfg s button)
      else if s.joystickMapState.buttons &&& (1 <<< button) ≠ 0 then some (s, [])
      else
        some ({ s with joystickMapState :=
                  { s.joystickMapState with
                    buttons := s.joystickMapState.buttons ||| (1 <<< button) } }, []) := by
  unfold joystickButtonEvent
  dsimp only
  rw [if_neg (not_not.mpr hin), if_pos hcap]

/-- The axis handler outside its capture branch (play mode). -/
theorem joystickAxisEvent_play (cfg : Constants) (s : Controller) (axis value : Nat)
    (hin : axis < cfg.MAX_NUM_AXES ∧ value < cfg.NUM_AXIS_VALUES)
    (hplay : ¬ (s.keyToMap ≠ 0 ∧ s.waitForNeutral = false
      ∧ ¬ preserveDirs cfg s (s.joystickMappings.axes axis cfg.AXIS_CENTERED))) :
    joystickAxisEvent cfg s axis value =
      if s.joystickMappings.axes axis cfg.AXIS_CENTERED = 0 then some (s, [])
      else
        some ({ s with
                state :=
                  if value ≠ cfg.AXIS_CENTERED then
                    s.state &&& not32 (s.joystickMappings.axes axis cfg.AXIS_CENTERED)
                      ||| s.joystickMappings.axes axis value
                  else s.state &&& not32 (s.joystickMappings.axes axis cfg.AXIS_CENTERED)
                waitForNeutral :=
                  if (if value ≠ cfg.AXIS_CENTERED then
                        s.state &&& not32 (s.joystickMappings.axes axis cfg.AXIS_CENTERED)
                          ||| s.joystickMappings.axes axis value
                      else s.state &&& not32 (s.joystickMappings.axes axis cfg.AXIS_CENTERED)) = 0
                      ∧ s.waitForNeutral = true then false
                  else s.waitForNeutral }, []) := by
  unfold joystickAxisEvent
  dsimp only
  rw [if_neg (not_not.mpr hin), if_neg hplay]

/-- The hat handler outside its capture branch (play mode). -/
theorem joystickHatEvent_play (cfg : Constants) (s : Controller) (hat value : Nat)
    (hin : hat < cfg.MAX_NUM_HATS ∧ value < cfg.NUM_HAT_VALUES)
    (hplay : ¬ (s.keyToMap ≠ 0 ∧ s.waitForNeutral = false ∧ value % 2 = 0
      ∧ ¬ preserveDirs cfg s (s.joystickMappings.hats hat 5))) :
    joystickHatEvent cfg s hat value =
      if s.joystickMappings.hats hat 5 = 0 then some (s, [])
      else
        some ({ s with
                state :=
                  if value ≠ 5 then
                    s.state &&& not32 (s.joystickMappings.hats hat 5)
                      ||| s.joystickMappings.hats hat value
                  else s.state &&& not32 (s.joystickMappings.hats hat 5)
                waitForNeutral :=
                  if (if value ≠ 5 then
                        s.state &&& not32 (s.joystickMappings.hats hat 5)
                          ||| s.joystickMappings.hats hat value
                      else s.state &&& not32 (s.joystickMappings.hats hat 5)) = 0
                      ∧ s.waitForNeutral = true then false
                  else s.waitForNeutral }, []) := by
  unfold joystickHatEvent
  dsimp only
  rw [if_neg (not_not.mpr hin), if_neg hplay]

/-- The button handler outside its capture branch (play mode). -/
theorem joystickButtonEvent_play (cfg : Constants) (s : Controller) (button : Nat)
    (isDown : Bool) (hin : button < cfg.MAX_NUM_BUTTONS ∧ button < 32)
    (hplay : ¬ (s.keyToMap ≠ 0 ∧ s.waitForNeutral = false
      ∧ ¬ preserveDirs cfg s (s.joystickMappings.buttons button))) :
    joystickButtonEvent cfg s button isDown =
      if s.joystickMappings.buttons button = 0 then
        some ({ s with anyButton :=
                  if isDown = true then s.anyButton ||| (1 <<< button)
                  else s.anyButton &&& not32 (1 <<< button) }, [])
      else
        some ({ s with
                anyButton :=
                  if isDown = true then s.anyButton ||| (1 <<< button)
                  else s.anyButton &&& not32 (1 <<< button)
                state :=
                  if isDown = true then s.state ||| s.joystickMappings.buttons button
                  else s.state &&& not32 (s.joystickMappings.buttons button)
                waitForNeutral :=
                  if (if isDown = true then s.state ||| s.joystickMappings.buttons button
                      else s.state &&& not32 (s.joystickMappings.buttons button)) = 0
                      ∧ s.waitForNeutral = true then false
                  else s.waitForNeutral }, []) := by
  unfold joystickButtonEvent
  dsimp only
  rw [if_neg (not_not.mpr hin), if_neg hplay]

/-- A button that was just marked as held is in the held set. -/
theorem or_bit_and_bit (x b : Nat) : (x ||| (1 <<< b)) &&& (1 <<< b) ≠ 0 := by
  rw [and_bit_ne_zero_iff, Nat.testBit_or, Nat.one_shiftLeft, Nat.testBit_two_pow_self]
  simp

@[simp] theorem finishMapping_state (cfg : Constants) (s : Controller) :
    (finishMapping cfg s).1.state = s.state := by
  unfold finishMapping cancelMapping
  split <;> rfl

/-! ### C11: button capture -/

/-- C11: for a joystick capturing `keyToMap = K != 0` with `waitForNeutral` false,
button `b` not in `mapState.buttons` and the PRESERVE_DIRS gate not applying to `b`:
the down event of `b` returns without a notification, makes no binding and changes
neither `state` nor any mapping slot, and the following up event of `b` leaves
`buttons[b] == K`, every other joystick slot free of bits of `K`, and notifies exactly
the owner registered with the device, with `key == K`. -/
theorem button_capture_completes (cfg : Constants) (hcfg : cfg.WF) (s : Controller) (b K : Nat)
    (hb : b < cfg.MAX_NUM_BUTTONS) (hK : s.keyToMap = K) (hK0 : K ≠ 0)
    (hwait : s.waitForNeutral = false)
    (hfree : s.joystickMapState.buttons &&& (1 <<< b) = 0)
    (hgate : ¬ preserveDirs cfg s (s.joystickMappings.buttons b)) :
    ∃ s1 s2 calls,
      joystickButtonEvent cfg s b true = some (s1, []) ∧
      s1.keyboardMappings = s.keyboardMappings ∧
      s1.joystickMappings = s.joystickMappings ∧
      s1.state = s.state ∧ s1.anyButton = s.anyButton ∧
      joystickButtonEvent cfg s1 b false = some (s2, calls) ∧
      s2.joystickMappings.buttons b = K ∧
      (∀ b1, b1 < cfg.MAX_NUM_BUTTONS → b1 ≠ b → s2.joystickMappings.buttons b1 &&& K = 0) ∧
      (∀ a v, a < cfg.MAX_NUM_AXES → v < cfg.NUM_AXIS_VALUES →
        s2.joystickMappings.axes a v &&& K = 0) ∧
      (∀ h v, h < cfg.MAX_NUM_HATS → v < cfg.NUM_HAT_VALUES →
        s2.joystickMappings.hats h v &&& K = 0) ∧
      (∀ o k, Call.doneMapping o k ∈ calls ↔ s.owner = some o ∧ k = K) := by
  obtain ⟨_, _, _, _, _, _, _, h32⟩ := hcfg
  subst hK
  have hin : b < cfg.MAX_NUM_BUTTONS ∧ b < 32 := ⟨hb, by omega⟩
  let s1 : Controller :=
    { s with joystickMapState :=
        { s.joystickMapState with buttons := s.joystickMapState.buttons ||| (1 <<< b) } }
  have hact : s1.joystickMapState.buttons &&& (1 <<< b) ≠ 0 := or_bit_and_bit _ _
  have hclear := doClearMapping_free cfg s.keyToMap s1
  refine ⟨s1, (mapButton cfg s1 b).1, (mapButton cfg s1 b).2, ?_, rfl, rfl, rfl, rfl, ?_, ?_, ?_,
    ?_, ?_, ?_⟩
  · rw [joystickButtonEvent_capturing cfg s b true hin ⟨hK0, hwait, hgate⟩,
      if_neg (fun h => Bool.noConfusion h.1), if_neg (not_not.mpr hfree)]
  · rw [joystickButtonEvent_capturing cfg s1 b false hin ⟨hK0, hwait, hgate⟩,
      if_pos ⟨rfl, hact⟩]
  · simp only [mapButton, finishMapping_joystickMappings, JoystickMappings.invalidate,
      Function.update_same]
  · intro b1 hb1 hne
    simp only [mapButton, finishMapping_joystickMappings, JoystickMappings.invalidate,
      Function.update_noteq hne]
    exact hclear.2.2 b1 hb1
  · intro a v ha hv
    simp only [mapButton, finishMapping_joystickMappings, JoystickMappings.invalidate]
    exact hclear.1 a v ha hv
  · intro h v hh hv
    simp only [mapButton, finishMapping_joystickMappings, JoystickMappings.invalidate]
    exact hclear.2.1 h v hh hv
  · intro o k
    simp only [mapButton]
    rw [mem_completion_calls]

/-- C11, witness: empty table, button 2, `K = 0x20000`. -/
theorem button_capture_completes_witness :
    (sampleConstants.WF ∧ 2 < sampleConstants.MAX_NUM_BUTTONS ∧
      (sampleCapturing 1 0x20000).keyToMap ≠ 0 ∧
      (sampleCapturing 1 0x20000).joystickMapState.buttons &&& (1 <<< 2) = 0 ∧
      ¬ preserveDirs sampleConstants (sampleCapturing 1 0x20000)
        ((sampleCapturing 1 0x20000).joystickMappings.buttons 2)) ∧
    ∃ s1 s2 calls,
      joystickButtonEvent sampleConstants (sampleCapturing 1 0x20000) 2 true = some (s1, []) ∧
      joystickButtonEvent sampleConstants s1 2 false = some (s2, calls) ∧
      s2.joystickMappings.buttons 2 = 0x20000 ∧
      Call.doneMapping 7 0x20000 ∈ calls := by
  refine ⟨⟨by decide, by decide, by decide, by decide, by decide⟩, ?_⟩
  obtain ⟨s1, s2, calls, h1, _, _, _, _, h2, h3, _, _, _, h4⟩ :=
    button_capture_completes sampleConstants (by decide) (sampleCapturing 1 0x20000) 2 0x20000
      (by decide) rfl (by decide) rfl (by decide) (by decide)
  exact ⟨s1, s2, calls, h1, h2, h3, (h4 7 0x20000).mpr ⟨rfl, rfl⟩⟩

/-! ### C12: release-after-press -/

/-- C12 (the code departs from the claim): for a joystick capturing `keyToMap = K != 0`
with `waitForNeutral` false, button `b` not in `mapState.buttons` and the
PRESERVE_DIRS gate not applying to `b`, an up event of `b` changes no mapping slot but
puts `b` into the held set `mapState.buttons`, and a second up event of `b` then binds
`buttons[b] = K` and notifies the owner, although no down event of `b` was seen. The
handler marks the button as held without looking at `isDown`. -/
theorem button_up_marks_pressed (cfg : Constants) (hcfg : cfg.WF) (s : Controller) (b K : Nat)
    (hb : b < cfg.MAX_NUM_BUTTONS) (hK : s.keyToMap = K) (hK0 : K ≠ 0)
    (hwait : s.waitForNeutral = false)
    (hfree : s.joystickMapState.buttons &&& (1 <<< b) = 0)
    (hgate : ¬ preserveDirs cfg s (s.joystickMappings.buttons b)) :
    ∃ s1 s2 calls,
      joystickButtonEvent cfg s b false = some (s1, []) ∧
      s1.joystickMapState.buttons &&& (1 <<< b) ≠ 0 ∧
      s1.keyboardMappings = s.keyboardMappings ∧
      s1.joystickMappings = s.joystickMappings ∧
      joystickButtonEvent cfg s1 b false = some (s2, calls) ∧
      s2.joystickMappings.buttons b = K ∧
      (∀ o k, Call.doneMapping o k ∈ calls ↔ s.owner = some o ∧ k = K) := by
  obtain ⟨_, _, _, _, _, _, _, h32⟩ := hcfg
  subst hK
  have hin : b < cfg.MAX_NUM_BUTTONS ∧ b < 32 := ⟨hb, by omega⟩
  let s1 : Controller :=
    { s with joystickMapState :=
        { s.joystickMapState with buttons := s.joystickMapState.buttons ||| (1 <<< b) } }
  have hact : s1.joystickMapState.buttons &&& (1 <<< b) ≠ 0 := or_bit_and_bit _ _
  refine ⟨s1, (mapButton cfg s1 b).1, (mapButton cfg s1 b).2, ?_, hact, rfl, rfl, ?_, ?_, ?_⟩
  · rw [joystickButtonEvent_capturing cfg s b false hin ⟨hK0, hwait, hgate⟩,
      if_neg (fun h => h.2 hfree), if_neg (not_not.mpr hfree)]
  · rw [joystickButtonEvent_capturing cfg s1 b false hin ⟨hK0, hwait, hgate⟩,
      if_pos ⟨rfl, hact⟩]
  · simp only [mapButton, finishMapping_joystickMappings, JoystickMappings.invalidate,
      Function.update_same]
  · intro o k
    simp only [mapButton]
    rw [mem_completion_calls]

/-- C12, evaluated at the failing input: empty table, button 2, `K = 0x20000`, two up
events. -/
theorem button_up_marks_pressed_witness :
    (sampleConstants.WF ∧ 2 < sampleConstants.MAX_NUM_BUTTONS ∧
      (sampleCapturing 1 0x20000).keyToMap ≠ 0 ∧
      (sampleCapturing 1 0x20000).joystickMapState.buttons &&& (1 <<< 2) = 0) ∧
    ∃ s1 s2 calls,
      joystickButtonEvent sampleConstants (sampleCapturing 1 0x20000) 2 false = some (s1, []) ∧
      s1.joystickMapState.buttons &&& (1 <<< 2) ≠ 0 ∧
      joystickButtonEvent sampleConstants s1 2 false = some (s2, calls) ∧
      s2.joystickMappings.buttons 2 = 0x20000 ∧
      Call.doneMapping 7 0x20000 ∈ calls := by
  refine ⟨⟨by decide, by decide, by decide, by decide⟩, ?_⟩
  obtain ⟨s1, s2, calls, h1, h2, _, _, h3, h4, h5⟩ :=
    button_up_marks_pressed sampleConstants (by decide) (sampleCapturing 1 0x20000) 2 0x20000
      (by decide) rfl (by decide) rfl (by decide) (by decide)
  exact ⟨s1, s2, calls, h1, h2, h3, h4, (h5 7 0x20000).mpr ⟨rfl, rfl⟩⟩

/-- The held set after a single up event of button 2, evaluated: the bit of the button
is set. -/
theorem button_up_scenario :
    (joystickButtonEvent sampleConstants (sampleCapturing 1 0x20000) 2 false).map
      (fun r => (r.1.joystickMapState.buttons, r.2)) = some (4, []) := by
  decide

/-! ### C13: the derived slots -/

theorem nat_or_eq_zero (x y : Nat) : x ||| y = 0 ↔ x = 0 ∧ y = 0 := by
  constructor
  · intro h
    have hb : ∀ i, (x.testBit i || y.testBit i) = false := by
      intro i
      rw [← Nat.testBit_or, h, Nat.zero_testBit]
    constructor
    · apply Nat.eq_of_testBit_eq
      intro i
      have := hb i
      rw [Nat.zero_testBit]
      cases hx : x.testBit i
      · rfl
      · rw [hx] at this; exact this
    · apply Nat.eq_of_testBit_eq
      intro i
      have := hb i
      rw [Nat.zero_testBit]
      cases hy : y.testBit i
      · rfl
      · rw [hy, Bool.or_true] at this; exact this
  · rintro ⟨rfl, rfl⟩
    rfl

theorem nat_or_and (x y K : Nat) : (x ||| y) &&& K = (x &&& K) ||| (y &&& K) := by
  apply Nat.eq_of_testBit_eq
  intro i
  rw [Nat.testBit_and, Nat.testBit_or, Nat.testBit_or, Nat.testBit_and, Nat.testBit_and]
  cases x.testBit i <;> cases y.testBit i <;> cases K.testBit i <;> rfl

theorem or_and_eq_zero (x y K : Nat) :
    (x ||| y) &&& K = 0 ↔ x &&& K = 0 ∧ y &&& K = 0 := by
  rw [nat_or_and, nat_or_eq_zero]

theorem clearSlot_eq_zero (K x : Nat) : clearSlot K x = 0 ↔ (x ≠ 0 → x &&& K ≠ 0) := by
  unfold clearSlot
  by_cases h : x &&& K ≠ 0
  · simp [h]
  · rw [if_neg h]
    constructor
    · intro hx hne
      exact absurd hx hne
    · intro hx
      by_contra hne
      exact h (hx hne)

/-- The OR of the sources of a derived slot shares a bit with `keys` exactly when one
of the sources does. -/
theorem foldl_or_and_eq_zero (K : Nat) (sources : List Nat) (d : Nat) :
    (sources.foldl (fun x y => x ||| y) d) &&& K = 0 ↔
      d &&& K = 0 ∧ ∀ x ∈ sources, x &&& K = 0 := by
  induction sources generalizing d with
  | nil => simp
  | cons y ys ih =>
    rw [List.foldl_cons, ih, or_and_eq_zero]
    simp only [List.mem_cons, forall_eq_or_imp, and_assoc]

theorem foldl_or_eq_zero (sources : List Nat) (d : Nat) :
    sources.foldl (fun x y => x ||| y) d = 0 ↔ d = 0 ∧ ∀ x ∈ sources, x = 0 := by
  induction sources generalizing d with
  | nil => simp
  | cons y ys ih =>
    rw [List.foldl_cons, ih, nat_or_eq_zero]
    simp only [List.mem_cons, forall_eq_or_imp, and_assoc]

/-- Zeroing the slots that share a bit with `keys` keeps a derived slot equal to the OR
of its sources exactly under the condition `clearKeeps`. -/
theorem clearSlot_derived (K : Nat) (sources : List Nat) :
    clearSlot K (sources.foldl (fun x y => x ||| y) 0)
        = (sources.map (clearSlot K)).foldl (fun x y => x ||| y) 0
      ↔ clearKeeps K sources := by
  unfold clearKeeps
  by_cases hall : ∀ x ∈ sources, x &&& K = 0
  · have hD : (sources.foldl (fun x y => x ||| y) 0) &&& K = 0 :=
      (foldl_or_and_eq_zero K sources 0).mpr ⟨Nat.zero_and K, hall⟩
    have hmap : sources.map (clearSlot K) = sources := by
      conv => rhs; rw [← List.map_id sources]
      apply List.map_congr_left
      intro x hx
      exact clearSlot_of_disjoint K x (hall x hx)
    rw [clearSlot_of_disjoint K _ hD, hmap]
    exact ⟨fun _ => Or.inl hall, fun _ => rfl⟩
  · have hD : (sources.foldl (fun x y => x ||| y) 0) &&& K ≠ 0 := by
      intro h
      exact hall ((foldl_or_and_eq_zero K sources 0).mp h).2
    rw [clearSlot_of_shared K _ hD, eq_comm, foldl_or_eq_zero]
    simp only [List.mem_map, forall_exists_index, and_imp, forall_apply_eq_imp_iff₂,
      clearSlot_eq_zero, true_and]
    exact ⟨fun h => Or.inr h, fun h => h.resolve_left hall⟩

theorem clearSlot_derived2 (K x y : Nat) :
    clearSlot K (x ||| y) = clearSlot K x ||| clearSlot K y ↔ clearKeeps K [x, y] := by
  have h := clearSlot_derived K [x, y]
  simp only [List.foldl_cons, List.foldl_nil, List.map_cons, List.map_nil, Nat.zero_or] at h
  exact h

theorem clearSlot_derived4 (K x y z w : Nat) :
    clearSlot K (x ||| y ||| z ||| w)
        = clearSlot K x ||| clearSlot K y ||| clearSlot K z ||| clearSlot K w
      ↔ clearKeeps K [x, y, z, w] := by
  have h := clearSlot_derived K [x, y, z, w]
  simp only [List.foldl_cons, List.foldl_nil, List.map_cons, List.map_nil, Nat.zero_or] at h
  exact h

theorem axisDerived_cleared (cfg : Constants) (K : Nat) (jm jm1 : JoystickMappings) (a : Nat)
    (hinv : axisDerived cfg jm a)
    (hslot : ∀ v, v = cfg.AXIS_CENTERED ∨ v = cfg.AXIS_POSITIVE ∨ v = cfg.AXIS_NEGATIVE →
      jm1.axes a v = clearSlot K (jm.axes a v)) :
    axisDerived cfg jm1 a ↔ axisKept cfg K jm a := by
  unfold axisDerived at hinv ⊢
  unfold axisKept
  rw [hslot _ (Or.inl rfl), hslot _ (Or.inr (Or.inl rfl)), hslot _ (Or.inr (Or.inr rfl)), hinv]
  exact clearSlot_derived2 K _ _

theorem hatDerived_cleared (K : Nat) (jm jm1 : JoystickMappings) (h : Nat)
    (hinv : hatDerived jm h)
    (hslot : ∀ v, 1 ≤ v → v ≤ 9 → jm1.hats h v = clearSlot K (jm.hats h v)) :
    hatDerived jm1 h ↔ hatKept K jm h := by
  obtain ⟨h5, h1, h3, h7, h9⟩ := hinv
  unfold hatDerived hatKept
  rw [hslot 1 (by omega) (by omega), hslot 2 (by omega) (by omega),
    hslot 3 (by omega) (by omega), hslot 4 (by omega) (by omega),
    hslot 5 (by omega) (by omega), hslot 6 (by omega) (by omega),
    hslot 7 (by omega) (by omega), hslot 8 (by omega) (by omega),
    hslot 9 (by omega) (by omega), h5, h1, h3, h7, h9,
    clearSlot_derived4, clearSlot_derived2, clearSlot_derived2, clearSlot_derived2,
    clearSlot_derived2]

/-- The derived slots of a table whose slots, apart from those of the bound axis or
hat, are the slots of `jm` after `doClearMapping ( K )`. -/
theorem derivedWhereKept_of_cleared (cfg : Constants) (hcfg : cfg.WF) (K : Nat)
    (jm jm1 : JoystickMappings) (boundAxis boundHat : Option Nat)
    (hinv : derivedSlots cfg jm)
    (hba : ∀ a, boundAxis = some a → axisDerived cfg jm1 a)
    (hbh : ∀ h, boundHat = some h → hatDerived jm1 h)
    (haxes : ∀ a v, a < cfg.MAX_NUM_AXES → v < cfg.NUM_AXIS_VALUES → boundAxis ≠ some a →
      jm1.axes a v = clearSlot K (jm.axes a v))
    (hhats : ∀ h v, h < cfg.MAX_NUM_HATS → v < cfg.NUM_HAT_VALUES → boundHat ≠ some h →
      jm1.hats h v = clearSlot K (jm.hats h v)) :
    derivedWhereKept cfg K jm jm1 boundAxis boundHat := by
  obtain ⟨hc, hp, hn, _, _, _, h10, _⟩ := hcfg
  refine ⟨hba, hbh, ?_, ?_⟩
  · intro a ha hne
    apply axisDerived_cleared cfg K jm jm1 a (hinv.1 a ha)
    intro v hv
    have hvlt : v < cfg.NUM_AXIS_VALUES := by
      rcases hv with h | h | h <;> rw [h] <;> assumption
    exact haxes a v ha hvlt hne
  · intro h hh hne
    apply hatDerived_cleared K jm jm1 h (hinv.2 h hh)
    intro v _ hv9
    exact hhats h v hh (by omega) hne

theorem doClearMapping_derived (cfg : Constants) (hcfg : cfg.WF) (K : Nat) (s : Controller)
    (hinv : derivedSlots cfg s.joystickMappings) :
    derivedWhereKept cfg K s.joystickMappings (doClearMapping cfg K s).joystickMappings
      none none :=
  derivedWhereKept_of_cleared cfg hcfg K _ _ none none hinv
    (fun _ h => Option.noConfusion h) (fun _ h => Option.noConfusion h)
    (fun a v ha hv _ => doClearMapping_axes cfg K s a v ha hv)
    (fun h v hh hv _ => doClearMapping_hats cfg K s h v hh hv)

theorem resetToDefaults_derived (cfg : Constants) (hcfg : cfg.WF) (s : Controller)
    (hjoy : s.isJoystick = true) (hinv : derivedSlots cfg s.joystickMappings) :
    derivedWhereKept cfg cfg.MASK_BUTTONS s.joystickMappings
      (resetToDefaults cfg s).1.joystickMappings none none := by
  have hne : ¬ s.isJoystick = false := by rw [hjoy]; exact Bool.noConfusion
  unfold resetToDefaults doResetToDefaults
  rw [if_neg hne, if_neg hne]
  exact doClearMapping_derived cfg hcfg cfg.MASK_BUTTONS s hinv

theorem mapButton_derived (cfg : Constants) (hcfg : cfg.WF) (s : Controller) (button : Nat)
    (hinv : derivedSlots cfg s.joystickMappings) :
    derivedWhereKept cfg s.keyToMap s.joystickMappings
      (mapButton cfg s button).1.joystickMappings none none := by
  unfold mapButton
  dsimp only
  rw [finishMapping_joystickMappings]
  exact doClearMapping_derived cfg hcfg s.keyToMap s hinv

theorem mapAxis_derived (cfg : Constants) (hcfg : cfg.WF) (s : Controller)
    (axis activeValue : Nat) (hinv : derivedSlots cfg s.joystickMappings) :
    derivedWhereKept cfg s.keyToMap s.joystickMappings
      (mapAxis cfg s axis activeValue).1.joystickMappings (some axis) none := by
  have hcp : cfg.AXIS_POSITIVE ≠ cfg.AXIS_CENTERED := Ne.symm hcfg.2.2.2.1
  have hcn : cfg.AXIS_NEGATIVE ≠ cfg.AXIS_CENTERED := Ne.symm hcfg.2.2.2.2.1
  apply derivedWhereKept_of_cleared cfg hcfg s.keyToMap _ _ (some axis) none hinv
  · intro a ha
    cases ha
    simp only [axisDerived, mapAxis, finishMapping_joystickMappings, JoystickMappings.invalidate,
      setSlot_apply, and_self, if_true, hcp, hcn, and_false, if_false]
  · intro _ h
    exact Option.noConfusion h
  · intro a v ha hv hne
    have hne2 : a ≠ axis := fun h => hne (by rw [h])
    simp only [mapAxis, finishMapping_joystickMappings, JoystickMappings.invalidate,
      setSlot_apply, hne2, false_and, if_false]
    exact doClearMapping_axes cfg s.keyToMap s a v ha hv
  · intro h v hh hv _
    simp only [mapAxis, finishMapping_joystickMappings, JoystickMappings.invalidate]
    exact doClearMapping_hats cfg s.keyToMap s h v hh hv

theorem mapHat_derived (cfg : Constants) (hcfg : cfg.WF) (s : Controller)
    (hat value : Nat) (hinv : derivedSlots cfg s.joystickMappings) :
    derivedWhereKept cfg s.keyToMap s.joystickMappings
      (mapHat cfg s hat value).1.joystickMappings none (some hat) := by
  apply derivedWhereKept_of_cleared cfg hcfg s.keyToMap _ _ none (some hat) hinv
  · intro _ h
    exact Option.noConfusion h
  · intro h hh
    cases hh
    simp [hatDerived, mapHat, JoystickMappings.invalidate, setSlot_apply]
  · intro a v ha hv _
    simp only [mapHat, finishMapping_joystickMappings, JoystickMappings.invalidate]
    exact doClearMapping_axes cfg s.keyToMap s a v ha hv
  · intro h v hh hv hne
    have hne2 : h ≠ hat := fun hx => hne (by rw [hx])
    simp only [mapHat, finishMapping_joystickMappings, JoystickMappings.invalidate,
      setSlot_apply, hne2, false_and, if_false]
    exact doClearMapping_hats cfg s.keyToMap s h v hh hv

/-- C13 (amended): when the derived-slot invariant holds before `clear(K)`, before
`setDefault` on a joystick (which clears `K = MASK_BUTTONS`), or before a
capture-completing axis or button event (which clears `K = keyToMap`), then afterwards
it holds on the axis that a capture-completing axis event binds, and on every other
axis and on every hat it holds exactly when, for each derived slot of that axis or
hat, `K` shares a bit with none of the slots it is derived from, or with every one of
them that is not 0: a slot that shares a bit with `K` is zeroed and the derived slots
of the other axes and hats are not recomputed. On a keyboard `setDefault` changes
nothing. The completion block of the hat handler, which no hat event reaches, does the
same and leaves the invariant on the hat it binds. -/
theorem derived_slots_where_kept (cfg : Constants) (hcfg : cfg.WF) (s : Controller)
    (hinv : derivedSlots cfg s.joystickMappings) :
    (∀ K, derivedWhereKept cfg K s.joystickMappings
      (clearMapping cfg K s).1.joystickMappings none none) ∧
    (s.isJoystick = true → derivedWhereKept cfg cfg.MASK_BUTTONS s.joystickMappings
      (resetToDefaults cfg s).1.joystickMappings none none) ∧
    (s.isJoystick = false → derivedSlots cfg (resetToDefaults cfg s).1.joystickMappings) ∧
    (∀ axis, axis < cfg.MAX_NUM_AXES → s.keyToMap ≠ 0 → s.waitForNeutral = false →
      ¬ preserveDirs cfg s (s.joystickMappings.axes axis cfg.AXIS_CENTERED) →
      s.joystickMapState.axes axis ≠ cfg.AXIS_CENTERED →
      s.joystickMapState.axes axis < cfg.NUM_AXIS_VALUES →
      ∃ r, joystickAxisEvent cfg s axis cfg.AXIS_CENTERED = some r ∧
        derivedWhereKept cfg s.keyToMap s.joystickMappings r.1.joystickMappings
          (some axis) none) ∧
    (∀ button, button < cfg.MAX_NUM_BUTTONS → s.keyToMap ≠ 0 → s.waitForNeutral = false →
      ¬ preserveDirs cfg s (s.joystickMappings.buttons button) →
      s.joystickMapState.buttons &&& (1 <<< button) ≠ 0 →
      ∃ r, joystickButtonEvent cfg s button false = some r ∧
        derivedWhereKept cfg s.keyToMap s.joystickMappings r.1.joystickMappings none none) ∧
    (∀ hat value, derivedWhereKept cfg s.keyToMap s.joystickMappings
      (mapHat cfg s hat value).1.joystickMappings none (some hat)) := by
  have hc : cfg.AXIS_CENTERED < cfg.NUM_AXIS_VALUES := hcfg.1
  have h32 : cfg.MAX_NUM_BUTTONS ≤ 32 := hcfg.2.2.2.2.2.2.2
  refine ⟨?_, ?_, ?_, ?_, ?_, ?_⟩
  · intro K
    exact doClearMapping_derived cfg hcfg K s hinv
  · intro hjoy
    exact resetToDefaults_derived cfg hcfg s hjoy hinv
  · intro hkbd
    unfold resetToDefaults
    rw [if_pos hkbd]
    exact hinv
  · intro axis ha hK hwait hgate hact hlt
    refine ⟨mapAxis cfg s axis (s.joystickMapState.axes axis), ?_,
      mapAxis_derived cfg hcfg s axis _ hinv⟩
    rw [joystickAxisEvent_capturing cfg s axis cfg.AXIS_CENTERED ⟨ha, hc⟩ ⟨hK, hwait, hgate⟩,
      if_pos ⟨rfl, hact⟩, if_neg (not_not.mpr hlt)]
  · intro button hb hK hwait hgate hact
    refine ⟨mapButton cfg s button, ?_, mapButton_derived cfg hcfg s button hinv⟩
    rw [joystickButtonEvent_capturing cfg s button false ⟨hb, by omega⟩ ⟨hK, hwait, hgate⟩,
      if_pos ⟨rfl, hact⟩]
  · intro hat value
    exact mapHat_derived cfg hcfg s hat value hinv

/-- C13, witness: on the joystick whose axis 0 maps POSITIVE to `0x10000` and NEGATIVE
to `0x4`, `clearMapping ( 0x10004 )` shares a bit with both source slots of axis 0 and
leaves the invariant on it, and `clearMapping ( 0x10000 )` leaves it on axis 1, whose
slots are 0; the axis event that completes a capture on axis 0 leaves the invariant on
axis 0. -/
theorem derived_slots_where_kept_witness :
    derivedSlots sampleConstants (sampleAxisJoystick 0x10000).joystickMappings ∧
    axisDerived sampleConstants
      (clearMapping sampleConstants 0x10004 (sampleAxisJoystick 0x10000)).1.joystickMappings 0 ∧
    axisDerived sampleConstants
      (clearMapping sampleConstants 0x10000 (sampleAxisJoystick 0x10000)).1.joystickMappings 1 ∧
    ∃ r, joystickAxisEvent sampleConstants (sampleMidCapture 1 0x20000 0) 0 0 = some r ∧
      axisDerived sampleConstants r.1.joystickMappings 0 := by
  refine ⟨by decide, ?_, ?_, ?_⟩
  · exact ((((derived_slots_where_kept sampleConstants (by decide) (sampleAxisJoystick 0x10000)
      (by decide)).1 0x10004).2.2.1 0 (by decide) (by decide))).mpr (by decide)
  · exact ((((derived_slots_where_kept sampleConstants (by decide) (sampleAxisJoystick 0x10000)
      (by decide)).1 0x10000).2.2.1 1 (by decide) (by decide))).mpr (by decide)
  · obtain ⟨r, hr, hkept⟩ :=
      (derived_slots_where_kept sampleConstants (by decide) (sampleMidCapture 1 0x20000 0)
        (by decide)).2.2.2.1 0 (by decide) (by decide) rfl (by decide) (by decide) (by decide)
    exact ⟨r, hr, hkept.1 0 rfl⟩

/-- C13, counterexample: on a joystick whose axis 0 maps POSITIVE to `0x10000` and
NEGATIVE to `0x4`, with the derived CENTERED slot `0x10004`, the derived-slot invariant
holds for every axis and every hat; it no longer holds after `clearMapping ( 0x10000 )`,
after `resetToDefaults()`, or after the press and release of button 0 that completes
the capture of the key `0x10000`: `doClearMapping` zeroes the CENTERED slot together
with the POSITIVE slot, so `axes[0][CENTERED] == 0` while `axes[0][NEGATIVE] == 0x4`. -/
theorem clear_breaks_derived_slots :
    derivedSlots sampleConstants (sampleAxisJoystick 0x10000).joystickMappings ∧
    ¬ derivedSlots sampleConstants
        (clearMapping sampleConstants 0x10000 (sampleAxisJoystick 0x10000)).1.joystickMappings ∧
    ¬ derivedSlots sampleConstants
        (resetToDefaults sampleConstants (sampleAxisJoystick 0x10000)).1.joystickMappings ∧
    ((joystickButtonEvent sampleConstants (sampleAxisJoystick 0x10000) 0 true).bind
        (fun r => joystickButtonEvent sampleConstants r.1 0 false)).map
      (fun r => (decide (derivedSlots sampleConstants r.1.joystickMappings),
        r.1.joystickMappings.axes 0 0, r.1.joystickMappings.axes 0 1,
        r.1.joystickMappings.axes 0 2, r.1.joystickMappings.buttons 0))
      = some (false, 0, 0, 0x4, 0x10000) := by
  refine ⟨by decide, by decide, by decide, by decide⟩

/-! ### C14: the PRESERVE_DIRS guard -/

/-- C14: for a joystick with `MAP_PRESERVE_DIRS` set and
`axes[a][CENTERED] & MASK_DIRS != 0`, every axis event `(a, v)` inside the axes table
returns without a notification, leaves all mapping tables, `mapState` and `keyToMap`
unchanged and updates `state` exactly as play mode does:
`state' = (state & ~axes[a][CENTERED]) | (axes[a][v] if v != CENTERED else 0)`. (The
statement holds whatever `keyToMap` and `waitForNeutral` are, in particular while
capturing with `waitForNeutral` false.) -/
theorem preserve_dirs_axis_plays (cfg : Constants) (s : Controller) (a v : Nat)
    (ha : a < cfg.MAX_NUM_AXES) (hv : v < cfg.NUM_AXIS_VALUES)
    (hopt : s.options &&& cfg.MAP_PRESERVE_DIRS ≠ 0)
    (hdir : s.joystickMappings.axes a cfg.AXIS_CENTERED &&& cfg.MASK_DIRS ≠ 0) :
    ∃ s1,
      joystickAxisEvent cfg s a v = some (s1, []) ∧
      s1.keyboardMappings = s.keyboardMappings ∧
      s1.joystickMappings = s.joystickMappings ∧
      s1.joystickMapState = s.joystickMapState ∧
      s1.keyToMap = s.keyToMap ∧
      s1.state =
        (s.state &&& not32 (s.joystickMappings.axes a cfg.AXIS_CENTERED)) |||
          (if v ≠ cfg.AXIS_CENTERED then s.joystickMappings.axes a v else 0) := by
  have hmask : s.joystickMappings.axes a cfg.AXIS_CENTERED ≠ 0 := by
    intro h0
    rw [h0, Nat.zero_and] at hdir
    exact hdir rfl
  have hplay : ¬ (s.keyToMap ≠ 0 ∧ s.waitForNeutral = false
      ∧ ¬ preserveDirs cfg s (s.joystickMappings.axes a cfg.AXIS_CENTERED)) :=
    fun h => h.2.2 ⟨hopt, hdir⟩
  rw [joystickAxisEvent_play cfg s a v ⟨ha, hv⟩ hplay, if_neg hmask]
  refine ⟨_, rfl, rfl, rfl, rfl, rfl, ?_⟩
  by_cases hc : v = cfg.AXIS_CENTERED
  · simp [hc]
  · simp [hc]

/-- C14, witness: axis 0 owns the direction bit `0x4`; while the key `0x20000` is
captured with `MAP_PRESERVE_DIRS`, the event `(0, POSITIVE)` sets the state to the
mask `0x10000` of the positive direction. -/
theorem preserve_dirs_axis_plays_witness :
    (0 < sampleConstants.MAX_NUM_AXES ∧ 1 < sampleConstants.NUM_AXIS_VALUES ∧
      (samplePreserving 0x20000).options &&& sampleConstants.MAP_PRESERVE_DIRS ≠ 0 ∧
      (samplePreserving 0x20000).joystickMappings.axes 0 sampleConstants.AXIS_CENTERED
        &&& sampleConstants.MASK_DIRS ≠ 0) ∧
    ∃ s1,
      joystickAxisEvent sampleConstants (samplePreserving 0x20000) 0 1 = some (s1, []) ∧
      s1.joystickMappings = (samplePreserving 0x20000).joystickMappings ∧
      s1.keyToMap = 0x20000 ∧ s1.state = 0x10000 := by
  refine ⟨⟨by decide, by decide, by decide, by decide⟩, ?_⟩
  obtain ⟨s1, h1, _, h2, _, h3, h4⟩ :=
    preserve_dirs_axis_plays sampleConstants (samplePreserving 0x20000) 0 1 (by decide)
      (by decide) (by decide) (by decide)
  exact ⟨s1, h1, h2, h3, by rw [h4]; decide⟩

/-! ### C15: wait for neutral -/

/-- C15: for a joystick with `waitForNeutral == true`, every axis, hat and button event
inside the tables returns without any notification and leaves all mapping tables and
the capture scratch `mapState` unchanged; and `startMapping` called on a device whose
`state != 0` sets `waitForNeutral` to true. (The statement holds whatever `keyToMap`
is, in particular for `keyToMap != 0`.) -/
theorem wait_for_neutral_blocks_capture (cfg : Constants) (s : Controller)
    (hwait : s.waitForNeutral = true) :
    (∀ a v, a < cfg.MAX_NUM_AXES → v < cfg.NUM_AXIS_VALUES →
      ∃ s1, joystickAxisEvent cfg s a v = some (s1, []) ∧
        s1.keyboardMappings = s.keyboardMappings ∧
        s1.joystickMappings = s.joystickMappings ∧
        s1.joystickMapState = s.joystickMapState) ∧
    (∀ h v, h < cfg.MAX_NUM_HATS → v < cfg.NUM_HAT_VALUES →
      ∃ s1, joystickHatEvent cfg s h v = some (s1, []) ∧
        s1.keyboardMappings = s.keyboardMappings ∧
        s1.joystickMappings = s.joystickMappings ∧
        s1.joystickMapState = s.joystickMapState) ∧
    (∀ b isDown, b < cfg.MAX_NUM_BUTTONS → b < 32 →
      ∃ s1, joystickButtonEvent cfg s b isDown = some (s1, []) ∧
        s1.keyboardMappings = s.keyboardMappings ∧
        s1.joystickMappings = s.joystickMappings ∧
        s1.joystickMapState = s.joystickMapState) ∧
    (∀ (t : Controller) owner key ignore options, t.state ≠ 0 →
      (startMapping cfg t owner key ignore options).1.waitForNeutral = true) := by
  have hw : ¬ s.waitForNeutral = false := by rw [hwait]; exact Bool.noConfusion
  refine ⟨?_, ?_, ?_, ?_⟩
  · intro a v ha hv
    rw [joystickAxisEvent_play cfg s a v ⟨ha, hv⟩ (fun h => hw h.2.1)]
    split
    · exact ⟨_, rfl, rfl, rfl, rfl⟩
    · exact ⟨_, rfl, rfl, rfl, rfl⟩
  · intro h v hh hv
    rw [joystickHatEvent_play cfg s h v ⟨hh, hv⟩ (fun h => hw h.2.1)]
    split
    · exact ⟨_, rfl, rfl, rfl, rfl⟩
    · exact ⟨_, rfl, rfl, rfl, rfl⟩
  · intro b isDown hb hb32
    rw [joystickButtonEvent_play cfg s b isDown ⟨hb, hb32⟩ (fun h => hw h.2.1)]
    split
    · exact ⟨_, rfl, rfl, rfl, rfl⟩
    · exact ⟨_, rfl, rfl, rfl, rfl⟩
  · intro t owner key ignore options hst
    have h1 : (finishMapping cfg t).1.state ≠ 0 := by rw [finishMapping_state]; exact hst
    simp only [startMapping, h1, ne_eq, not_false_eq_true, if_true]

/-- C15, witness: a joystick that waits for neutral ignores the press of button 2 for
the capture, and `startMapping` on a device with a held button sets `waitForNeutral`. -/
theorem wait_for_neutral_blocks_capture_witness :
    ((sampleWaiting 0x20000).waitForNeutral = true ∧ 2 < sampleConstants.MAX_NUM_BUTTONS ∧
      (sampleWaiting 0).state ≠ 0) ∧
    (∃ s1, joystickButtonEvent sampleConstants (sampleWaiting 0x20000) 2 true = some (s1, []) ∧
      s1.joystickMappings = (sampleWaiting 0x20000).joystickMappings ∧
      s1.joystickMapState = (sampleWaiting 0x20000).joystickMapState) ∧
    (startMapping sampleConstants { sampleWaiting 0 with waitForNeutral := false } (some 7)
      0x20000 [] 0).1.waitForNeutral = true := by
  refine ⟨⟨rfl, by decide, by decide⟩, ?_, ?_⟩
  · obtain ⟨s1, h1, _, h2, h3⟩ :=
      (wait_for_neutral_blocks_capture sampleConstants (sampleWaiting 0x20000) rfl).2.2.1 2 true
        (by decide) (by decide)
    exact ⟨s1, h1, h2, h3⟩
  · exact (wait_for_neutral_blocks_capture sampleConstants (sampleWaiting 0x20000) rfl).2.2.2
      { sampleWaiting 0 with waitForNeutral := false } (some 7) 0x20000 [] 0 (by decide)

/-! ### C16: ESC -/

/-- C16: for every device (keyboard or joystick) and every engine state, a key-down
event with `vkCode == VK_ESCAPE` leaves the keyboard and the joystick mapping tables,
their invalidation counters included, unchanged, and the owner calls it makes are
exactly: the registered owner, if there is one, with `key == 0`. -/
theorem escape_aborts (cfg : Constants) (s : Controller) (scan : Nat) (ext : Bool) :
    (keyboardEvent cfg s cfg.VK_ESCAPE scan ext true).1.keyboardMappings
      = s.keyboardMappings ∧
    (keyboardEvent cfg s cfg.VK_ESCAPE scan ext true).1.joystickMappings
      = s.joystickMappings ∧
    (∀ o k, Call.doneMapping o k ∈ (keyboardEvent cfg s cfg.VK_ESCAPE scan ext true).2 ↔
      s.owner = some o ∧ k = 0) := by
  have hev : keyboardEvent cfg s cfg.VK_ESCAPE scan ext true =
      ((finishMapping cfg s).1,
        (finishMapping cfg s).2 ++ [Call.mappingsChanged] ++ notifyOwner s.owner 0) := by
    unfold keyboardEvent
    simp
  rw [hev]
  refine ⟨finishMapping_keyboardMappings cfg s, finishMapping_joystickMappings cfg s, ?_⟩
  intro o k
  exact mem_completion_calls cfg s s.owner 0 o k

/-- Scenario of an ESC key-down on a capturing joystick, evaluated: the capture is
cancelled and the owner 7 is told the key 0. -/
theorem escape_scenario :
    (keyboardEvent sampleConstants (sampleBoundJoystick 0x20000) 0x1B 1 false true).2
        = [Call.unhook, Call.mappingsChanged, Call.doneMapping 7 0] ∧
    (keyboardEvent sampleConstants (sampleBoundJoystick 0x20000) 0x1B 1 false true).1.keyToMap
        = 0 := by
  refine ⟨by decide, by decide⟩

/-! ### C19: the description of a joystick mapping -/

theorem buttonLabel_ne_empty (b : Nat) : buttonLabel b ≠ "" := by
  intro h
  have h3 := congrArg String.length h
  unfold buttonLabel at h3
  rw [String.length_append] at h3
  have h4 : ("" : String).length = 0 := rfl
  have h5 : ("Button " : String).length = 7 := by decide
  omega

/-- The comma-joined text of `names` appended to a non-empty text is the running value
of `String.intercalate`. -/
theorem join_from_nonempty (names : List String) (hne : ∀ n ∈ names, n ≠ "") :
    ∀ acc : String, acc ≠ "" →
      names.foldl (fun m n => if m = "" then n else m ++ (", " ++ n)) acc
        = String.intercalate.go acc ", " names := by
  induction names with
  | nil => intro acc _; rfl
  | cons a t ih =>
    intro acc hacc
    rw [List.foldl_cons, if_neg hacc, String.intercalate.go, ← String.append_assoc]
    exact ih (fun n hn => hne n (List.mem_cons_of_mem _ hn)) _
      (string_append_ne_empty _ _ (hne a (List.mem_cons_self _ _)))

/-- The text the button loop builds from non-empty labels is their comma-joined list. -/
theorem join_eq_intercalate (names : List String) (hne : ∀ n ∈ names, n ≠ "") :
    names.foldl (fun m n => if m = "" then n else m ++ (", " ++ n)) ""
      = ", ".intercalate names := by
  cases names with
  | nil => rfl
  | cons a t =>
    rw [List.foldl_cons, if_pos rfl, String.intercalate]
    exact join_from_nonempty t (fun n hn => hne n (List.mem_cons_of_mem _ hn)) a
      (hne a (List.mem_cons_self _ _))

/-- The button loop of `getMapping` adds the labels of the buttons whose slot equals `key`, in ascending order. -/
theorem appendButton_fold (s : Controller) (key : Nat) (l : List Nat) :
    ∀ acc : String, l.foldl (appendButton s key) acc
      = ((l.filter (fun b => decide (s.joystickMappings.buttons b = key))).map buttonLabel).foldl
          (fun m n => if m = "" then n else m ++ (", " ++ n)) acc := by
  induction l with
  | nil => intro acc; rfl
  | cons b t ih =>
    intro acc
    rw [List.foldl_cons, ih]
    by_cases hb : s.joystickMappings.buttons b = key
    · rw [List.filter_cons_of_pos (by simpa using hb), List.map_cons, List.foldl_cons]
      simp only [appendButton, hb, ne_eq, not_true_eq_false, if_false]
    · rw [List.filter_cons_of_neg (by simpa using hb)]
      simp only [appendButton, hb, ne_eq, not_false_eq_true, if_true]

/-- C19 (amended): for a joystick and a queried mask `key` (with `key != keyToMap` or an
empty placeholder), `getMapping` returns the comma-joined list, in ascending button
order, of "Button n" (n 1-based) for every button whose mapped mask is exactly `key`,
i.e. every button `b` of the table with `buttons[b] == key`. -/
theorem getMapping_joystick (cfg : Constants) (s : Controller) (key : Nat)
    (placeholder : String) (hjoy : s.isJoystick = true)
    (hq : key ≠ s.keyToMap ∨ placeholder = "") :
    getMapping cfg s key placeholder =
      ", ".intercalate
        (((List.range cfg.MAX_NUM_BUTTONS).filter
          (fun b => decide (s.joystickMappings.buttons b = key))).map buttonLabel) := by
  have hkb : ¬ s.isKeyboard = true := by
    simp only [isJoystick, bne_iff_ne, ne_eq] at hjoy
    simp [isKeyboard, hjoy]
  have hfirst : ¬ (key = s.keyToMap ∧ placeholder ≠ "") := by
    rintro ⟨h1, h2⟩
    rcases hq with h | h
    · exact h h1
    · exact h2 h
  unfold getMapping
  rw [if_neg hfirst, if_neg hkb, if_pos hjoy, appendButton_fold]
  apply join_eq_intercalate
  intro n hn
  obtain ⟨b, _, hb⟩ := List.mem_map.mp hn
  rw [← hb]
  exact buttonLabel_ne_empty b

/-- C19, witness: button 0 of the joystick is mapped to the mask `0x30000`; the
description of `0x30000` is "Button 1". -/
theorem getMapping_joystick_witness :
    ((sampleBoundJoystick 5).isJoystick = true ∧ (0x30000 : Nat) ≠ (sampleBoundJoystick 5).keyToMap) ∧
    getMapping sampleConstants (sampleBoundJoystick 5) 0x30000 "" = "Button 1" := by
  refine ⟨⟨by decide, by decide⟩, ?_⟩
  rw [getMapping_joystick sampleConstants (sampleBoundJoystick 5) 0x30000 "" (by decide)
    (Or.inl (by decide))]
  decide

/-- C19, counterexample: button 0 is mapped to the mask `0x30000`, which shares the
bit `0x10000` with the queried key, but the description of `0x10000` is empty, since
the loop compares `buttons[b]` with `key` for equality; and the description of the key
`0` lists every button whose slot is `0`, although no slot shares a bit with `0`. -/
theorem getMapping_compares_for_equality :
    (sampleBoundJoystick 5).joystickMappings.buttons 0 &&& 0x10000 ≠ 0 ∧
    getMapping sampleConstants (sampleBoundJoystick 5) 0x10000 "" = "" ∧
    (sampleBoundJoystick 5).joystickMappings.buttons 2 &&& 0 = 0 ∧
    getMapping sampleConstants { sampleBoundJoystick 5 with joystickMappings :=
        { (sampleBoundJoystick 5).joystickMappings with
          buttons := fun b => if b = 2 then 0 else 0x30000 } } 0 "" = "Button 3" := by
  refine ⟨by decide, by decide, by decide, by decide⟩

/-! ### C20: axis events in play mode -/

/-- C20: for a joystick with `keyToMap == 0` and every axis event `(a, v)` with `v` in
`{POSITIVE, NEGATIVE, CENTERED}`, the event returns without a notification; if
`axes[a][CENTERED] == 0` then `state` and `waitForNeutral` are unchanged; otherwise
`state' = (state & ~axes[a][CENTERED]) | (axes[a][v] if v != CENTERED else 0)`. In both
cases no mapping slot changes, and every bit of the 32-bit `state` outside
`axes[a][CENTERED] | axes[a][v]` is unchanged. -/
theorem axis_play_mode (cfg : Constants) (hcfg : cfg.WF) (s : Controller) (a v : Nat)
    (ha : a < cfg.MAX_NUM_AXES) (hK : s.keyToMap = 0)
    (hv : v = cfg.AXIS_POSITIVE ∨ v = cfg.AXIS_NEGATIVE ∨ v = cfg.AXIS_CENTERED) :
    ∃ s1,
      joystickAxisEvent cfg s a v = some (s1, []) ∧
      s1.keyboardMappings = s.keyboardMappings ∧
      s1.joystickMappings = s.joystickMappings ∧
      (s.joystickMappings.axes a cfg.AXIS_CENTERED = 0 →
        s1.state = s.state ∧ s1.waitForNeutral = s.waitForNeutral) ∧
      (s.joystickMappings.axes a cfg.AXIS_CENTERED ≠ 0 →
        s1.state =
          (s.state &&& not32 (s.joystickMappings.axes a cfg.AXIS_CENTERED)) |||
            (if v ≠ cfg.AXIS_CENTERED then s.joystickMappings.axes a v else 0)) ∧
      (∀ i, i < 32 →
        (s.joystickMappings.axes a cfg.AXIS_CENTERED ||| s.joystickMappings.axes a v).testBit i
          = false →
        s1.state.testBit i = s.state.testBit i) := by
  obtain ⟨hc, hp, hn, _⟩ := hcfg
  have hvlt : v < cfg.NUM_AXIS_VALUES := by
    rcases hv with h | h | h <;> rw [h] <;> assumption
  have hplay : ¬ (s.keyToMap ≠ 0 ∧ s.waitForNeutral = false
      ∧ ¬ preserveDirs cfg s (s.joystickMappings.axes a cfg.AXIS_CENTERED)) :=
    fun h => h.1 hK
  rw [joystickAxisEvent_play cfg s a v ⟨ha, hvlt⟩ hplay]
  by_cases hmask : s.joystickMappings.axes a cfg.AXIS_CENTERED = 0
  · rw [if_pos hmask]
    exact ⟨s, rfl, rfl, rfl, fun _ => ⟨rfl, rfl⟩, fun h => absurd hmask h, fun _ _ _ => rfl⟩
  · rw [if_neg hmask]
    refine ⟨_, rfl, rfl, rfl, fun h => absurd h hmask, fun _ => ?_, ?_⟩
    · by_cases hcv : v = cfg.AXIS_CENTERED
      · simp [hcv]
      · simp [hcv]
    · intro i hi hbit
      rw [Nat.testBit_or, Bool.or_eq_false_iff] at hbit
      by_cases hcv : v = cfg.AXIS_CENTERED
      · simp [hcv, Nat.testBit_and, not32_testBit _ _ hi, hbit.1]
      · simp [hcv, Nat.testBit_and, Nat.testBit_or, not32_testBit _ _ hi, hbit.1, hbit.2]

/-- C20, witness: axis 0 maps POSITIVE to `0x10000` and NEGATIVE to `0x4`; from the
state `0x4` the event `(0, POSITIVE)` gives the state `0x10000`. -/
theorem axis_play_mode_witness :
    (sampleConstants.WF ∧ 0 < sampleConstants.MAX_NUM_AXES ∧
      ({ sampleAxisJoystick 0 with state := 0x4 } : Controller).keyToMap = 0) ∧
    ∃ s1,
      joystickAxisEvent sampleConstants { sampleAxisJoystick 0 with state := 0x4 } 0
        sampleConstants.AXIS_POSITIVE = some (s1, []) ∧
      s1.joystickMappings = (sampleAxisJoystick 0).joystickMappings ∧
      s1.state = 0x10000 := by
  refine ⟨⟨by decide, by decide, rfl⟩, ?_⟩
  obtain ⟨s1, h1, _, h2, _, h3, _⟩ :=
    axis_play_mode sampleConstants (by decide) { sampleAxisJoystick 0 with state := 0x4 } 0
      sampleConstants.AXIS_POSITIVE (by decide) rfl (Or.inl rfl)
  exact ⟨s1, h1, h2, by rw [h3 (by decide)]; decide⟩

/-! ### C21: the completion protocol -/

/-- The shared tail of every completion: the protocol holds for `finishMapping` on a
state `s1` that has the transient fields of `s`, followed by `mappingsChanged` and the
notification of the owner recorded in `s`. -/
theorem finishMapping_protocol (cfg : Constants) (s s1 : Controller)
    (hkey : s1.keyToMap = s.keyToMap) (hown : s1.owner = s.owner)
    (hopt : s1.options = s.options) (hwait : s1.waitForNeutral = s.waitForNeutral) :
    completionProtocol cfg s
      ((finishMapping cfg s1).1,
        (finishMapping cfg s1).2 ++ [Call.mappingsChanged] ++ notifyOwner s.owner s.keyToMap) := by
  unfold completionProtocol finishMapping cancelMapping
  rw [hopt]
  by_cases h : s.options &&& cfg.MAP_CONTINUOUSLY = 0
  · simp [h]
  · simp [h, hkey, hown, hopt, hwait]

theorem mapAxis_protocol (cfg : Constants) (s : Controller) (axis activeValue : Nat) :
    completionProtocol cfg s (mapAxis cfg s axis activeValue) :=
  finishMapping_protocol cfg s _ rfl rfl rfl rfl

theorem mapHat_protocol (cfg : Constants) (s : Controller) (hat value : Nat) :
    completionProtocol cfg s (mapHat cfg s hat value) :=
  finishMapping_protocol cfg s _ rfl rfl rfl rfl

theorem mapButton_protocol (cfg : Constants) (s : Controller) (button : Nat) :
    completionProtocol cfg s (mapButton cfg s button) :=
  finishMapping_protocol cfg s _ rfl rfl rfl rfl

theorem keyboardEvent_protocol (cfg : Constants) (s : Controller) (vkCode scanCode : Nat)
    (isExtended : Bool) (hkbd : s.isJoystick = false) (hesc : vkCode ≠ cfg.VK_ESCAPE) :
    completionProtocol cfg s (keyboardEvent cfg s vkCode scanCode isExtended true) := by
  have h : keyboardEvent cfg s vkCode scanCode isExtended true =
      ((finishMapping cfg
          { doClearMapping cfg s.keyToMap s with
            keyboardMappings := KeyboardMappings.invalidate
              ((List.range 32).foldl
                (bindKeySlot s.keyToMap vkCode (cfg.getVKeyName vkCode scanCode isExtended))
                (doClearMapping cfg s.keyToMap s).keyboardMappings) }).1,
        (finishMapping cfg
          { doClearMapping cfg s.keyToMap s with
            keyboardMappings := KeyboardMappings.invalidate
              ((List.range 32).foldl
                (bindKeySlot s.keyToMap vkCode (cfg.getVKeyName vkCode scanCode isExtended))
                (doClearMapping cfg s.keyToMap s).keyboardMappings) }).2
          ++ [Call.mappingsChanged] ++ notifyOwner s.owner s.keyToMap) := by
    unfold keyboardEvent
    rw [if_neg (fun hx => by rw [hkbd] at hx; exact Bool.noConfusion hx.1),
      if_neg (fun hx => Bool.noConfusion hx.1)]
    dsimp only
    rw [if_pos hesc, if_pos hesc]
  rw [h]
  exact finishMapping_protocol cfg s _ rfl rfl rfl rfl

/-- C21: for an engine capturing `keyToMap = K != 0`, every completion follows the
protocol `completionProtocol`: without `MAP_CONTINUOUSLY` in `options` the result has
`keyToMap == 0`, no owner, `waitForNeutral` false and a cleared `mapState`; with
`MAP_CONTINUOUSLY` the result has the `keyToMap`, owner, options and `waitForNeutral`
of before and a cleared `mapState`; in both cases the calls end with `mappingsChanged`
and the notification of the owner recorded before the reset, with `key == K`. This
holds for the axis event that returns a remembered axis to CENTERED, for the button
up event of a remembered button, for a key-down event other than ESC on a keyboard,
and for the completion block of the hat handler (which the hat handler's guard
`value % 2 == 0` keeps from being reached). -/
theorem completion_protocol (cfg : Constants) (hcfg : cfg.WF) (s : Controller)
    (hK : s.keyToMap ≠ 0) :
    (∀ axis, axis < cfg.MAX_NUM_AXES → s.waitForNeutral = false →
      ¬ preserveDirs cfg s (s.joystickMappings.axes axis cfg.AXIS_CENTERED) →
      s.joystickMapState.axes axis ≠ cfg.AXIS_CENTERED →
      s.joystickMapState.axes axis < cfg.NUM_AXIS_VALUES →
      ∃ r, joystickAxisEvent cfg s axis cfg.AXIS_CENTERED = some r ∧
        completionProtocol cfg s r) ∧
    (∀ hat value, completionProtocol cfg s (mapHat cfg s hat value)) ∧
    (∀ button, button < cfg.MAX_NUM_BUTTONS → s.waitForNeutral = false →
      ¬ preserveDirs cfg s (s.joystickMappings.buttons button) →
      s.joystickMapState.buttons &&& (1 <<< button) ≠ 0 →
      ∃ r, joystickButtonEvent cfg s button false = some r ∧ completionProtocol cfg s r) ∧
    (∀ vkCode scanCode isExtended, s.isJoystick = false → vkCode ≠ cfg.VK_ESCAPE →
      completionProtocol cfg s (keyboardEvent cfg s vkCode scanCode isExtended true)) := by
  obtain ⟨hc, _, _, _, _, _, _, h32⟩ := hcfg
  refine ⟨?_, ?_, ?_, ?_⟩
  · intro axis ha hwait hgate hact hlt
    refine ⟨mapAxis cfg s axis (s.joystickMapState.axes axis), ?_, mapAxis_protocol cfg s axis _⟩
    rw [joystickAxisEvent_capturing cfg s axis cfg.AXIS_CENTERED ⟨ha, hc⟩ ⟨hK, hwait, hgate⟩,
      if_pos ⟨rfl, hact⟩, if_neg (not_not.mpr hlt)]
  · intro hat value
    exact mapHat_protocol cfg s hat value
  · intro button hb hwait hgate hact
    refine ⟨mapButton cfg s button, ?_, mapButton_protocol cfg s button⟩
    rw [joystickButtonEvent_capturing cfg s button false ⟨hb, by omega⟩ ⟨hK, hwait, hgate⟩,
      if_pos ⟨rfl, hact⟩]
  · intro vkCode scanCode isExtended hkbd hesc
    exact keyboardEvent_protocol cfg s vkCode scanCode isExtended hkbd hesc

/-- C21, witness: with `MAP_CONTINUOUSLY` the joystick that returns axis 0 to CENTERED
keeps capturing `0x20000` for owner 7 and tells owner 7 so; without it the keyboard
that receives the key `0x5A` is reset and tells owner 7 the key `0x30000`. -/
theorem completion_protocol_witness :
    (∃ r, joystickAxisEvent sampleConstants (sampleMidCapture 1 0x20000 2) 0 0 = some r ∧
      r.1.keyToMap = 0x20000 ∧ r.1.owner = some 7 ∧ r.1.options = 2 ∧
      r.2 = [Call.mappingsChanged, Call.doneMapping 7 0x20000]) ∧
    ((keyboardEvent sampleConstants (sampleMidCapture 0 0x30000 0) 0x5A 0 false true).1.keyToMap = 0 ∧
      (keyboardEvent sampleConstants (sampleMidCapture 0 0x30000 0) 0x5A 0 false true).1.owner = none ∧
      (keyboardEvent sampleConstants (sampleMidCapture 0 0x30000 0) 0x5A 0 false true).2 =
        [Call.unhook, Call.mappingsChanged, Call.doneMapping 7 0x30000]) := by
  constructor
  · obtain ⟨r, hr, _, hcont, hcalls⟩ :=
      (completion_protocol sampleConstants (by decide) (sampleMidCapture 1 0x20000 2)
        (by decide)).1 0 (by decide) rfl (by decide) (by decide) (by decide)
    obtain ⟨h1, h2, h3, _, _⟩ := hcont (by decide)
    exact ⟨r, hr, h1, h2, h3, hcalls⟩
  · obtain ⟨hreset, _, hcalls⟩ :=
      (completion_protocol sampleConstants (by decide) (sampleMidCapture 0 0x30000 0)
        (by decide)).2.2.2 0x5A 0 false rfl (by decide)
    obtain ⟨h1, h2, _, _⟩ := hreset (by decide)
    exact ⟨h1, h2, hcalls⟩

/-! ### C22: waiting for neutral implies a held key -/

theorem finishMapping_waitForNeutral (cfg : Constants) (s : Controller) :
    (finishMapping cfg s).1.waitForNeutral = true → s.waitForNeutral = true := by
  unfold finishMapping cancelMapping
  split
  · exact id
  · intro h
    exact Bool.noConfusion h

/-- The end of a capture keeps the invariant: `finishMapping` runs on a state `s1` that
has the `state` and the `waitForNeutral` of `s`. -/
theorem finishMapping_invariant (cfg : Constants) (s s1 : Controller)
    (hstate : s1.state = s.state) (hwait : s1.waitForNeutral = s.waitForNeutral)
    (hinv : s.waitForNeutral = true → s.state ≠ 0) :
    (finishMapping cfg s1).1.waitForNeutral = true → (finishMapping cfg s1).1.state ≠ 0 := by
  intro h
  rw [finishMapping_state, hstate]
  exact hinv (hwait ▸ finishMapping_waitForNeutral cfg s1 h)

theorem startMapping_invariant (cfg : Constants) (s : Controller) (owner : Option Nat)
    (key : Nat) (ignore : List Nat) (options : Nat)
    (hinv : s.waitForNeutral = true → s.state ≠ 0) :
    (startMapping cfg s owner key ignore options).1.waitForNeutral = true →
      (startMapping cfg s owner key ignore options).1.state ≠ 0 := by
  unfold startMapping
  dsimp only
  rw [finishMapping_state]
  by_cases h0 : s.state = 0
  · rw [if_neg (not_not.mpr h0)]
    intro h
    exact hinv (finishMapping_waitForNeutral cfg s h)
  · intro _
    exact h0

theorem keyboardEvent_invariant (cfg : Constants) (s : Controller) (vkCode scanCode : Nat)
    (isExtended isDown : Bool) (hinv : s.waitForNeutral = true → s.state ≠ 0) :
    (keyboardEvent cfg s vkCode scanCode isExtended isDown).1.waitForNeutral = true →
      (keyboardEvent cfg s vkCode scanCode isExtended isDown).1.state ≠ 0 := by
  unfold keyboardEvent
  split
  · exact hinv
  · split
    · exact hinv
    · dsimp only
      split
      · exact finishMapping_invariant cfg s _ rfl rfl hinv
      · exact finishMapping_invariant cfg s _ rfl rfl hinv

theorem mapAxis_invariant (cfg : Constants) (s : Controller) (axis activeValue : Nat)
    (hinv : s.waitForNeutral = true → s.state ≠ 0) :
    (mapAxis cfg s axis activeValue).1.waitForNeutral = true →
      (mapAxis cfg s axis activeValue).1.state ≠ 0 :=
  finishMapping_invariant cfg s _ rfl rfl hinv

theorem mapHat_invariant (cfg : Constants) (s : Controller) (hat value : Nat)
    (hinv : s.waitForNeutral = true → s.state ≠ 0) :
    (mapHat cfg s hat value).1.waitForNeutral = true →
      (mapHat cfg s hat value).1.state ≠ 0 :=
  finishMapping_invariant cfg s _ rfl rfl hinv

theorem mapButton_invariant (cfg : Constants) (s : Controller) (button : Nat)
    (hinv : s.waitForNeutral = true → s.state ≠ 0) :
    (mapButton cfg s button).1.waitForNeutral = true →
      (mapButton cfg s button).1.state ≠ 0 :=
  finishMapping_invariant cfg s _ rfl rfl hinv

/-- The statement `if ( !state && waitForNeutral ) waitForNeutral = false;` leaves a
state that has the invariant. -/
theorem neutral_reset_invariant (state : Nat) (wait : Bool) :
    (if state = 0 ∧ wait = true then false else wait) = true → state ≠ 0 := by
  intro h h0
  cases wait with
  | false => simp at h
  | true => simp [h0] at h

theorem joystickAxisEvent_invariant (cfg : Constants) (s : Controller) (axis value : Nat)
    (r : Controller × List Call) (hr : joystickAxisEvent cfg s axis value = some r)
    (hinv : s.waitForNeutral = true → s.state ≠ 0) :
    r.1.waitForNeutral = true → r.1.state ≠ 0 := by
  by_cases hin : axis < cfg.MAX_NUM_AXES ∧ value < cfg.NUM_AXIS_VALUES
  · by_cases hcap : s.keyToMap ≠ 0 ∧ s.waitForNeutral = false
        ∧ ¬ preserveDirs cfg s (s.joystickMappings.axes axis cfg.AXIS_CENTERED)
    · rw [joystickAxisEvent_capturing cfg s axis value hin hcap] at hr
      split at hr
      · split at hr
        · exact Option.noConfusion hr
        · cases hr
          exact mapAxis_invariant cfg s axis _ hinv
      · split at hr
        · cases hr
          exact hinv
        · cases hr
          exact hinv
    · rw [joystickAxisEvent_play cfg s axis value hin hcap] at hr
      split at hr
      · cases hr
        exact hinv
      · cases hr
        exact neutral_reset_invariant _ _
  · unfold joystickAxisEvent at hr
    rw [if_pos hin] at hr
    exact Option.noConfusion hr

theorem joystickHatEvent_invariant (cfg : Constants) (s : Controller) (hat value : Nat)
    (r : Controller × List Call) (hr : joystickHatEvent cfg s hat value = some r)
    (hinv : s.waitForNeutral = true → s.state ≠ 0) :
    r.1.waitForNeutral = true → r.1.state ≠ 0 := by
  by_cases hin : hat < cfg.MAX_NUM_HATS ∧ value < cfg.NUM_HAT_VALUES
  · by_cases hcap : s.keyToMap ≠ 0 ∧ s.waitForNeutral = false ∧ value % 2 = 0
        ∧ ¬ preserveDirs cfg s (s.joystickMappings.hats hat 5)
    · rw [joystickHatEvent_capturing cfg s hat value hin hcap] at hr
      split at hr
      · cases hr
        exact mapHat_invariant cfg s hat _ hinv
      · split at hr
        · cases hr
          exact hinv
        · cases hr
          exact hinv
    · rw [joystickHatEvent_play cfg s hat value hin hcap] at hr
      split at hr
      · cases hr
        exact hinv
      · cases hr
        exact neutral_reset_invariant _ _
  · unfold joystickHatEvent at hr
    rw [if_pos hin] at hr
    exact Option.noConfusion hr

theorem joystickButtonEvent_invariant (cfg : Constants) (s : Controller) (button : Nat)
    (isDown : Bool) (r : Controller × List Call)
    (hr : joystickButtonEvent cfg s button isDown = some r)
    (hinv : s.waitForNeutral = true → s.state ≠ 0) :
    r.1.waitForNeutral = true → r.1.state ≠ 0 := by
  by_cases hin : button < cfg.MAX_NUM_BUTTONS ∧ button < 32
  · by_cases hcap : s.keyToMap ≠ 0 ∧ s.waitForNeutral = false
        ∧ ¬ preserveDirs cfg s (s.joystickMappings.buttons button)
    · rw [joystickButtonEvent_capturing cfg s button isDown hin hcap] at hr
      split at hr
      · cases hr
        exact mapButton_invariant cfg s button hinv
      · split at hr
        · cases hr
          exact hinv
        · cases hr
          exact hinv
    · rw [joystickButtonEvent_play cfg s button isDown hin hcap] at hr
      split at hr
      · cases hr
        exact hinv
      · cases hr
        exact neutral_reset_invariant _ _
  · unfold joystickButtonEvent at hr
    rw [if_pos hin] at hr
    exact Option.noConfusion hr

theorem applyEvent_invariant (cfg : Constants) (s s1 : Controller) (e : Event)
    (he : applyEvent cfg s e = some s1) (hinv : s.waitForNeutral = true → s.state ≠ 0) :
    s1.waitForNeutral = true → s1.state ≠ 0 := by
  cases e with
  | startMapping owner key ignore options =>
    simp only [applyEvent, Option.some.injEq] at he
    subst he
    exact startMapping_invariant cfg s owner key ignore options hinv
  | cancelMapping =>
    simp only [applyEvent, Option.some.injEq] at he
    subst he
    intro h
    exact Bool.noConfusion h
  | clearMapping keys =>
    simp only [applyEvent, Option.some.injEq] at he
    subst he
    exact hinv
  | keyboard vkCode scanCode isExtended isDown =>
    simp only [applyEvent, Option.some.injEq] at he
    subst he
    exact keyboardEvent_invariant cfg s vkCode scanCode isExtended isDown hinv
  | axis axis value =>
    change (joystickAxisEvent cfg s axis value).map Prod.fst = some s1 at he
    cases hr : joystickAxisEvent cfg s axis value with
    | none =>
      rw [hr] at he
      exact Option.noConfusion he
    | some r =>
      rw [hr] at he
      simp only [Option.map_some', Option.some.injEq] at he
      subst he
      exact joystickAxisEvent_invariant cfg s axis value r hr hinv
  | hat hat value =>
    change (joystickHatEvent cfg s hat value).map Prod.fst = some s1 at he
    cases hr : joystickHatEvent cfg s hat value with
    | none =>
      rw [hr] at he
      exact Option.noConfusion he
    | some r =>
      rw [hr] at he
      simp only [Option.map_some', Option.some.injEq] at he
      subst he
      exact joystickHatEvent_invariant cfg s hat value r hr hinv
  | button button isDown =>
    change (joystickButtonEvent cfg s button isDown).map Prod.fst = some s1 at he
    cases hr : joystickButtonEvent cfg s button isDown with
    | none =>
      rw [hr] at he
      exact Option.noConfusion he
    | some r =>
      rw [hr] at he
      simp only [Option.map_some', Option.some.injEq] at he
      subst he
      exact joystickButtonEvent_invariant cfg s button isDown r hr hinv

theorem runEvents_invariant (cfg : Constants) (events : List Event) :
    ∀ s0 s : Controller, runEvents cfg s0 events = some s →
      (s0.waitForNeutral = true → s0.state ≠ 0) →
      s.waitForNeutral = true → s.state ≠ 0 := by
  induction events with
  | nil =>
    intro s0 s h hinv
    simp only [runEvents, Option.some.injEq] at h
    subst h
    exact hinv
  | cons e es ih =>
    intro s0 s h hinv
    unfold runEvents at h
    cases he : applyEvent cfg s0 e with
    | none =>
      rw [he] at h
      exact Option.noConfusion h
    | some s1 =>
      rw [he] at h
      exact ih s1 s h (applyEvent_invariant cfg s0 s1 e he hinv)

/-- C22: in every engine state `s` reached from a state `s0` with `waitForNeutral`
false (in particular from the initial state, where also `state == 0` and
`keyToMap == 0`) by a sequence of `startMapping`, `cancelMapping`, `clearMapping`,
keyboard, axis, hat and button events, `waitForNeutral == true` implies
`state != 0`. -/
theorem wait_for_neutral_implies_held (cfg : Constants) (s0 s : Controller)
    (events : List Event) (hwait : s0.waitForNeutral = false)
    (hrun : runEvents cfg s0 events = some s) :
    s.waitForNeutral = true → s.state ≠ 0 :=
  runEvents_invariant cfg events s0 s hrun
    (fun h => Bool.noConfusion (hwait.symm.trans h))

/-- C22, witness: from the idle joystick, holding the mapped button 0 and then
starting a capture reaches a state that waits for neutral, with `state` non-zero. -/
theorem wait_for_neutral_implies_held_witness :
    sampleIdle.state = 0 ∧ sampleIdle.waitForNeutral = false ∧ sampleIdle.keyToMap = 0 ∧
    ∃ s, runEvents sampleConstants sampleIdle
        [Event.button 0 true, Event.startMapping (some 7) 0x20000 [] 0] = some s ∧
      s.waitForNeutral = true ∧ s.state ≠ 0 := by
  refine ⟨rfl, rfl, rfl, ?_⟩
  have hw : (runEvents sampleConstants sampleIdle
      [Event.button 0 true, Event.startMapping (some 7) 0x20000 [] 0]).map
        (fun s => s.waitForNeutral) = some true := by decide
  cases h : runEvents sampleConstants sampleIdle
      [Event.button 0 true, Event.startMapping (some 7) 0x20000 [] 0] with
  | none =>
    rw [h] at hw
    exact Option.noConfusion hw
  | some s =>
    rw [h] at hw
    have hs : s.waitForNeutral = true := Option.some.inj hw
    exact ⟨s, rfl, hs,
      wait_for_neutral_implies_held sampleConstants sampleIdle s _ rfl h hs⟩

/-- Scenario "Wait-for-neutral" of the specification, evaluated: with button 0 held a
capture starts waiting; the down and up events of the unmapped button 2 bind nothing;
the release of button 0 ends the wait; then the press and release of button 2 binds
it. Listed are `waitForNeutral`, `state` and `buttons[2]` after each stage. -/
theorem wait_for_neutral_scenario :
    [ [Event.button 0 true, Event.startMapping (some 7) 0x20000 [] 0],
      [Event.button 0 true, Event.startMapping (some 7) 0x20000 [] 0,
        Event.button 2 true, Event.button 2 false],
      [Event.button 0 true, Event.startMapping (some 7) 0x20000 [] 0,
        Event.button 2 true, Event.button 2 false, Event.button 0 false],
      [Event.button 0 true, Event.startMapping (some 7) 0x20000 [] 0,
        Event.button 2 true, Event.button 2 false, Event.button 0 false,
        Event.button 2 true, Event.button 2 false] ].map
      (fun events => (runEvents sampleConstants sampleIdle events).map
        (fun s => (s.waitForNeutral, s.state, s.joystickMappings.buttons 2)))
    = [some (true, 0x30000, 0), some (true, 0x30000, 0), some (false, 0, 0),
        some (false, 0, 0x20000)] := by
  decide

/-! ### C23: keyboard events while not capturing -/

/-- The keyboard table after a keyboard event that passes the two guards, for a key
other than ESC. -/
theorem keyboardEvent_table (cfg : Constants) (s : Controller) (vkCode scanCode : Nat)
    (isExtended isDown : Bool) (hkbd : s.isJoystick = false)
    (hdown : ¬ (isDown = false ∧ s.keyToMap ≠ 0)) (hesc : vkCode ≠ cfg.VK_ESCAPE) :
    (keyboardEvent cfg s vkCode scanCode isExtended isDown).1.keyboardMappings =
      KeyboardMappings.invalidate
        ((List.range 32).foldl
          (bindKeySlot s.keyToMap vkCode (cfg.getVKeyName vkCode scanCode isExtended))
          (doClearMapping cfg s.keyToMap s).keyboardMappings) := by
  unfold keyboardEvent
  rw [if_neg (fun hx => by rw [hkbd] at hx; exact Bool.noConfusion hx.1), if_neg hdown]
  dsimp only
  rw [if_pos hesc, finishMapping_keyboardMappings]

/-- An ESC event does not touch the keyboard table. -/
theorem keyboardEvent_escape_table (cfg : Constants) (s : Controller) (scanCode : Nat)
    (isExtended isDown : Bool) :
    (keyboardEvent cfg s cfg.VK_ESCAPE scanCode isExtended isDown).1.keyboardMappings =
      s.keyboardMappings := by
  unfold keyboardEvent
  split
  · rfl
  · split
    · rfl
    · dsimp only
      rw [if_neg (not_not.mpr rfl), finishMapping_keyboardMappings]

/-- C23 (amended): when the engine is not capturing (`keyToMap == 0`), a keyboard
event delivered to a keyboard device, key-down or key-up, leaves the keyboard table as
it is if the key is ESC; for any other virtual-key code `vk` it unbinds every slot
whose code is `vk` (code 0, empty name) and leaves the code and the name of every
other slot unchanged. -/
theorem idle_keyboard_event_effect (cfg : Constants) (s : Controller) (vkCode scanCode : Nat)
    (isExtended isDown : Bool) (hkbd : s.isJoystick = false) (hidle : s.keyToMap = 0) :
    (vkCode = cfg.VK_ESCAPE →
      (keyboardEvent cfg s vkCode scanCode isExtended isDown).1.keyboardMappings
        = s.keyboardMappings) ∧
    (vkCode ≠ cfg.VK_ESCAPE → ∀ i, i < 32 →
      (s.keyboardMappings.codes i = vkCode →
        (keyboardEvent cfg s vkCode scanCode isExtended isDown).1.keyboardMappings.codes i = 0 ∧
        (keyboardEvent cfg s vkCode scanCode isExtended isDown).1.keyboardMappings.names i = "") ∧
      (s.keyboardMappings.codes i ≠ vkCode →
        (keyboardEvent cfg s vkCode scanCode isExtended isDown).1.keyboardMappings.codes i
          = s.keyboardMappings.codes i ∧
        (keyboardEvent cfg s vkCode scanCode isExtended isDown).1.keyboardMappings.names i
          = s.keyboardMappings.names i)) := by
  constructor
  · intro hesc
    rw [hesc]
    exact keyboardEvent_escape_table cfg s scanCode isExtended isDown
  · intro hesc i hi
    have hdown : ¬ (isDown = false ∧ s.keyToMap ≠ 0) := fun hx => hx.2 hidle
    have hclr := (doClearMapping_key_slot cfg 0 s i hi).2 (Nat.zero_testBit i)
    have hfold := bindKeys_fold 0 vkCode (cfg.getVKeyName vkCode scanCode isExtended)
      (doClearMapping cfg 0 s).keyboardMappings 32 i
    have hbit : ¬ (0 &&& (1 <<< i) ≠ 0) := not_not.mpr (Nat.zero_and _)
    rw [if_pos hi, if_neg hbit, hclr.1] at hfold
    rw [keyboardEvent_table cfg s vkCode scanCode isExtended isDown hkbd hdown hesc, hidle]
    have hcodes : ∀ km : KeyboardMappings, (KeyboardMappings.invalidate km).codes = km.codes :=
      fun _ => rfl
    have hnames : ∀ km : KeyboardMappings, (KeyboardMappings.invalidate km).names = km.names :=
      fun _ => rfl
    rw [hcodes, hnames, hfold.1]
    have hn := hfold.2
    rw [if_pos hi, if_neg hbit, hclr.2] at hn
    rw [hn]
    constructor
    · intro h
      rw [if_pos h, if_pos h]
      exact ⟨rfl, rfl⟩
    · intro h
      rw [if_neg h, if_neg h]
      exact ⟨rfl, rfl⟩

/-- C23, witness: on the idle keyboard with slots 3 and 16 bound to `0x5A` and slot 4
bound to `0x41`, the release of `0x5A` unbinds slot 3 and leaves slot 4 bound, and the
release of ESC leaves the whole table as it is. -/
theorem idle_keyboard_event_effect_witness :
    ((keyboardEvent sampleConstants (sampleBoundKeyboard 0) 0x5A 0 false false).1.keyboardMappings.codes 3
        = 0 ∧
      (keyboardEvent sampleConstants (sampleBoundKeyboard 0) 0x5A 0 false false).1.keyboardMappings.names 3
        = "") ∧
    ((keyboardEvent sampleConstants (sampleBoundKeyboard 0) 0x5A 0 false false).1.keyboardMappings.codes 4
        = 0x41 ∧
      (keyboardEvent sampleConstants (sampleBoundKeyboard 0) 0x5A 0 false false).1.keyboardMappings.names 4
        = "A") ∧
    (keyboardEvent sampleConstants (sampleBoundKeyboard 0) 0x1B 0 false false).1.keyboardMappings
        = (sampleBoundKeyboard 0).keyboardMappings :=
  ⟨((idle_keyboard_event_effect sampleConstants (sampleBoundKeyboard 0) 0x5A 0 false false
      rfl rfl).2 (by decide) 3 (by decide)).1 (by decide),
   ((idle_keyboard_event_effect sampleConstants (sampleBoundKeyboard 0) 0x5A 0 false false
      rfl rfl).2 (by decide) 4 (by decide)).2 (by decide),
   (idle_keyboard_event_effect sampleConstants (sampleBoundKeyboard 0) 0x1B 0 false false
      rfl rfl).1 (by decide)⟩

/-- C23 as stated fails: the keyboard is not capturing (`keyToMap == 0`) and its slot 3
holds the code `0x5A`; after the key-down event of `0x5A`, and equally after its
key-up event, slot 3 holds the code 0 and an empty name. -/
theorem idle_keyboard_event_unbinds :
    (sampleBoundKeyboard 0).isKeyboard = true ∧ (sampleBoundKeyboard 0).keyToMap = 0 ∧
    (sampleBoundKeyboard 0).keyboardMappings.codes 3 = 0x5A ∧
    (sampleBoundKeyboard 0).keyboardMappings.names 3 = "Z" ∧
    (keyboardEvent sampleConstants (sampleBoundKeyboard 0) 0x5A 0 false true).1.keyboardMappings.codes 3
      = 0 ∧
    (keyboardEvent sampleConstants (sampleBoundKeyboard 0) 0x5A 0 false true).1.keyboardMappings.names 3
      = "" ∧
    (keyboardEvent sampleConstants (sampleBoundKeyboard 0) 0x5A 0 false false).1.keyboardMappings.codes 3
      = 0 ∧
    (keyboardEvent sampleConstants (sampleBoundKeyboard 0) 0x5A 0 false false).1.keyboardMappings.names 3
      = "" := by
  refine ⟨by decide, by decide, by decide, by decide, by decide, by decide, by decide, by decide⟩

end Controller

/-! ## Theorems about the name registry -/

namespace Registry

/-! ### The search of `nextName` -/

/-- A name the loop returns is not in use. -/
theorem nextNameFrom_not_mem (indexed : String → Nat → String) (names : List String)
    (name : String) (n : Nat) :
    ∀ (index : Nat) (h : index < 2 ^ 32), 2 ^ 32 - index = n → ∀ d,
      nextNameFrom indexed names name index h = NameResult.name d → d ∉ names := by
  induction n with
  | zero => intro index h hn; omega
  | succ n ih =>
    intro index h hn d hd
    rw [nextNameFrom] at hd
    by_cases hmem : indexed name index ∈ names
    · rw [if_pos hmem] at hd
      by_cases hmax : index = 2 ^ 32 - 1
      · rw [dif_pos hmax] at hd
        exact NameResult.noConfusion hd
      · rw [dif_neg hmax] at hd
        exact ih (index + 1) (by omega) (by omega) d hd
    · rw [if_neg hmem] at hd
      injection hd with hd
      rw [← hd]
      exact hmem

/-- The loop returns the name of the first free counter value at or after `index`. -/
theorem nextNameFrom_first_free (indexed : String → Nat → String) (names : List String)
    (name : String) (k : Nat) (hk : k < 2 ^ 32) (hfree : indexed name k ∉ names) (n : Nat) :
    ∀ (index : Nat) (h : index < 2 ^ 32), k - index = n → index ≤ k →
      (∀ j, index ≤ j → j < k → indexed name j ∈ names) →
      nextNameFrom indexed names name index h = NameResult.name (indexed name k) := by
  induction n with
  | zero =>
    intro index h hn hle _
    have : index = k := by omega
    subst this
    rw [nextNameFrom, if_neg hfree]
  | succ n ih =>
    intro index h hn hle hused
    have hmem : indexed name index ∈ names := hused index (Nat.le_refl _) (by omega)
    have hmax : ¬ index = 2 ^ 32 - 1 := by omega
    rw [nextNameFrom, if_pos hmem, dif_neg hmax]
    exact ih (index + 1) (by omega) (by omega) (by omega)
      (fun j hj hjk => hused j (by omega) hjk)

/-- The loop throws when every counter value from `index` to `2 ^ 32 - 1` gives a name in use. -/
theorem nextNameFrom_exhausted (indexed : String → Nat → String) (names : List String)
    (name : String) (n : Nat) :
    ∀ (index : Nat) (h : index < 2 ^ 32), 2 ^ 32 - index = n →
      (∀ j, index ≤ j → j < 2 ^ 32 → indexed name j ∈ names) →
      nextNameFrom indexed names name index h = NameResult.tooManyControllers := by
  induction n with
  | zero => intro index h hn; omega
  | succ n ih =>
    intro index h hn hused
    have hmem : indexed name index ∈ names := hused index (Nat.le_refl _) h
    rw [nextNameFrom, if_pos hmem]
    by_cases hmax : index = 2 ^ 32 - 1
    · rw [dif_pos hmax]
    · rw [dif_neg hmax]
      exact ih (index + 1) (by omega) (by omega) (fun j hj hj2 => hused j (by omega) hj2)

/-- A name `nextName` returns is not in use. -/
theorem nextName_not_mem (indexed : String → Nat → String) (names : List String)
    (name d : String) (h : nextName indexed names name = NameResult.name d) : d ∉ names := by
  unfold nextName at h
  by_cases hmem : name ∈ names
  · rw [if_neg (not_not.mpr hmem)] at h
    exact nextNameFrom_not_mem indexed names name _ 2 (by decide) rfl d h
  · rw [if_pos hmem] at h
    injection h with h
    rw [← h]
    exact hmem

/-! ### C18: the next free name -/

/-- C18 (amended): for every finite collection of names in use and every base name
`b`, `nextName ( b )` terminates (it is a total function) and: it returns `b` if `b` is
not in use; otherwise, if some `k` with `2 <= k <= 2 ^ 32 - 1` has "b (k)" not in use,
it returns "b (k)" for the smallest such `k`; otherwise, when "b (k)" is in use for
every `k` from 2 to `2 ^ 32 - 1`, it fails with too-many-controllers. Every name it
returns is not in the in-use set. -/
theorem nextName_spec (indexed : String → Nat → String) (names : List String) (b : String) :
    (b ∉ names → nextName indexed names b = NameResult.name b) ∧
    (b ∈ names → ∀ k, 2 ≤ k → k < 2 ^ 32 → indexed b k ∉ names →
      (∀ j, 2 ≤ j → j < k → indexed b j ∈ names) →
      nextName indexed names b = NameResult.name (indexed b k)) ∧
    (b ∈ names → (∀ j, 2 ≤ j → j < 2 ^ 32 → indexed b j ∈ names) →
      nextName indexed names b = NameResult.tooManyControllers) ∧
    (∀ d, nextName indexed names b = NameResult.name d → d ∉ names) := by
  refine ⟨?_, ?_, ?_, ?_⟩
  · intro hb
    unfold nextName
    rw [if_pos hb]
  · intro hb k hk2 hk hfree hused
    unfold nextName
    rw [if_neg (not_not.mpr hb)]
    exact nextNameFrom_first_free indexed names b k hk hfree (k - 2) 2 (by decide) rfl hk2 hused
  · intro hb hused
    unfold nextName
    rw [if_neg (not_not.mpr hb)]
    exact nextNameFrom_exhausted indexed names b _ 2 (by decide) rfl hused
  · intro d hd
    exact nextName_not_mem indexed names b d hd

/-- C18, witness: "Pad" and "Pad (2)" are in use, so the next name is "Pad (3)". -/
theorem nextName_spec_witness :
    ("Pad" ∈ ["Pad", "Pad (2)"] ∧ sampleIndexed "Pad" 3 ∉ ["Pad", "Pad (2)"]) ∧
    nextName sampleIndexed ["Pad", "Pad (2)"] "Pad" = NameResult.name "Pad (3)" := by
  refine ⟨⟨by decide, by decide⟩, ?_⟩
  have h := (nextName_spec sampleIndexed ["Pad", "Pad (2)"] "Pad").2.1 (by decide) 3 (by decide)
    (by decide) (by decide)
    (fun j h1 h2 => by
      have hj : j = 2 := by omega
      subst hj
      decide)
  rw [h]
  decide

/-- C18, counterexample: "Pad" and every "Pad (k)" with `k < 2 ^ 32` are in use; the
counter reaches `2 ^ 32 - 1` without finding a free name and `nextName` throws
`ERROR_TOO_MANY_CONTROLLERS` instead of returning a name. -/
theorem nextName_too_many :
    nextName sampleIndexed ("Pad" :: (List.range (2 ^ 32)).map (sampleIndexed "Pad")) "Pad"
      = NameResult.tooManyControllers := by
  unfold nextName
  rw [if_neg (not_not.mpr (List.mem_cons_self _ _))]
  apply nextNameFrom_exhausted sampleIndexed _ "Pad" _ 2 (by decide) rfl
  intro j _ hj
  exact List.mem_cons_of_mem _ (List.mem_map_of_mem _ (List.mem_range.mpr hj))

/-! ### C17: distinct display names -/

theorem mem_insertName (x n : String) (names : List String) :
    n ∈ insertName x names ↔ n = x ∨ n ∈ names := by
  unfold insertName
  by_cases h : x ∈ names
  · rw [if_pos h]
    constructor
    · exact Or.inr
    · rintro (h1 | h1)
      · rw [h1]; exact h
      · exact h1
  · rw [if_neg h, List.mem_cons]

theorem nodup_insertName (x : String) (names : List String) (h : names.Nodup) :
    (insertName x names).Nodup := by
  unfold insertName
  by_cases hx : x ∈ names
  · rw [if_pos hx]; exact h
  · rw [if_neg hx]; exact List.nodup_cons.mpr ⟨hx, h⟩

theorem map_displayName_erase (l : List DeviceNames) (d : DeviceNames)
    (hnd : (l.map DeviceNames.displayName).Nodup) (hd : d ∈ l) :
    (l.erase d).map DeviceNames.displayName
      = (l.map DeviceNames.displayName).erase d.displayName := by
  induction l with
  | nil => simp
  | cons a t ih =>
    rw [List.map_cons, List.nodup_cons] at hnd
    by_cases had : a = d
    · subst had
      simp
    · have hdt : d ∈ t := by
        rcases List.mem_cons.mp hd with h | h
        · exact absurd h.symm had
        · exact h
      have hne : a.displayName ≠ d.displayName := by
        intro heq
        apply hnd.1
        rw [heq]
        exact List.mem_map_of_mem _ hdt
      rw [List.erase_cons_tail (by simpa using had), List.map_cons, List.map_cons,
        List.erase_cons_tail (by simpa using hne), ih hnd.2 hdt]

/-- One operation keeps the registry consistent with the live devices, when a keyboard is only constructed while the name "Keyboard" is not displayed. -/
theorem consistent_step (indexed : String → Nat → String) (w : World) (op : Op)
    (hw : Consistent w) (hk : op = Op.newKeyboard → "Keyboard" ∉ w.displayNames) :
    Consistent (step indexed w op) := by
  obtain ⟨h1, h2, h3⟩ := hw
  cases op with
  | newKeyboard =>
    have hfresh := hk rfl
    refine ⟨?_, ?_, ?_⟩
    · exact List.nodup_cons.mpr ⟨hfresh, h1⟩
    · exact nodup_insertName _ _ h2
    · intro n
      simp only [step, constructKeyboard, World.displayNames, List.map_cons, List.mem_cons,
        mem_insertName]
      rw [← h3 n]
      rfl
  | newJoystick name =>
    simp only [step, constructJoystick]
    cases hres : nextName indexed w.registry.namesWithIndex name with
    | tooManyControllers => exact ⟨h1, h2, h3⟩
    | name display =>
      have hfree : display ∉ w.registry.namesWithIndex := nextName_not_mem _ _ _ _ hres
      refine ⟨?_, ?_, ?_⟩
      · exact List.nodup_cons.mpr ⟨fun h => hfree ((h3 display).mp h), h1⟩
      · exact nodup_insertName _ _ h2
      · intro n
        simp only [World.displayNames, List.map_cons, List.mem_cons, mem_insertName]
        rw [← h3 n]
        rfl
  | delete d =>
    simp only [step]
    by_cases hd : d ∈ w.live
    · rw [if_pos hd]
      have hmap := map_displayName_erase w.live d h1 hd
      refine ⟨?_, ?_, ?_⟩
      · show ((w.live.erase d).map DeviceNames.displayName).Nodup
        rw [hmap]
        exact List.Nodup.erase _ h1
      · exact List.Nodup.erase _ h2
      · intro n
        show n ∈ (w.live.erase d).map DeviceNames.displayName ↔
          n ∈ w.registry.namesWithIndex.erase d.displayName
        have h1' : (w.live.map DeviceNames.displayName).Nodup := h1
        rw [hmap, List.Nodup.mem_erase_iff h1', List.Nodup.mem_erase_iff h2]
        exact and_congr_right (fun _ => h3 n)
    · rw [if_neg hd]
      exact ⟨h1, h2, h3⟩

theorem consistent_run (indexed : String → Nat → String) (ops : List Op) :
    ∀ w, Consistent w → keyboardFresh indexed w ops → Consistent (run indexed w ops) := by
  induction ops with
  | nil => intro w hw _; exact hw
  | cons op ops ih =>
    intro w hw hk
    exact ih (step indexed w op) (consistent_step indexed w op hw hk.1) hk.2

/-- C17 (amended): starting from an empty registry, after every sequence of joystick
constructions (with arbitrary base names), destructions, and keyboard constructions
each of which happens while no live device is displayed as "Keyboard", the display
names of the live devices are pairwise distinct. -/
theorem display_names_distinct (indexed : String → Nat → String) (ops : List Op)
    (hk : keyboardFresh indexed ⟨initial, []⟩ ops) :
    (run indexed ⟨initial, []⟩ ops).displayNames.Nodup :=
  (consistent_run indexed ops ⟨initial, []⟩
    ⟨List.nodup_nil, List.nodup_nil, fun _ => Iff.rfl⟩ hk).1

/-- C17, witness: a joystick "Pad", the keyboard, a joystick named "Keyboard", a
second "Pad", the destruction of the first "Pad" and a third "Pad". -/
theorem display_names_distinct_witness :
    keyboardFresh sampleIndexed ⟨initial, []⟩
      [Op.newJoystick "Pad", Op.newKeyboard, Op.newJoystick "Keyboard", Op.newJoystick "Pad",
        Op.delete ⟨"Pad", "Pad"⟩, Op.newJoystick "Pad"] ∧
    (run sampleIndexed ⟨initial, []⟩
      [Op.newJoystick "Pad", Op.newKeyboard, Op.newJoystick "Keyboard", Op.newJoystick "Pad",
        Op.delete ⟨"Pad", "Pad"⟩, Op.newJoystick "Pad"]).displayNames.Nodup :=
  ⟨by decide, display_names_distinct sampleIndexed _ (by decide)⟩

/-- C17, counterexample: a joystick whose base name is "Keyboard" is constructed
first and is displayed as "Keyboard"; the keyboard constructed next registers the
literal "Keyboard" without asking `nextName`, so two live devices are displayed as
"Keyboard". Two keyboards give the same result. -/
theorem display_names_collide :
    (run sampleIndexed ⟨initial, []⟩ [Op.newJoystick "Keyboard", Op.newKeyboard]).displayNames
      = ["Keyboard", "Keyboard"] ∧
    (run sampleIndexed ⟨initial, []⟩ [Op.newKeyboard, Op.newKeyboard]).displayNames
      = ["Keyboard", "Keyboard"] := by
  refine ⟨by decide, by decide⟩

end Registry

end CCCaster
